import Mathlib

/-!
# k8sgpt-operator: desired-state builder and synchronizer

A shallow embedding of `pkg/resources/k8sgpt.go` (the descriptor builders
`GetServiceAccount`, `GetService`, `GetClusterRole`, `GetClusterRoleBinding`,
`GetDeployment`, and the synchronizer `Sync` / `doSync`).

Conventions of the embedding:

* a Go `error` result is an `Option Error` (`none` is `nil`), a Go
  `(value, error)` result is an `Except Error value`;
* the Kubernetes client is an explicit record of store operations over an
  abstract store state; every call the program issues is appended to a call
  log carried next to the store state (`World`);
* Go pointers that the code compares with `nil` are `Option`s; fields that the
  code dereferences without a check are plain values;
* Go maps of strings are association lists.
-/

set_option autoImplicit false

namespace K8sgpt

/-! ## Errors -/

/-- The status reasons of an API error that the program distinguishes. -/
inductive StatusReason where
  | notFound
  | alreadyExists
  | conflict
  | other (code : Nat)
deriving DecidableEq, Repr

/-- A Go error value: an API status error carrying a reason, or a plain error
made with `errors.New`. -/
inductive Error where
  | status (reason : StatusReason) (message : String)
  | plain (message : String)
deriving DecidableEq, Repr

/-- The predicate `errors.IsNotFound` of apimachinery. -/
def IsNotFound : Error → Bool
  | .status .notFound _ => true
  | _ => false

/-- The predicate `errors.IsAlreadyExists` of apimachinery. -/
def IsAlreadyExists : Error → Bool
  | .status .alreadyExists _ => true
  | _ => false

/-- The predicate `errors.IsConflict` of apimachinery. -/
def IsConflict : Error → Bool
  | .status .conflict _ => true
  | _ => false

/-! ## Kubernetes object model (the fields the program reads or writes) -/

/-- A resource quantity, kept as the text it was parsed from. -/
structure Quantity where
  text : String
deriving DecidableEq, Repr

/-- The function `resource.MustParse`. -/
def MustParse (s : String) : Quantity := ⟨s⟩

/-- A `corev1.ResourceList`: a map from resource name to quantity. -/
abbrev ResourceList := List (String × Quantity)

/-- The resource name `corev1.ResourceCPU`. -/
def ResourceCPU : String := "cpu"

/-- The resource name `corev1.ResourceMemory`. -/
def ResourceMemory : String := "memory"

/-- A `corev1.ResourceRequirements`; a `nil` map is `none`. -/
structure ResourceRequirements where
  limits : Option ResourceList
  requests : Option ResourceList
deriving DecidableEq, Repr

/-- A `metav1.OwnerReference`. -/
structure OwnerReference where
  kind : String
  name : String
  uid : String
  apiVersion : String
  blockOwnerDeletion : Option Bool
  controller : Option Bool
deriving DecidableEq, Repr

/-- A `metav1.ObjectMeta`. -/
structure ObjectMeta where
  name : String
  ns : String
  labels : List (String × String)
  annotations : List (String × String)
  ownerReferences : List OwnerReference
  uid : String
  resourceVersion : String
deriving DecidableEq, Repr

/-- A `types.NamespacedName`, the identity key of an object within its kind. -/
structure NamespacedName where
  ns : String
  name : String
deriving DecidableEq, Repr

/-- A `corev1.SecretKeySelector`. -/
structure SecretKeySelector where
  name : String
  key : String
deriving DecidableEq, Repr

/-- A `corev1.EnvVarSource`. -/
structure EnvVarSource where
  secretKeyRef : Option SecretKeySelector
deriving DecidableEq, Repr

/-- A `corev1.EnvVar`. -/
structure EnvVar where
  name : String
  value : String
  valueFrom : Option EnvVarSource
deriving DecidableEq, Repr

/-- A `corev1.ContainerPort`. -/
structure ContainerPort where
  containerPort : Int
deriving DecidableEq, Repr

/-- A `corev1.VolumeMount`. -/
structure VolumeMount where
  name : String
  readOnly : Bool
  mountPath : String
deriving DecidableEq, Repr

/-- A `corev1.KeyToPath`. -/
structure KeyToPath where
  key : String
  path : String
deriving DecidableEq, Repr

/-- A `corev1.SecretVolumeSource`. -/
structure SecretVolumeSource where
  secretName : String
  items : List KeyToPath
deriving DecidableEq, Repr

/-- A `corev1.VolumeSource`; `emptyDir` is true for `&EmptyDirVolumeSource{}`. -/
structure VolumeSource where
  emptyDir : Bool
  secret : Option SecretVolumeSource
deriving DecidableEq, Repr

/-- A `corev1.Volume`. -/
structure Volume where
  name : String
  volumeSource : VolumeSource
deriving DecidableEq, Repr

/-- A `corev1.Container`. -/
structure Container where
  name : String
  imagePullPolicy : String
  image : String
  args : List String
  env : List EnvVar
  ports : List ContainerPort
  resources : ResourceRequirements
  volumeMounts : List VolumeMount
deriving DecidableEq, Repr

/-- A `corev1.PodSpec`. -/
structure PodSpec where
  serviceAccountName : String
  automountServiceAccountToken : Option Bool
  containers : List Container
  volumes : List Volume
  nodeSelector : List (String × String)
deriving DecidableEq, Repr

/-- A `corev1.PodTemplateSpec`. -/
structure PodTemplateSpec where
  labels : List (String × String)
  spec : PodSpec
deriving DecidableEq, Repr

/-- A `metav1.LabelSelector`. -/
structure LabelSelector where
  matchLabels : List (String × String)
deriving DecidableEq, Repr

/-- An `appsv1.DeploymentSpec`. -/
structure DeploymentSpec where
  replicas : Option Int
  selector : Option LabelSelector
  template : PodTemplateSpec
deriving DecidableEq, Repr

/-- An `appsv1.DeploymentStatus`. -/
structure DeploymentStatus where
  availableReplicas : Int
deriving DecidableEq, Repr

/-- An `appsv1.Deployment`. -/
structure Deployment where
  objectMeta : ObjectMeta
  spec : DeploymentSpec
  status : DeploymentStatus
deriving DecidableEq, Repr

/-- A `corev1.ServicePort`. -/
structure ServicePort where
  port : Int
deriving DecidableEq, Repr

/-- A `corev1.ServiceSpec`. -/
structure ServiceSpec where
  selector : List (String × String)
  ports : List ServicePort
  clusterIP : String
deriving DecidableEq, Repr

/-- A `corev1.ServiceStatus`. -/
structure ServiceStatus where
  loadBalancerIngress : List String
deriving DecidableEq, Repr

/-- A `corev1.Service`. -/
structure Service where
  objectMeta : ObjectMeta
  spec : ServiceSpec
  status : ServiceStatus
deriving DecidableEq, Repr

/-- A `corev1.ServiceAccount`. -/
structure ServiceAccount where
  objectMeta : ObjectMeta
deriving DecidableEq, Repr

/-- A `rbacv1.PolicyRule`. -/
structure PolicyRule where
  apiGroups : List String
  resources : List String
  verbs : List String
deriving DecidableEq, Repr

/-- A `rbacv1.ClusterRole`. -/
structure ClusterRole where
  objectMeta : ObjectMeta
  rules : List PolicyRule
deriving DecidableEq, Repr

/-- A `rbacv1.Subject`. -/
structure Subject where
  kind : String
  name : String
  ns : String
deriving DecidableEq, Repr

/-- A `rbacv1.RoleRef`. -/
structure RoleRef where
  kind : String
  name : String
deriving DecidableEq, Repr

/-- A `rbacv1.ClusterRoleBinding`. -/
structure ClusterRoleBinding where
  objectMeta : ObjectMeta
  subjects : List Subject
  roleRef : RoleRef
deriving DecidableEq, Repr

/-- A `corev1.Secret`; the program never reads its data. -/
structure Secret where
  objectMeta : ObjectMeta
deriving DecidableEq, Repr

/-- The Go types of the objects the program hands to the client. -/
inductive Kind where
  | secret
  | serviceAccount
  | service
  | deployment
  | clusterRole
  | clusterRoleBinding
deriving DecidableEq, Repr

/-- A `client.Object`: a value of one of the object types. -/
inductive Obj where
  | secret (o : Secret)
  | serviceAccount (o : ServiceAccount)
  | service (o : Service)
  | deployment (o : Deployment)
  | clusterRole (o : ClusterRole)
  | clusterRoleBinding (o : ClusterRoleBinding)
deriving DecidableEq, Repr

/-- The Go type of an object. -/
def Obj.kind : Obj → Kind
  | .secret _ => .secret
  | .serviceAccount _ => .serviceAccount
  | .service _ => .service
  | .deployment _ => .deployment
  | .clusterRole _ => .clusterRole
  | .clusterRoleBinding _ => .clusterRoleBinding

/-- The metadata of an object. -/
def Obj.objectMeta : Obj → ObjectMeta
  | .secret o => o.objectMeta
  | .serviceAccount o => o.objectMeta
  | .service o => o.objectMeta
  | .deployment o => o.objectMeta
  | .clusterRole o => o.objectMeta
  | .clusterRoleBinding o => o.objectMeta

/-- The function `client.ObjectKeyFromObject`. -/
def ObjectKeyFromObject (obj : Obj) : NamespacedName :=
  ⟨obj.objectMeta.ns, obj.objectMeta.name⟩

/-! ## The custom resource (declared in `api/v1alpha1`) -/

/-- A `v1alpha1.SecretRef`. -/
structure SecretRef where
  name : String
  key : String
deriving DecidableEq, Repr

/-- A `v1alpha1.BackOff`. -/
structure BackOff where
  enabled : Bool
  maxRetries : Int
deriving DecidableEq, Repr

/-- A `v1alpha1.AISpec`. -/
structure AISpec where
  backend : String
  model : String
  engine : String
  region : String
  baseUrl : String
  proxyEndpoint : String
  providerId : String
  maxTokens : String
  topk : String
  secret : Option SecretRef
  backOff : Option BackOff
deriving DecidableEq, Repr

/-- A `v1alpha1.CredentialsRef`. -/
structure CredentialsRef where
  name : String
deriving DecidableEq, Repr

/-- A `v1alpha1.AzureBackend`. -/
structure AzureBackend where
  storageAccount : String
  containerName : String
deriving DecidableEq, Repr

/-- A `v1alpha1.S3Backend`. -/
structure S3Backend where
  bucketName : String
  region : String
deriving DecidableEq, Repr

/-- A `v1alpha1.RemoteCacheRef`. -/
structure RemoteCacheRef where
  credentials : CredentialsRef
  azure : Option AzureBackend
  s3 : Option S3Backend
deriving DecidableEq, Repr

/-- A `v1alpha1.ExtraOptionsRef`. -/
structure ExtraOptionsRef where
  serviceAccountIRSA : String
deriving DecidableEq, Repr

/-- A `v1alpha1.K8sGPTSpec`. -/
structure K8sGPTSpec where
  version : String
  repository : String
  imagePullPolicy : String
  ai : AISpec
  resources : Option ResourceRequirements
  nodeSelector : List (String × String)
  kubeconfig : Option SecretRef
  remoteCache : Option RemoteCacheRef
  extraOptions : Option ExtraOptionsRef
deriving DecidableEq, Repr

/-- A `v1alpha1.K8sGPT`: type meta, the object meta fields the program reads,
and the spec. -/
structure K8sGPT where
  kind : String
  apiVersion : String
  name : String
  ns : String
  uid : String
  spec : K8sGPTSpec
deriving DecidableEq, Repr

/-- Modelled from the spec: the backend constant `v1alpha1.AzureOpenAI`, declared
in `api/v1alpha1` (the one backend for which the engine option is valid). -/
def AzureOpenAI : String := "azureopenai"

/-- Modelled from the spec: the backend constant `v1alpha1.AmazonBedrock`, declared
in `api/v1alpha1` (the backend for which a region is mandatory). -/
def AmazonBedrock : String := "amazonbedrock"

/-- Modelled from the spec: the backend constant `v1alpha1.IBMWatsonxAI`, declared
in `api/v1alpha1`. -/
def IBMWatsonxAI : String := "ibmwatsonxai"

/-! ## The client and the world it acts on -/

/-- The Go struct type behind each kind. -/
@[reducible] def KObj : Kind → Type
  | .secret => Secret
  | .serviceAccount => ServiceAccount
  | .service => Service
  | .deployment => Deployment
  | .clusterRole => ClusterRole
  | .clusterRoleBinding => ClusterRoleBinding

/-- Wrap a typed object as a `client.Object`. -/
def Obj.ofKind : (k : Kind) → KObj k → Obj
  | .secret, o => .secret o
  | .serviceAccount, o => .serviceAccount o
  | .service, o => .service o
  | .deployment, o => .deployment o
  | .clusterRole, o => .clusterRole o
  | .clusterRoleBinding, o => .clusterRoleBinding o

/-- Read a `client.Object` back at a given Go type. -/
def Obj.toKind : (k : Kind) → Obj → Option (KObj k)
  | .secret, .secret o => some o
  | .serviceAccount, .serviceAccount o => some o
  | .service, .service o => some o
  | .deployment, .deployment o => some o
  | .clusterRole, .clusterRole o => some o
  | .clusterRoleBinding, .clusterRoleBinding o => some o
  | _, _ => none

/-- A `client.Client` over a store state `σ`: each operation answers and moves
the store to its next state. `get` fills an object of the requested Go type;
`patch` receives the modified object and the base it is diffed against. -/
structure Client (σ : Type) where
  get : (k : Kind) → NamespacedName → σ → Except Error (KObj k) × σ
  create : Obj → σ → Option Error × σ
  patch : Obj → Obj → σ → Option Error × σ
  delete : Obj → σ → Option Error × σ

/-- One call issued to the client. -/
inductive Call where
  | get (k : Kind) (key : NamespacedName)
  | create (obj : Obj)
  | patch (obj : Obj)
  | delete (obj : Obj)
deriving DecidableEq, Repr

/-- A call that only reads. -/
def Call.isGet : Call → Bool
  | .get _ _ => true
  | _ => false

/-- A call that creates or patches. -/
def Call.isCreateOrPatch : Call → Bool
  | .create _ => true
  | .patch _ => true
  | _ => false

/-- A call that deletes. -/
def Call.isDelete : Call → Bool
  | .delete _ => true
  | _ => false

/-- The store state together with the log of the calls issued so far (oldest
first). -/
structure World (σ : Type) where
  store : σ
  calls : List Call

/-- The call `c.Get(ctx, key, obj)` for an object of Go type `k`. -/
def Get {σ : Type} (c : Client σ) (k : Kind) (key : NamespacedName) (w : World σ) :
    Except Error (KObj k) × World σ :=
  ((c.get k key w.store).1, ⟨(c.get k key w.store).2, w.calls ++ [Call.get k key]⟩)

/-- The call `c.Create(ctx, obj)`. -/
def Create {σ : Type} (c : Client σ) (obj : Obj) (w : World σ) : Option Error × World σ :=
  ((c.create obj w.store).1, ⟨(c.create obj w.store).2, w.calls ++ [Call.create obj]⟩)

/-- The call `c.Patch(ctx, obj, client.MergeFrom(base))`. -/
def Patch {σ : Type} (c : Client σ) (obj base : Obj) (w : World σ) : Option Error × World σ :=
  ((c.patch obj base w.store).1, ⟨(c.patch obj base w.store).2, w.calls ++ [Call.patch obj]⟩)

/-- The call `c.Delete(ctx, obj)`. -/
def Delete {σ : Type} (c : Client σ) (obj : Obj) (w : World σ) : Option Error × World σ :=
  ((c.delete obj w.store).1, ⟨(c.delete obj w.store).2, w.calls ++ [Call.delete obj]⟩)

/-! ## The builders of `pkg/resources/k8sgpt.go` -/

/-- SyncOrDestroy enum create or destroy. -/
inductive SyncOrDestroy where
  | SyncOp
  | DestroyOp
deriving DecidableEq, Repr

/-- The owner reference every descriptor carries. -/
def ownerReference (config : K8sGPT) : OwnerReference :=
  { kind := config.kind
    name := config.name
    uid := config.uid
    apiVersion := config.apiVersion
    blockOwnerDeletion := some true
    controller := some true }

/-- Apply `f` to `deployment.Spec.Template.Spec.Containers[0]`. -/
def updateContainer0 (deployment : Deployment) (f : Container → Container) : Deployment :=
  { deployment with
    spec := { deployment.spec with
      template := { deployment.spec.template with
        spec := { deployment.spec.template.spec with
          containers :=
            match deployment.spec.template.spec.containers with
            | [] => []
            | c :: cs => f c :: cs } } } }

/-- Append an environment variable to `Containers[0].Env`. -/
def appendEnv (deployment : Deployment) (envVar : EnvVar) : Deployment :=
  updateContainer0 deployment (fun c => { c with env := c.env ++ [envVar] })

/-- An environment variable whose value comes from a key of a secret. -/
def secretEnvVar (name secretName key : String) : EnvVar :=
  { name := name, value := "", valueFrom := some { secretKeyRef := some { name := secretName, key := key } } }

/-- An environment variable with a literal value. -/
def plainEnvVar (name value : String) : EnvVar :=
  { name := name, value := value, valueFrom := none }

/-- The function `addSecretAsEnvToDeployment`: look the secret up in the
config's namespace, fail with a plain error when the lookup fails, otherwise
append the variable. -/
def addSecretAsEnvToDeployment {σ : Type} (secretName secretKey : String) (config : K8sGPT)
    (c : Client σ) (deployment : Deployment) (w : World σ) :
    Option Error × Deployment × World σ :=
  match Get c .secret ⟨config.ns, secretName⟩ w with
  | (.error _, w1) =>
      (some (.plain "secret does not exist, cannot add to env of deployment"), deployment, w1)
  | (.ok _, w1) =>
      (none, appendEnv deployment (secretEnvVar secretKey secretName secretKey), w1)

/-- GetServiceAccount Create ServiceAccount for K8sGPT. -/
def GetServiceAccount (config : K8sGPT) (serviceAccountName : String) :
    Except Error ServiceAccount :=
  let serviceAccount : ServiceAccount :=
    { objectMeta :=
        { name := serviceAccountName
          ns := config.ns
          labels := []
          annotations := []
          ownerReferences := [ownerReference config]
          uid := ""
          resourceVersion := "" } }
  let serviceAccount : ServiceAccount :=
    match config.spec.extraOptions with
    | some extraOptions =>
        if extraOptions.serviceAccountIRSA ≠ "" then
          { serviceAccount with
            objectMeta := { serviceAccount.objectMeta with
              annotations := [("eks.amazonaws.com/role-arn", extraOptions.serviceAccountIRSA)] } }
        else serviceAccount
    | none => serviceAccount
  .ok serviceAccount

/-- GetService Create service for K8sGPT. -/
def GetService (config : K8sGPT) : Except Error Service :=
  .ok
    { objectMeta :=
        { name := config.name
          ns := config.ns
          labels := []
          annotations := []
          ownerReferences := [ownerReference config]
          uid := ""
          resourceVersion := "" }
      spec :=
        { selector := [("app", config.name)]
          ports := [{ port := 8080 }]
          clusterIP := "" }
      status := { loadBalancerIngress := [] } }

/-- The function `GetClusterRoleBinding`. -/
def GetClusterRoleBinding (config : K8sGPT) (serviceAccountName crbName clusterRoleName : String) :
    Except Error ClusterRoleBinding :=
  .ok
    { objectMeta :=
        { name := crbName
          ns := ""
          labels := []
          annotations := []
          ownerReferences := [ownerReference config]
          uid := ""
          resourceVersion := "" }
      subjects := [{ kind := "ServiceAccount", name := serviceAccountName, ns := config.ns }]
      roleRef := { kind := "ClusterRole", name := clusterRoleName } }

/-- The `Rules` literal of `GetClusterRole`. -/
def clusterRoleRules : List PolicyRule :=
  [ { apiGroups := [""]
      resources := ["pods", "services", "secrets", "endpoints", "nodes", "configmaps", "namespaces"]
      verbs := ["get", "list", "watch"] },
    { apiGroups := [""], resources := ["persistentvolumeclaims"], verbs := ["list"] },
    { apiGroups := [""], resources := ["events"], verbs := ["list"] },
    { apiGroups := ["apps"]
      resources := ["deployments", "replicasets", "statefulsets", "daemonsets", "replicationcontrollers"]
      verbs := ["get", "list", "watch"] },
    { apiGroups := ["batch"], resources := ["cronjobs", "jobs"], verbs := ["get", "list", "watch"] },
    { apiGroups := ["autoscaling"]
      resources := ["horizontalpodautoscalers"]
      verbs := ["get", "list", "watch"] },
    { apiGroups := ["networking.k8s.io"]
      resources := ["ingresses", "networkpolicies"]
      verbs := ["get", "list", "watch"] },
    { apiGroups := ["admissionregistration.k8s.io"]
      resources := ["validatingwebhookconfigurations", "mutatingwebhookconfigurations"]
      verbs := ["get", "list", "watch"] },
    { apiGroups := ["policy"]
      resources := ["poddisruptionbudgets"]
      verbs := ["get", "list", "watch"] },
    { apiGroups := ["storage.k8s.io"]
      resources := ["storageclasses"]
      verbs := ["get", "list", "watch"] },
    { apiGroups := ["gateway.networking.k8s.io"]
      resources := ["gatewayclasses", "gateways", "httproutes"]
      verbs := ["get", "list", "watch"] },
    { apiGroups := [""], resources := ["pods/log"], verbs := ["get", "list", "watch"] } ]

/-- GetClusterRole Create ClusterRole for K8sGPT. -/
def GetClusterRole (config : K8sGPT) (serviceAccountName : String) : Except Error ClusterRole :=
  .ok
    { objectMeta :=
        { name := serviceAccountName ++ "-clusterrole"
          ns := ""
          labels := []
          annotations := []
          ownerReferences := [ownerReference config]
          uid := ""
          resourceVersion := "" }
      rules := clusterRoleRules }

/-- The closure computing the cpu limit of the container literal. -/
def cpuLimit (config : K8sGPT) : Quantity :=
  match config.spec.resources with
  | some resources =>
      match resources.limits with
      | some limits =>
          match limits.lookup "cpu" with
          | some cpuLimit => cpuLimit
          | none => MustParse "1"
      | none => MustParse "1"
  | none => MustParse "1"

/-- The closure computing the memory limit of the container literal. -/
def memLimit (config : K8sGPT) : Quantity :=
  match config.spec.resources with
  | some resources =>
      match resources.limits with
      | some limits =>
          match limits.lookup "memory" with
          | some memLimit => memLimit
          | none => MustParse "512Mi"
      | none => MustParse "512Mi"
  | none => MustParse "512Mi"

/-- The closure computing the cpu request of the container literal. -/
def cpuRequest (config : K8sGPT) : Quantity :=
  match config.spec.resources with
  | some resources =>
      match resources.requests with
      | some requests =>
          match requests.lookup "cpu" with
          | some cpuRequest => cpuRequest
          | none => MustParse "0.2"
      | none => MustParse "0.2"
  | none => MustParse "0.2"

/-- The closure computing the memory request of the container literal. -/
def memRequest (config : K8sGPT) : Quantity :=
  match config.spec.resources with
  | some resources =>
      match resources.requests with
      | some requests =>
          match requests.lookup "memory" with
          | some memRequest => memRequest
          | none => MustParse "256Mi"
      | none => MustParse "256Mi"
  | none => MustParse "256Mi"

/-- The deployment literal that `GetDeployment` starts from. -/
def deploymentLiteral (config : K8sGPT) (serviceAccountName : String) : Deployment :=
  let image := config.spec.repository ++ ":" ++ config.spec.version
  let replicas : Int := 1
  { objectMeta :=
      { name := config.name
        ns := config.ns
        labels := []
        annotations := []
        ownerReferences := [ownerReference config]
        uid := ""
        resourceVersion := "" }
    spec :=
      { replicas := some replicas
        selector := some { matchLabels := [("app", config.name)] }
        template :=
          { labels := [("app", config.name)]
            spec :=
              { serviceAccountName := serviceAccountName
                automountServiceAccountToken := none
                containers :=
                  [ { name := "k8sgpt"
                      imagePullPolicy := config.spec.imagePullPolicy
                      image := image
                      args := ["serve"]
                      env :=
                        [ plainEnvVar "K8SGPT_MODEL" config.spec.ai.model,
                          plainEnvVar "K8SGPT_BACKEND" config.spec.ai.backend,
                          plainEnvVar "K8SGPT_MAX_TOKENS" config.spec.ai.maxTokens,
                          plainEnvVar "K8SGPT_TOP_K" config.spec.ai.topk,
                          plainEnvVar "XDG_CONFIG_HOME" "/k8sgpt-data/.config",
                          plainEnvVar "XDG_CACHE_HOME" "/k8sgpt-data/.cache" ]
                      ports := [{ containerPort := 8080 }]
                      resources :=
                        { limits := some [(ResourceCPU, cpuLimit config), (ResourceMemory, memLimit config)]
                          requests := some [(ResourceCPU, cpuRequest config), (ResourceMemory, memRequest config)] }
                      volumeMounts := [{ mountPath := "/k8sgpt-data", name := "k8sgpt-vol", readOnly := false }] } ]
                volumes := [{ volumeSource := { emptyDir := true, secret := none }, name := "k8sgpt-vol" }]
                nodeSelector := config.spec.nodeSelector } } }
    status := { availableReplicas := 0 } }

/-- The block `if outOfClusterMode` of `GetDeployment`. `Sync`, the only
caller, passes `outOfClusterMode = (config.Spec.Kubeconfig != nil)`, so the
block reads `config.Spec.Kubeconfig` only when it is set. A call with the mode
on and no kubeconfig dereferences `nil` and panics (`dereferencesNilKubeconfig`
below, and `GetDeploymentCall` for what a call does); the empty strings read
here in that case only keep the function total and are not a result of the
program. -/
def applyOutOfCluster (config : K8sGPT) (outOfClusterMode : Bool) (deployment : Deployment) :
    Deployment :=
  if outOfClusterMode then
    -- Keep the service account if using Amazon Bedrock with IRSA
    let needsServiceAccount : Bool :=
      decide (config.spec.ai.backend = AmazonBedrock) &&
        (match config.spec.extraOptions with
         | some extraOptions => decide (extraOptions.serviceAccountIRSA ≠ "")
         | none => false)
    let deployment : Deployment :=
      if !needsServiceAccount then
        { deployment with
          spec := { deployment.spec with
            template := { deployment.spec.template with
              spec := { deployment.spec.template.spec with
                serviceAccountName := ""
                automountServiceAccountToken := some false } } } }
      else deployment
    let kubeconfigPath := "/tmp/" ++ config.name
    let deployment := updateContainer0 deployment (fun c =>
      { c with args := c.args ++ ["--kubeconfig=" ++ kubeconfigPath ++ "/kubeconfig"] })
    let deployment := updateContainer0 deployment (fun c =>
      { c with volumeMounts := c.volumeMounts ++
          [{ name := "kubeconfig", readOnly := true, mountPath := kubeconfigPath }] })
    { deployment with
      spec := { deployment.spec with
        template := { deployment.spec.template with
          spec := { deployment.spec.template.spec with
            volumes := deployment.spec.template.spec.volumes ++
              [ { name := "kubeconfig"
                  volumeSource :=
                    { emptyDir := false
                      secret := some
                        { secretName := (match config.spec.kubeconfig with
                            | some k => k.name
                            | none => "")
                          items :=
                            [ { key := (match config.spec.kubeconfig with
                                  | some k => k.key
                                  | none => "")
                                path := "kubeconfig" } ] } } } ] } } } }
  else deployment

/-- The block adding `K8SGPT_PASSWORD` when a secret is referenced and the
backend is not amazonbedrock. -/
def applyPassword (config : K8sGPT) (deployment : Deployment) : Deployment :=
  match config.spec.ai.secret with
  | some secret =>
      if config.spec.ai.backend ≠ AmazonBedrock then
        appendEnv deployment (secretEnvVar "K8SGPT_PASSWORD" secret.name secret.key)
      else deployment
  | none => deployment

/-- The block `if config.Spec.RemoteCache != nil` of `GetDeployment`. -/
def applyRemoteCache (config : K8sGPT) (deployment : Deployment) : Deployment :=
  match config.spec.remoteCache with
  | some remoteCache =>
      let addRemoteCacheEnvVar := fun (d : Deployment) (name key : String) =>
        appendEnv d (secretEnvVar name remoteCache.credentials.name key)
      if remoteCache.azure.isSome then
        let d := addRemoteCacheEnvVar deployment "AZURE_CLIENT_ID" "azure_client_id"
        let d := addRemoteCacheEnvVar d "AZURE_TENANT_ID" "azure_tenant_id"
        addRemoteCacheEnvVar d "AZURE_CLIENT_SECRET" "azure_client_secret"
      else if remoteCache.s3.isSome then
        let d := addRemoteCacheEnvVar deployment "AWS_ACCESS_KEY_ID" "aws_access_key_id"
        addRemoteCacheEnvVar d "AWS_SECRET_ACCESS_KEY" "aws_secret_access_key"
      else deployment
  | none => deployment

/-- The blocks adding `K8SGPT_PROVIDER_ID` and `K8SGPT_BASEURL`. -/
def applyProviderAndBaseUrl (config : K8sGPT) (deployment : Deployment) : Deployment :=
  let deployment :=
    if config.spec.ai.providerId ≠ "" then
      appendEnv deployment (plainEnvVar "K8SGPT_PROVIDER_ID" config.spec.ai.providerId)
    else deployment
  if config.spec.ai.baseUrl ≠ "" then
    appendEnv deployment (plainEnvVar "K8SGPT_BASEURL" config.spec.ai.baseUrl)
  else deployment

/-- The block `if config.Spec.Resources != nil`: the container's resources are
replaced by the config's. -/
def applyResources (config : K8sGPT) (deployment : Deployment) : Deployment :=
  match config.spec.resources with
  | some resources => updateContainer0 deployment (fun c => { c with resources := resources })
  | none => deployment

/-- The deployment as it stands when `GetDeployment` reaches the engine check
(everything up to and including the resources block). -/
def deploymentBeforeEngine (config : K8sGPT) (outOfClusterMode : Bool)
    (serviceAccountName : String) : Deployment :=
  applyResources config
    (applyProviderAndBaseUrl config
      (applyRemoteCache config
        (applyPassword config
          (applyOutOfCluster config outOfClusterMode
            (deploymentLiteral config serviceAccountName)))))

/-- The block configuring the `K8SGPT_PROXY_ENDPOINT` variable. -/
def applyProxyEndpoint (config : K8sGPT) (deployment : Deployment) : Deployment :=
  if config.spec.ai.proxyEndpoint ≠ "" then
    appendEnv deployment (plainEnvVar "K8SGPT_PROXY_ENDPOINT" config.spec.ai.proxyEndpoint)
  else deployment

/-- The block `Add checks for amazonbedrock` of `GetDeployment`. -/
def applyAmazonBedrock {σ : Type} (config : K8sGPT) (c : Client σ) (deployment : Deployment)
    (w : World σ) : Except Error Deployment × World σ :=
  if config.spec.ai.backend = AmazonBedrock then
    match
      (match config.spec.ai.secret with
       | some secret =>
           match addSecretAsEnvToDeployment secret.name "AWS_ACCESS_KEY_ID" config c deployment w with
           | (some err, _, w1) => (Except.error err, w1)
           | (none, d1, w1) =>
               match addSecretAsEnvToDeployment secret.name "AWS_SECRET_ACCESS_KEY" config c d1 w1 with
               | (some err, _, w2) => (Except.error err, w2)
               | (none, d2, w2) => (Except.ok d2, w2)
       | none => (Except.ok deployment, w)) with
    | (.error err, w1) => (.error err, w1)
    | (.ok d, w1) =>
        if config.spec.ai.region = "" then
          (.error (.plain "default region is required for amazonbedrock backend"), w1)
        else
          (.ok (appendEnv d (plainEnvVar "AWS_DEFAULT_REGION" config.spec.ai.region)), w1)
  else (.ok deployment, w)

/-- The block `Add checks for ibmwatsonxai` of `GetDeployment`. -/
def applyIBMWatsonxAI {σ : Type} (config : K8sGPT) (c : Client σ) (deployment : Deployment)
    (w : World σ) : Except Error Deployment × World σ :=
  if config.spec.ai.backend = IBMWatsonxAI then
    match config.spec.ai.secret with
    | some secret =>
        match addSecretAsEnvToDeployment secret.name "K8SGPT_PROVIDER_ID" config c deployment w with
        | (some err, _, w1) => (.error err, w1)
        | (none, d1, w1) => (.ok d1, w1)
    | none => (.ok deployment, w)
  else (.ok deployment, w)

/-- GetDeployment Create deployment with the latest K8sGPT image. -/
def GetDeployment {σ : Type} (config : K8sGPT) (outOfClusterMode : Bool) (c : Client σ)
    (serviceAccountName : String) (w : World σ) : Except Error Deployment × World σ :=
  let deployment := deploymentBeforeEngine config outOfClusterMode serviceAccountName
  -- Engine is required only when azureopenai is the ai backend
  -- (the source's comment; both branches test `Engine != ""`, so with an empty
  -- engine neither runs, for azureopenai as for any other backend)
  if config.spec.ai.engine ≠ "" ∧ config.spec.ai.backend = AzureOpenAI then
    let deployment := appendEnv deployment (plainEnvVar "K8SGPT_ENGINE" config.spec.ai.engine)
    match applyAmazonBedrock config c (applyProxyEndpoint config deployment) w with
    | (.error err, w1) => (.error err, w1)
    | (.ok d, w1) => applyIBMWatsonxAI config c d w1
  else if config.spec.ai.engine ≠ "" ∧ config.spec.ai.backend ≠ AzureOpenAI then
    (.error (.plain "engine is supported only by azureopenai provider"), w)
  else
    match applyAmazonBedrock config c (applyProxyEndpoint config deployment) w with
    | (.error err, w1) => (.error err, w1)
    | (.ok d, w1) => applyIBMWatsonxAI config c d w1

/-- The nil dereference of `GetDeployment`: the block `if outOfClusterMode` reads
`config.Spec.Kubeconfig.Name` and `.Key` (k8sgpt.go 413-416), so a call with the
mode on and a nil `Spec.Kubeconfig` panics there, before the engine and the
region checks. `Sync` passes `outOfClusterMode = (Spec.Kubeconfig != nil)` and
never makes such a call. -/
def dereferencesNilKubeconfig (config : K8sGPT) (outOfClusterMode : Bool) : Bool :=
  outOfClusterMode && config.spec.kubeconfig.isNone

/-- What a call of `GetDeployment` does: `none` when it panics on the nil
dereference, otherwise the result and the world it returns with, which
`GetDeployment` computes. At a call that panics the value of `GetDeployment`
is not a result of the program. -/
def GetDeploymentCall {σ : Type} (config : K8sGPT) (outOfClusterMode : Bool) (c : Client σ)
    (serviceAccountName : String) (w : World σ) : Option (Except Error Deployment × World σ) :=
  if dereferencesNilKubeconfig config outOfClusterMode then none
  else some (GetDeployment config outOfClusterMode c serviceAccountName w)

/-! ## The synchronizer -/

/-- A `controllerutil.MutateFn`: the closure's effect on the object it
captured, and its error result. -/
abbrev MutateFn := Obj → Option Error × Obj

/-- The call `c.Get(ctx, key, obj)` of `CreateOrPatch`, which fills `obj` at its
own Go type; a failed get leaves `obj` as it was. -/
def GetInto {σ : Type} (c : Client σ) (key : NamespacedName) (obj : Obj) (w : World σ) :
    Option Error × Obj × World σ :=
  match Get c obj.kind key w with
  | (.error err, w1) => (some err, obj, w1)
  | (.ok o, w1) => (none, Obj.ofKind obj.kind o, w1)

/-- The object without its status, as `CreateOrPatch` compares it before and
after the mutation. -/
def Obj.withoutStatus : Obj → Obj
  | .deployment o => .deployment { o with status := { availableReplicas := 0 } }
  | .service o => .service { o with status := { loadBalancerIngress := [] } }
  | o => o

/-- The helper `mutate` of controllerutil: run the closure, then refuse a
changed name or namespace. -/
def mutate (f : MutateFn) (key : NamespacedName) (obj : Obj) : Option Error × Obj :=
  match f obj with
  | (some err, obj1) => (some err, obj1)
  | (none, obj1) =>
      if key ≠ ObjectKeyFromObject obj1 then
        (some (.plain "MutateFn cannot mutate object name and/or object namespace"), obj1)
      else (none, obj1)

/-- Run the optional mutate function (`if f != nil`). -/
def mutateIfSet (f : Option MutateFn) (key : NamespacedName) (obj : Obj) : Option Error × Obj :=
  match f with
  | some g => mutate g key obj
  | none => (none, obj)

/-- Modelled from the spec: `controllerutil.CreateOrPatch` of controller-runtime,
which is not under src/ ("look up existing object by identity key. Absent →
create. Present → patch only the fields the Builder controls"). It gets the
object by its key; when the get answers not-found it mutates and creates; when
the object is present it mutates and issues a patch only if the object without
its status changed. The result is `none` on success, or the error together with
the state the captured object is left in. The separate status patch of the
library function is issued only when the closure changed the status, which the
closures of `doSync` (they assign `Spec` only) never do. -/
def CreateOrPatch {σ : Type} (c : Client σ) (f : Option MutateFn) (obj : Obj) (w : World σ) :
    Option (Error × Obj) × World σ :=
  let key := ObjectKeyFromObject obj
  match GetInto c key obj w with
  | (some err, obj0, w1) =>
      if !IsNotFound err then (some (err, obj0), w1)
      else
        match mutateIfSet f key obj0 with
        | (some err1, obj1) => (some (err1, obj1), w1)
        | (none, obj1) =>
            match Create c obj1 w1 with
            | (some err2, w2) => (some (err2, obj1), w2)
            | (none, w2) => (none, w2)
  | (none, obj0, w1) =>
      match mutateIfSet f key obj0 with
      | (some err1, obj1) => (some (err1, obj1), w1)
      | (none, obj1) =>
          if obj0.withoutStatus ≠ obj1.withoutStatus then
            match Patch c obj1 obj0 w1 with
            | (some err2, w2) => (some (err2, obj1), w2)
            | (none, w2) => (none, w2)
          else (none, w1)

/-- Modelled from the spec: the constant `retry.DefaultRetry.Steps` of client-go,
which is not under src/ ("retry bound = 5 attempts"). -/
def DefaultRetrySteps : Nat := 5

/-- Modelled from the spec: the loop of `retry.OnError` of client-go, which is not
under src/ ("a concurrency-conflict response to patch is retried with bounded
attempts", "only conflict responses are retried, not arbitrary errors"). With
`steps` attempts left it calls `fn`; success and non-retriable errors are
returned at once, a retriable error is remembered and the next attempt runs on
the object as the failed attempt left it; when no attempt is left the last
remembered error is returned. The sleep between attempts is not modelled. -/
def OnError {σ : Type} (retriable : Error → Bool)
    (fn : Obj → World σ → Option (Error × Obj) × World σ) :
    Nat → Option Error → Obj → World σ → Option Error × World σ
  | 0, lastErr, _, w => (lastErr, w)
  | steps + 1, _, obj, w =>
      match fn obj w with
      | (none, w1) => (none, w1)
      | (some (err, obj1), w1) =>
          if retriable err then OnError retriable fn steps (some err) obj1 w1
          else (some err, w1)

/-- Modelled from the spec: `retry.RetryOnConflict` of client-go, which is not under
src/: `OnError` retrying on conflict errors only. -/
def RetryOnConflict {σ : Type} (steps : Nat)
    (fn : Obj → World σ → Option (Error × Obj) × World σ) (obj : Obj) (w : World σ) :
    Option Error × World σ :=
  OnError IsConflict fn steps none obj w

/-- The closure `exist.Spec = expect.Spec` of the Deployment case of `doSync`. -/
def deploymentMutateFn (expect : Deployment) : MutateFn := fun obj =>
  match obj with
  | .deployment exist => (none, .deployment { exist with spec := expect.spec })
  | o => (none, o)

/-- The closure `exist.Spec = expect.Spec` of the Service case of `doSync`. -/
def serviceMutateFn (expect : Service) : MutateFn := fun obj =>
  match obj with
  | .service exist => (none, .service { exist with spec := expect.spec })
  | o => (none, o)

/-- The type switch of `doSync`: for a Deployment or a Service it gets the
stored object; an error other than not-found ends `doSync`; when the object
exists the object to converge becomes the stored one and the mutate function
assigns the descriptor's spec to it. For the other kinds the descriptor is
converged as it is, with no mutate function. -/
def doSyncTarget {σ : Type} (clt : Client σ) (obj : Obj) (w : World σ) :
    Except Error (Obj × Option MutateFn) × World σ :=
  match obj with
  | .deployment expect =>
      match Get clt .deployment (ObjectKeyFromObject obj) w with
      | (.error err, w1) =>
          if !IsNotFound err then (.error err, w1) else (.ok (obj, none), w1)
      | (.ok exist, w1) => (.ok (.deployment exist, some (deploymentMutateFn expect)), w1)
  | .service expect =>
      match Get clt .service (ObjectKeyFromObject obj) w with
      | (.error err, w1) =>
          if !IsNotFound err then (.error err, w1) else (.ok (obj, none), w1)
      | (.ok exist, w1) => (.ok (.service exist, some (serviceMutateFn expect)), w1)
  | _ => (.ok (obj, none), w)

/-- The function `doSync`: the type switch, then `CreateOrPatch` under
`retry.RetryOnConflict(retry.DefaultRetry, ...)`. -/
def doSync {σ : Type} (clt : Client σ) (obj : Obj) (w : World σ) : Option Error × World σ :=
  match doSyncTarget clt obj w with
  | (.error err, w1) => (some err, w1)
  | (.ok (target, mutateFn), w1) =>
      RetryOnConflict DefaultRetrySteps (CreateOrPatch clt mutateFn) target w1

/-- The check made before each converge: when the config references a secret,
get it in the config's namespace and return the get's error unchanged. -/
def checkSecret {σ : Type} (c : Client σ) (config : K8sGPT) (w : World σ) :
    Option Error × World σ :=
  match config.spec.ai.secret with
  | some secret =>
      match Get c .secret ⟨config.ns, secret.name⟩ w with
      | (.error er, w1) => (some er, w1)
      | (.ok _, w1) => (none, w1)
  | none => (none, w)

/-- The loop `for _, obj := range objs` of `Sync`. -/
def syncLoop {σ : Type} (c : Client σ) (config : K8sGPT) (i : SyncOrDestroy) :
    List Obj → World σ → Option Error × World σ
  | [], w => (none, w)
  | obj :: rest, w =>
      match i with
      | .SyncOp =>
          -- before creation, we will check to see if the secret exists if used as a ref
          match checkSecret c config w with
          | (some er, w1) => (some er, w1)
          | (none, w1) =>
              match doSync c obj w1 with
              | (some err, w2) =>
                  -- If the object already exists, ignore the error
                  if !IsAlreadyExists err then (some err, w2)
                  else syncLoop c config i rest w2
              | (none, w2) => syncLoop c config i rest w2
      | .DestroyOp =>
          match Delete c obj w with
          | (some err, w1) =>
              -- if the object is not found, ignore the error
              if !IsNotFound err then (some err, w1)
              else syncLoop c config i rest w1
          | (none, w1) => syncLoop c config i rest w1

/-- The function `Sync`: build the five descriptors, then create or destroy
each of them in order. -/
def Sync {σ : Type} (c : Client σ) (config : K8sGPT) (i : SyncOrDestroy) (w : World σ) :
    Option Error × World σ :=
  let outOfClusterMode := config.spec.kubeconfig.isSome
  -- Build the names for the sa,cr,crd
  let serviceAccountName := "k8sgpt-" ++ config.ns
  let clusterRoleName := serviceAccountName ++ "-clusterrole"
  let clusterRoleNameBinding := clusterRoleName ++ "-binding"
  match GetServiceAccount config serviceAccountName with
  | .error er => (some er, w)
  | .ok sa =>
  match GetService config with
  | .error er => (some er, w)
  | .ok svc =>
  match GetDeployment config outOfClusterMode c serviceAccountName w with
  | (.error er, w1) => (some er, w1)
  | (.ok deployment, w1) =>
  match GetClusterRole config serviceAccountName with
  | .error er => (some er, w1)
  | .ok clusterRole =>
  match GetClusterRoleBinding config serviceAccountName clusterRoleNameBinding clusterRoleName with
  | .error err => (some err, w1)
  | .ok clusterRoleBinding =>
      syncLoop c config i
        [.serviceAccount sa, .service svc, .deployment deployment, .clusterRole clusterRole,
          .clusterRoleBinding clusterRoleBinding] w1

/-! ## An in-memory store -/

/-- Whether a stored object has the given Go type and identity key. -/
def sameIdentity (k : Kind) (key : NamespacedName) (o : Obj) : Bool :=
  decide (o.kind = k) && decide (ObjectKeyFromObject o = key)

/-- The not-found answer of the store. -/
def notFoundError : Error := .status .notFound "not found"

/-- The already-exists answer of the store. -/
def alreadyExistsError : Error := .status .alreadyExists "already exists"

/-- The conflict answer of the store. -/
def conflictError : Error := .status .conflict "conflict"

/-- Modelled from the spec: the object store, an external collaborator
("get(key) -> object | not-found, create(object) -> ok | already-exists | error,
patch(object, mutate) -> ok | conflict | error, delete(key) -> ok | not-found |
error"). The objects are kept in a list, identified by Go type, namespace and
name; `faults` is a script of errors with which the store answers the next
create and patch calls, one error per call, before it serves writes again. -/
structure MemStore where
  objs : List Obj
  faults : List Error
deriving DecidableEq, Repr

/-- Modelled from the spec: the client of the in-memory store `MemStore`. A get
answers the stored object or not-found; a create or patch answers the next
scripted fault if one is left, otherwise create appends the object (or answers
already-exists) and patch replaces the stored object by the modified one (or
answers not-found); delete removes the object (or answers not-found). -/
def memClient : Client MemStore where
  get k key s :=
    match (s.objs.find? (sameIdentity k key)).bind (Obj.toKind k) with
    | some o => (.ok o, s)
    | none => (.error notFoundError, s)
  create obj s :=
    match s.faults with
    | err :: rest => (some err, { s with faults := rest })
    | [] =>
        if s.objs.any (sameIdentity obj.kind (ObjectKeyFromObject obj)) then
          (some alreadyExistsError, s)
        else (none, { s with objs := s.objs ++ [obj] })
  patch obj _ s :=
    match s.faults with
    | err :: rest => (some err, { s with faults := rest })
    | [] =>
        if s.objs.any (sameIdentity obj.kind (ObjectKeyFromObject obj)) then
          (none, { s with objs := s.objs.map (fun o =>
            if sameIdentity obj.kind (ObjectKeyFromObject obj) o then obj else o) })
        else (some notFoundError, s)
  delete obj s :=
    if s.objs.any (sameIdentity obj.kind (ObjectKeyFromObject obj)) then
      (none, { s with objs := s.objs.filter (fun o =>
        !sameIdentity obj.kind (ObjectKeyFromObject obj) o) })
    else (some notFoundError, s)

/-- The world of an in-memory store with nothing logged yet. -/
def memWorld (objs : List Obj) (faults : List Error) : World MemStore :=
  ⟨⟨objs, faults⟩, []⟩

/-- The calls of `w2` are those of `w1` followed by gets only. -/
def IssuedOnlyGets {σ : Type} (w1 w2 : World σ) : Prop :=
  ∃ extra : List Call, w2.calls = w1.calls ++ extra ∧ ∀ x ∈ extra, x.isGet = true

/-! ## Sample configurations -/

/-- A minimal AI section: backend openai, no secret. -/
def sampleAI : AISpec :=
  { backend := "openai", model := "gpt-4o", engine := "", region := "", baseUrl := ""
    proxyEndpoint := "", providerId := "", maxTokens := "2048", topk := "50"
    secret := none, backOff := none }

/-- A minimal config in namespace `ns1` named `k8sgpt-sample`. -/
def sampleConfig : K8sGPT :=
  { kind := "K8sGPT", apiVersion := "core.k8sgpt.ai/v1alpha1", name := "k8sgpt-sample"
    ns := "ns1", uid := "uid-1"
    spec :=
      { version := "v0.4.1", repository := "ghcr.io/k8sgpt-ai/k8sgpt", imagePullPolicy := "Always"
        ai := sampleAI, resources := none, nodeSelector := [], kubeconfig := none
        remoteCache := none, extraOptions := none } }

/-- The sample config with the AI section replaced. -/
def sampleWithAI (ai : AISpec) : K8sGPT :=
  { sampleConfig with spec := { sampleConfig.spec with ai := ai } }

/-- The sample config with the resources section replaced. -/
def sampleWithResources (r : Option ResourceRequirements) : K8sGPT :=
  { sampleConfig with spec := { sampleConfig.spec with resources := r } }

/-- The resources of the containers of a deployment. -/
def containerResources (d : Deployment) : List ResourceRequirements :=
  d.spec.template.spec.containers.map (fun c => c.resources)

/-- The resources the closures of the container literal yield when no field is
overridden: limits cpu 1 and memory 512Mi, requests cpu 0.2 and memory 256Mi. -/
def defaultResources : ResourceRequirements :=
  { limits := some [(ResourceCPU, MustParse "1"), (ResourceMemory, MustParse "512Mi")]
    requests := some [(ResourceCPU, MustParse "0.2"), (ResourceMemory, MustParse "256Mi")] }

/-- A store error that is none of not-found, already-exists or conflict. -/
def internalError : Error := .status (.other 500) "internal error"

/-- The metadata of a descriptor of the sample config. -/
def sampleMeta (name ns : String) : ObjectMeta :=
  { name := name, ns := ns, labels := [], annotations := []
    ownerReferences := [ownerReference sampleConfig], uid := "", resourceVersion := "" }

/-- The service account descriptor of the sample config. -/
def sampleServiceAccount : ServiceAccount :=
  { objectMeta := sampleMeta "k8sgpt-ns1" "ns1" }

/-- The service descriptor of the sample config. -/
def sampleService : Service :=
  { objectMeta := sampleMeta "k8sgpt-sample" "ns1"
    spec := { selector := [("app", "k8sgpt-sample")], ports := [{ port := 8080 }], clusterIP := "" }
    status := { loadBalancerIngress := [] } }

/-- The deployment descriptor of the sample config (in-cluster mode). -/
def sampleDeployment : Deployment :=
  deploymentLiteral sampleConfig "k8sgpt-ns1"

/-- The cluster role descriptor of the sample config. -/
def sampleClusterRole : ClusterRole :=
  { objectMeta := sampleMeta "k8sgpt-ns1-clusterrole" "", rules := clusterRoleRules }

/-- The cluster role binding descriptor of the sample config. -/
def sampleClusterRoleBinding : ClusterRoleBinding :=
  { objectMeta := sampleMeta "k8sgpt-ns1-clusterrole-binding" ""
    subjects := [{ kind := "ServiceAccount", name := "k8sgpt-ns1", ns := "ns1" }]
    roleRef := { kind := "ClusterRole", name := "k8sgpt-ns1-clusterrole" } }

/-- The object `doSync` converges an existing object to: for a Deployment or a
Service descriptor, the stored object with the descriptor's `Spec` assigned (the
effect of the mutate closures); for the other kinds the stored object itself. -/
def withSpecOf (expect exist : Obj) : Obj :=
  match expect, exist with
  | .deployment e, .deployment x => .deployment { x with spec := e.spec }
  | .service e, .service x => .service { x with spec := e.spec }
  | _, x => x

/-- The gets the type switch of `doSync` issues for a descriptor. -/
def targetGets (obj : Obj) : List Call :=
  match obj with
  | .deployment _ => [Call.get .deployment (ObjectKeyFromObject obj)]
  | .service _ => [Call.get .service (ObjectKeyFromObject obj)]
  | _ => []

/-- The calls of `n` consecutive attempts that each issue the calls `attempt`. -/
def repeatCalls (attempt : List Call) : Nat → List Call
  | 0 => []
  | n + 1 => attempt ++ repeatCalls attempt n

/-- The objects of the store after the stored object with the identity of `obj`
is replaced by `obj`. -/
def replaceStored (obj : Obj) (objs : List Obj) : List Obj :=
  objs.map (fun o => if sameIdentity obj.kind (ObjectKeyFromObject obj) o then obj else o)
/-- A deployment as it may be stored for the sample config: three replicas,
a label, a uid and a resource version set by others, one available replica. -/
def storedDeployment : Deployment :=
  { objectMeta :=
      { sampleDeployment.objectMeta with
        labels := [("team", "sre")], uid := "uid-d", resourceVersion := "41" }
    spec := { sampleDeployment.spec with replicas := some 3 }
    status := { availableReplicas := 1 } }

/-! ## The deployment `GetDeployment` returns, as a function of the config -/

/-- A deployment of the shape `GetDeployment` builds: the deployment literal with
the given pod service account, automount flag, volumes, and the given arguments,
volume mounts, environment and resources of its one container. -/
def deploymentWith (config : K8sGPT) (serviceAccountName : String) (automount : Option Bool)
    (volumes : List Volume) (args : List String) (volumeMounts : List VolumeMount)
    (env : List EnvVar) (resources : ResourceRequirements) : Deployment :=
  { objectMeta :=
      { name := config.name
        ns := config.ns
        labels := []
        annotations := []
        ownerReferences := [ownerReference config]
        uid := ""
        resourceVersion := "" }
    spec :=
      { replicas := some 1
        selector := some { matchLabels := [("app", config.name)] }
        template :=
          { labels := [("app", config.name)]
            spec :=
              { serviceAccountName := serviceAccountName
                automountServiceAccountToken := automount
                containers :=
                  [ { name := "k8sgpt"
                      imagePullPolicy := config.spec.imagePullPolicy
                      image := config.spec.repository ++ ":" ++ config.spec.version
                      args := args
                      env := env
                      ports := [{ containerPort := 8080 }]
                      resources := resources
                      volumeMounts := volumeMounts } ]
                volumes := volumes
                nodeSelector := config.spec.nodeSelector } } }
    status := { availableReplicas := 0 } }

/-- The environment of the deployment literal. -/
def literalEnv (config : K8sGPT) : List EnvVar :=
  [ plainEnvVar "K8SGPT_MODEL" config.spec.ai.model,
    plainEnvVar "K8SGPT_BACKEND" config.spec.ai.backend,
    plainEnvVar "K8SGPT_MAX_TOKENS" config.spec.ai.maxTokens,
    plainEnvVar "K8SGPT_TOP_K" config.spec.ai.topk,
    plainEnvVar "XDG_CONFIG_HOME" "/k8sgpt-data/.config",
    plainEnvVar "XDG_CACHE_HOME" "/k8sgpt-data/.cache" ]

/-- The variables the password block appends. -/
def passwordEnv (config : K8sGPT) : List EnvVar :=
  match config.spec.ai.secret with
  | some secret =>
      if config.spec.ai.backend ≠ AmazonBedrock then
        [secretEnvVar "K8SGPT_PASSWORD" secret.name secret.key]
      else []
  | none => []

/-- The variables the remote cache block appends. -/
def remoteCacheEnv (config : K8sGPT) : List EnvVar :=
  match config.spec.remoteCache with
  | some remoteCache =>
      if remoteCache.azure.isSome then
        [ secretEnvVar "AZURE_CLIENT_ID" remoteCache.credentials.name "azure_client_id",
          secretEnvVar "AZURE_TENANT_ID" remoteCache.credentials.name "azure_tenant_id",
          secretEnvVar "AZURE_CLIENT_SECRET" remoteCache.credentials.name "azure_client_secret" ]
      else if remoteCache.s3.isSome then
        [ secretEnvVar "AWS_ACCESS_KEY_ID" remoteCache.credentials.name "aws_access_key_id",
          secretEnvVar "AWS_SECRET_ACCESS_KEY" remoteCache.credentials.name "aws_secret_access_key" ]
      else []
  | none => []

/-- The variables the provider id and base url blocks append. -/
def providerAndBaseUrlEnv (config : K8sGPT) : List EnvVar :=
  (if config.spec.ai.providerId ≠ "" then
    [plainEnvVar "K8SGPT_PROVIDER_ID" config.spec.ai.providerId] else []) ++
  (if config.spec.ai.baseUrl ≠ "" then
    [plainEnvVar "K8SGPT_BASEURL" config.spec.ai.baseUrl] else [])

/-- The variable the engine block appends. -/
def engineEnv (config : K8sGPT) : List EnvVar :=
  if config.spec.ai.engine ≠ "" ∧ config.spec.ai.backend = AzureOpenAI then
    [plainEnvVar "K8SGPT_ENGINE" config.spec.ai.engine]
  else []

/-- The variable the proxy endpoint block appends. -/
def proxyEnv (config : K8sGPT) : List EnvVar :=
  if config.spec.ai.proxyEndpoint ≠ "" then
    [plainEnvVar "K8SGPT_PROXY_ENDPOINT" config.spec.ai.proxyEndpoint]
  else []

/-- The variables the amazonbedrock block appends when it succeeds. -/
def bedrockEnv (config : K8sGPT) : List EnvVar :=
  if config.spec.ai.backend = AmazonBedrock then
    (match config.spec.ai.secret with
     | some secret =>
         [ secretEnvVar "AWS_ACCESS_KEY_ID" secret.name "AWS_ACCESS_KEY_ID",
           secretEnvVar "AWS_SECRET_ACCESS_KEY" secret.name "AWS_SECRET_ACCESS_KEY" ]
     | none => []) ++
    [plainEnvVar "AWS_DEFAULT_REGION" config.spec.ai.region]
  else []

/-- The variable the ibmwatsonxai block appends when it succeeds. -/
def watsonxEnv (config : K8sGPT) : List EnvVar :=
  if config.spec.ai.backend = IBMWatsonxAI then
    match config.spec.ai.secret with
    | some secret => [secretEnvVar "K8SGPT_PROVIDER_ID" secret.name "K8SGPT_PROVIDER_ID"]
    | none => []
  else []

/-- The environment of the container of a deployment that `GetDeployment`
returns: the literal's variables followed by what each block appends, in the
order of the blocks. -/
def builtEnv (config : K8sGPT) : List EnvVar :=
  literalEnv config ++ passwordEnv config ++ remoteCacheEnv config ++
    providerAndBaseUrlEnv config ++ engineEnv config ++ proxyEnv config ++
    bedrockEnv config ++ watsonxEnv config

/-- The resources of the container of a deployment that `GetDeployment` returns. -/
def builtResources (config : K8sGPT) : ResourceRequirements :=
  match config.spec.resources with
  | some resources => resources
  | none =>
      { limits := some [(ResourceCPU, cpuLimit config), (ResourceMemory, memLimit config)]
        requests := some [(ResourceCPU, cpuRequest config), (ResourceMemory, memRequest config)] }

/-- The condition `needsServiceAccount` of the out-of-cluster block: backend
amazonbedrock with a non-empty IRSA role. -/
def needsServiceAccount (config : K8sGPT) : Bool :=
  decide (config.spec.ai.backend = AmazonBedrock) &&
    (match config.spec.extraOptions with
     | some extraOptions => decide (extraOptions.serviceAccountIRSA ≠ "")
     | none => false)

/-- The volume of the deployment literal. -/
def dataVolume : Volume :=
  { volumeSource := { emptyDir := true, secret := none }, name := "k8sgpt-vol" }

/-- The volume mount of the deployment literal. -/
def dataVolumeMount : VolumeMount :=
  { mountPath := "/k8sgpt-data", name := "k8sgpt-vol", readOnly := false }

/-- The kubeconfig volume of the out-of-cluster block. -/
def kubeconfigVolume (config : K8sGPT) : Volume :=
  { name := "kubeconfig"
    volumeSource :=
      { emptyDir := false
        secret := some
          { secretName := (match config.spec.kubeconfig with
              | some k => k.name
              | none => "")
            items :=
              [ { key := (match config.spec.kubeconfig with
                    | some k => k.key
                    | none => "")
                  path := "kubeconfig" } ] } } }

/-- The kubeconfig volume mount of the out-of-cluster block. -/
def kubeconfigVolumeMount (config : K8sGPT) : VolumeMount :=
  { name := "kubeconfig", readOnly := true, mountPath := "/tmp/" ++ config.name }

/-- The deployment `GetDeployment` returns when it returns one, as a function of
its arguments other than the client and the world. -/
def builtDeployment (config : K8sGPT) (outOfClusterMode : Bool) (serviceAccountName : String) :
    Deployment :=
  deploymentWith config
    (if outOfClusterMode && !needsServiceAccount config then "" else serviceAccountName)
    (if outOfClusterMode && !needsServiceAccount config then some false else none)
    (if outOfClusterMode then [dataVolume, kubeconfigVolume config] else [dataVolume])
    (if outOfClusterMode then ["serve", "--kubeconfig=" ++ ("/tmp/" ++ config.name) ++ "/kubeconfig"]
      else ["serve"])
    (if outOfClusterMode then [dataVolumeMount, kubeconfigVolumeMount config] else [dataVolumeMount])
    (builtEnv config) (builtResources config)

/-- The validation error of `GetDeployment`, if the config has one: the engine
set for a backend other than azureopenai, or amazonbedrock without a region. -/
def validationError (config : K8sGPT) : Option Error :=
  if config.spec.ai.engine ≠ "" ∧ config.spec.ai.backend ≠ AzureOpenAI then
    some (.plain "engine is supported only by azureopenai provider")
  else if config.spec.ai.backend = AmazonBedrock ∧ config.spec.ai.region = "" then
    some (.plain "default region is required for amazonbedrock backend")
  else none

/-- The result of `GetDeployment` when every secret lookup it makes succeeds. -/
def builtResult (config : K8sGPT) (outOfClusterMode : Bool) (serviceAccountName : String) :
    Except Error Deployment :=
  match validationError config with
  | some e => .error e
  | none => .ok (builtDeployment config outOfClusterMode serviceAccountName)

/-- The error of `addSecretAsEnvToDeployment` when the lookup of the secret fails. -/
def secretMissingError : Error :=
  .plain "secret does not exist, cannot add to env of deployment"

/-- The environment of `Containers[0]` of a deployment. -/
def containerEnv (d : Deployment) : List EnvVar :=
  match d.spec.template.spec.containers with
  | c :: _ => c.env
  | [] => []

/-- The sample config with a kubeconfig reference (out-of-cluster mode). -/
def sampleOutOfCluster : K8sGPT :=
  { sampleConfig with
    spec := { sampleConfig.spec with kubeconfig := some { name := "remote-cluster", key := "config" } } }

/-- The secret `ai-secret` of namespace `ns1`, as stored. -/
def sampleSecret : Secret :=
  { objectMeta :=
      { name := "ai-secret", ns := "ns1", labels := [], annotations := [], ownerReferences := []
        uid := "uid-s", resourceVersion := "3" } }

/-- The sample config with backend amazonbedrock, a region and the secret
`ai-secret`. -/
def sampleBedrock : K8sGPT :=
  sampleWithAI
    { sampleAI with
      backend := "amazonbedrock", region := "eu-west-1"
      secret := some { name := "ai-secret", key := "token" } }

/-- The Go type of the object a call concerns. -/
def Call.kind : Call → Kind
  | .get k _ => k
  | .create obj => obj.kind
  | .patch obj => obj.kind
  | .delete obj => obj.kind

/-- The position of a kind in the order in which `Sync` lists its descriptors
(the secret, which is only looked up, comes first). -/
def Kind.rank : Kind → Nat
  | .secret => 0
  | .serviceAccount => 1
  | .service => 2
  | .deployment => 3
  | .clusterRole => 4
  | .clusterRoleBinding => 5

/-- Two calls of a pass are in descriptor order: one of them is a secret lookup,
or the first concerns a descriptor listed no later than the second's. -/
def InDescriptorOrder (x y : Call) : Prop :=
  x.kind = .secret ∨ y.kind = .secret ∨ x.kind.rank ≤ y.kind.rank

/-- Whether, in a call log, the objects of kind `early` are converged before
those of kind `late`: from the first call on an object of kind `late` on, no call
concerns an object of kind `early`. -/
def convergedBefore (early late : Kind) (calls : List Call) : Bool :=
  (calls.dropWhile (fun x => decide (x.kind ≠ late))).all (fun x => decide (x.kind ≠ early))

/-- A client over the in-memory store whose every get answers an internal
error (the store's reads are failing); writes are those of `memClient`. -/
def failingGetClient : Client MemStore :=
  { memClient with get := fun _ _ s => (.error internalError, s) }

/-! ## The Configure step of the reconcile pipeline (`configure_step.go`) -/

/-- A `ctrl.Result`. -/
structure Result where
  requeue : Bool
  requeueAfter : Nat
deriving DecidableEq, Repr

/-- The world of a reconcile pass: the world the client acts on, and the log of
the configs written with `Update` (oldest first). -/
structure PassWorld (σ : Type) where
  world : World σ
  updates : List K8sGPT

/-- The reconciler `instance.R`. It embeds the client (`R.Get` and `R.Client` are
that client); `update` is `R.Update` on the custom resource, which answers an
error or persists the config, the object being left as it was sent;
`finishReconcile` is `R.FinishReconcile(err, requeueImmediate, name, config)`,
declared in the controller package and not under src/, taken as given. -/
structure K8sGPTReconciler (σ : Type) where
  client : Client σ
  update : K8sGPT → σ → Option Error × σ
  finishReconcile :
    Option Error → Bool → String → K8sGPT → PassWorld σ → (Result × Option Error) × PassWorld σ

/-- The pass context `K8sGPTInstance` (the fields the step reads or writes). -/
structure K8sGPTInstance (σ : Type) where
  R : K8sGPTReconciler σ
  K8sgptConfig : K8sGPT
  k8sgptDeployment : Option Deployment
  hasReadyReplicas : Bool

/-- The step `ConfigureStep`: it holds its successor, whose `execute` receives the
instance and the world as the step leaves them. -/
structure ConfigureStep (σ : Type) where
  next : K8sGPTInstance σ → PassWorld σ → (Result × Option Error) × K8sGPTInstance σ × PassWorld σ

/-- The zero value `v1.Deployment{}`. -/
def emptyDeployment : Deployment :=
  { objectMeta :=
      { name := "", ns := "", labels := [], annotations := [], ownerReferences := []
        uid := "", resourceVersion := "" }
    spec :=
      { replicas := none
        selector := none
        template :=
          { labels := []
            spec :=
              { serviceAccountName := "", automountServiceAccountToken := none, containers := []
                volumes := [], nodeSelector := [] } } }
    status := { availableReplicas := 0 } }

/-- The config with its backoff policy set to the default `{Enabled: false,
MaxRetries: 5}`, as `configureBackoff` assigns it. -/
def withDefaultBackOff (config : K8sGPT) : K8sGPT :=
  { config with
    spec := { config.spec with
      ai := { config.spec.ai with backOff := some { enabled := false, maxRetries := 5 } } } }

/-- The method `configureBackoff` (its receiver is not used): set the default
backoff policy on the instance's config and write the config with `R.Update`. -/
def ConfigureStep.configureBackoff {σ : Type} (inst : K8sGPTInstance σ) (pw : PassWorld σ) :
    Option Error × K8sGPTInstance σ × PassWorld σ :=
  ((inst.R.update (withDefaultBackOff inst.K8sgptConfig) pw.world.store).1,
    { inst with K8sgptConfig := withDefaultBackOff inst.K8sgptConfig },
    ⟨⟨(inst.R.update (withDefaultBackOff inst.K8sgptConfig) pw.world.store).2, pw.world.calls⟩,
      pw.updates ++ [withDefaultBackOff inst.K8sgptConfig]⟩)

/-- The block `if instance.K8sgptConfig.Spec.AI.BackOff == nil` of `execute`. -/
def ConfigureStep.backoffBlock {σ : Type} (inst : K8sGPTInstance σ) (pw : PassWorld σ) :
    Option Error × K8sGPTInstance σ × PassWorld σ :=
  if inst.K8sgptConfig.spec.ai.backOff.isNone then ConfigureStep.configureBackoff inst pw
  else (none, inst, pw)

/-- The method `getDeployment` (its receiver is not used): get the deployment
named after the config; an error other than not-found is returned at once;
otherwise run `resources.Sync` with `SyncOp` and return the deployment with the
error of `Sync`. -/
def ConfigureStep.getDeployment {σ : Type} (inst : K8sGPTInstance σ) (pw : PassWorld σ) :
    (Deployment × Option Error) × PassWorld σ :=
  match Get inst.R.client .deployment ⟨inst.K8sgptConfig.ns, inst.K8sgptConfig.name⟩ pw.world with
  | (.error err, w1) =>
      if !IsNotFound err then ((emptyDeployment, some err), ⟨w1, pw.updates⟩)
      else
        ((emptyDeployment, (Sync inst.R.client inst.K8sgptConfig .SyncOp w1).1),
          ⟨(Sync inst.R.client inst.K8sgptConfig .SyncOp w1).2, pw.updates⟩)
  | (.ok deployment, w1) =>
      ((deployment, (Sync inst.R.client inst.K8sgptConfig .SyncOp w1).1),
        ⟨(Sync inst.R.client inst.K8sgptConfig .SyncOp w1).2, pw.updates⟩)

/-- The call `instance.R.FinishReconcile(err, false, instance.K8sgptConfig.Name,
instance.K8sgptConfig)` that ends a pass of the step. -/
def ConfigureStep.finish {σ : Type} (inst : K8sGPTInstance σ) (err : Option Error)
    (pw : PassWorld σ) : (Result × Option Error) × K8sGPTInstance σ × PassWorld σ :=
  ((inst.R.finishReconcile err false inst.K8sgptConfig.name inst.K8sgptConfig pw).1, inst,
    (inst.R.finishReconcile err false inst.K8sgptConfig.name inst.K8sgptConfig pw).2)

/-- The method `execute` of `ConfigureStep`; `getenv` is `os.Getenv`. The instance
is returned as the step (or its successor) leaves it. -/
def ConfigureStep.execute {σ : Type} (step : ConfigureStep σ) (getenv : String → String)
    (inst : K8sGPTInstance σ) (pw : PassWorld σ) :
    (Result × Option Error) × K8sGPTInstance σ × PassWorld σ :=
  match ConfigureStep.backoffBlock inst pw with
  | (some err, inst1, pw1) => ConfigureStep.finish inst1 (some err) pw1
  | (none, inst1, pw1) =>
      -- Check and see if the instance is new or has a K8sGPT deployment in flight
      match ConfigureStep.getDeployment inst1 pw1 with
      | ((deployment, some err), pw2) =>
          ConfigureStep.finish { inst1 with k8sgptDeployment := some deployment } (some err) pw2
      | ((deployment, none), pw2) =>
          let hasReadyReplicas := decide (deployment.status.availableReplicas ≠ 0)
          if !hasReadyReplicas && getenv "LOCAL_MODE" == "" then
            ConfigureStep.finish
              { inst1 with k8sgptDeployment := some deployment, hasReadyReplicas := hasReadyReplicas }
              none pw2
          else
            step.next
              { inst1 with k8sgptDeployment := some deployment, hasReadyReplicas := hasReadyReplicas }
              pw2

/-- The variable `deployment` of `getDeployment` after the get: the fetched
deployment, or the zero value when the get failed. -/
def deploymentOrEmpty (fetched : Except Error Deployment) : Deployment :=
  match fetched with
  | .ok d => d
  | .error _ => emptyDeployment

/-- A reconciler over the in-memory store: its updates succeed, and
`finishReconcile` returns a requeue result with the error it is given. -/
def sampleReconciler (client : Client MemStore) : K8sGPTReconciler MemStore :=
  { client := client
    update := fun _ s => (none, s)
    finishReconcile := fun err _ _ _ pw => (({ requeue := true, requeueAfter := 30 }, err), pw) }

/-- A reconciler over the in-memory store whose updates answer an internal
error. -/
def failingUpdateReconciler : K8sGPTReconciler MemStore :=
  { sampleReconciler memClient with update := fun _ s => (some internalError, s) }

/-- A fresh instance for the sample config. -/
def sampleInstance (R : K8sGPTReconciler MemStore) : K8sGPTInstance MemStore :=
  { R := R, K8sgptConfig := sampleConfig, k8sgptDeployment := none, hasReadyReplicas := false }

/-- A successor step that ends the pass with no requeue and no error. -/
def sampleNext : ConfigureStep MemStore :=
  { next := fun inst pw => (({ requeue := false, requeueAfter := 0 }, none), inst, pw) }

/-- A pass world over an in-memory store with nothing logged yet. -/
def memPassWorld (objs : List Obj) (faults : List Error) : PassWorld MemStore :=
  ⟨memWorld objs faults, []⟩

/-! ## Observations on resources, lookups and patches -/

/-- The limit a requirements structure holds for a resource name, if any. -/
def limitFor (r : ResourceRequirements) (name : String) : Option Quantity :=
  match r.limits with
  | some l => l.lookup name
  | none => none

/-- The request a requirements structure holds for a resource name, if any. -/
def requestFor (r : ResourceRequirements) (name : String) : Option Quantity :=
  match r.requests with
  | some l => l.lookup name
  | none => none

/-- The sample config requesting only memory (`requests: {memory: 128Mi}`). -/
def sampleMemoryRequestOnly : K8sGPT :=
  sampleWithResources (some { limits := none, requests := some [("memory", MustParse "128Mi")] })

/-- The lookup by which a converge of a descriptor begins: a get of the
descriptor's Go type at its identity key. -/
def lookupOf (obj : Obj) : Call :=
  Call.get obj.kind (ObjectKeyFromObject obj)

/-- A call that patches (updates a stored object in place). -/
def Call.isPatch : Call → Bool
  | .patch _ => true
  | _ => false

/-- The sample config with an IRSA role for the service account. -/
def sampleWithIRSA : K8sGPT :=
  { sampleConfig with
    spec := { sampleConfig.spec with
      extraOptions := some { serviceAccountIRSA := "arn:aws:iam::1:role/new" } } }

/-- The service account of the sample config as stored by an earlier pass, with
the IRSA role annotation of that time. -/
def storedServiceAccount : ServiceAccount :=
  { objectMeta :=
      { sampleServiceAccount.objectMeta with
        annotations := [("eks.amazonaws.com/role-arn", "arn:aws:iam::1:role/old")]
        uid := "uid-sa", resourceVersion := "7" } }

/-- The service account descriptor `GetServiceAccount` builds for the sample
config with the IRSA role. -/
def irsaServiceAccount : ServiceAccount :=
  { objectMeta :=
      { sampleServiceAccount.objectMeta with
        annotations := [("eks.amazonaws.com/role-arn", "arn:aws:iam::1:role/new")] } }

/-- The sample config with backend ibmwatsonxai and the secret `ai-secret`. -/
def sampleWatsonx : K8sGPT :=
  sampleWithAI
    { sampleAI with
      backend := "ibmwatsonxai", secret := some { name := "ai-secret", key := "token" } }

/-- The sample config with the secret `ai-secret` (backend openai). -/
def sampleWithSecret : K8sGPT :=
  sampleWithAI { sampleAI with secret := some { name := "ai-secret", key := "token" } }

/-- A client over the in-memory store whose every delete answers an internal
error; reads and writes are those of `memClient`. -/
def failingDeleteClient : Client MemStore :=
  { memClient with delete := fun _ s => (some internalError, s) }

/-- Whether, in a call log, every call on an object of kind `late` comes after
the lookup of the descriptor `early`: before the first occurrence of that lookup
no call concerns an object of kind `late` (so when the lookup does not occur, no
call concerns kind `late` at all). -/
def lookedUpBefore (early : Obj) (late : Kind) (calls : List Call) : Bool :=
  (calls.takeWhile (fun x => decide (x ≠ lookupOf early))).all
    (fun x => decide (x.kind ≠ late))

/-! # Theorems -/

/-! ## Validation errors of the builder -/

theorem issuedOnlyGets_refl {σ : Type} (w : World σ) : IssuedOnlyGets w w :=
  ⟨[], by simp, by simp⟩

theorem issuedOnlyGets_trans {σ : Type} {w1 w2 w3 : World σ}
    (h12 : IssuedOnlyGets w1 w2) (h23 : IssuedOnlyGets w2 w3) : IssuedOnlyGets w1 w3 := by
  obtain ⟨e1, h1, g1⟩ := h12
  obtain ⟨e2, h2, g2⟩ := h23
  refine ⟨e1 ++ e2, by rw [h2, h1, List.append_assoc], ?_⟩
  intro x hx
  rcases List.mem_append.mp hx with h | h
  · exact g1 x h
  · exact g2 x h

theorem issuedOnlyGets_Get {σ : Type} (c : Client σ) (k : Kind) (key : NamespacedName)
    (w : World σ) : IssuedOnlyGets w (Get c k key w).2 :=
  ⟨[Call.get k key], rfl, by simp [Call.isGet]⟩

theorem addSecretAsEnvToDeployment_onlyGets {σ : Type} (secretName secretKey : String)
    (config : K8sGPT) (c : Client σ) (d : Deployment) (w : World σ) :
    IssuedOnlyGets w (addSecretAsEnvToDeployment secretName secretKey config c d w).2.2 := by
  unfold addSecretAsEnvToDeployment
  have h := issuedOnlyGets_Get c .secret ⟨config.ns, secretName⟩ w
  split <;> rename_i heq <;> rw [heq] at h <;> exact h

theorem applyAmazonBedrock_onlyGets {σ : Type} (config : K8sGPT) (c : Client σ) (d : Deployment)
    (w : World σ) : IssuedOnlyGets w (applyAmazonBedrock config c d w).2 := by
  unfold applyAmazonBedrock
  split
  · cases hs : config.spec.ai.secret with
    | none =>
        simp only []
        split <;> exact issuedOnlyGets_refl w
    | some secret =>
        simp only []
        have h1 := addSecretAsEnvToDeployment_onlyGets secret.name "AWS_ACCESS_KEY_ID" config c d w
        rcases hr1 : addSecretAsEnvToDeployment secret.name "AWS_ACCESS_KEY_ID" config c d w with
          ⟨r1, d1, w1⟩
        rw [hr1] at h1
        cases r1 with
        | some err => simpa using h1
        | none =>
            simp only []
            have h2 := addSecretAsEnvToDeployment_onlyGets secret.name "AWS_SECRET_ACCESS_KEY"
              config c d1 w1
            rcases hr2 : addSecretAsEnvToDeployment secret.name "AWS_SECRET_ACCESS_KEY" config c d1 w1
              with ⟨r2, d2, w2⟩
            rw [hr2] at h2
            have h12 := issuedOnlyGets_trans h1 h2
            cases r2 with
            | some err => simpa using h12
            | none =>
                simp only []
                split <;> exact h12
  · exact issuedOnlyGets_refl w

theorem applyAmazonBedrock_no_region {σ : Type} (config : K8sGPT) (c : Client σ) (d : Deployment)
    (w : World σ) (hBackend : config.spec.ai.backend = AmazonBedrock)
    (hRegion : config.spec.ai.region = "") :
    ∃ e, (applyAmazonBedrock config c d w).1 = .error e := by
  unfold applyAmazonBedrock
  rw [if_pos hBackend]
  cases hs : config.spec.ai.secret with
  | none => simp [hRegion]
  | some secret =>
      simp only []
      rcases hr1 : addSecretAsEnvToDeployment secret.name "AWS_ACCESS_KEY_ID" config c d w with
        ⟨r1, d1, w1⟩
      cases r1 with
      | some err => simp
      | none =>
          simp only []
          rcases hr2 : addSecretAsEnvToDeployment secret.name "AWS_SECRET_ACCESS_KEY" config c d1 w1
            with ⟨r2, d2, w2⟩
          cases r2 with
          | some err => simp
          | none => simp [hRegion]

theorem applyIBMWatsonxAI_onlyGets {σ : Type} (config : K8sGPT) (c : Client σ) (d : Deployment)
    (w : World σ) : IssuedOnlyGets w (applyIBMWatsonxAI config c d w).2 := by
  unfold applyIBMWatsonxAI
  split
  · cases hs : config.spec.ai.secret with
    | none => exact issuedOnlyGets_refl w
    | some secret =>
        simp only []
        have h1 := addSecretAsEnvToDeployment_onlyGets secret.name "K8SGPT_PROVIDER_ID" config c d w
        rcases hr1 : addSecretAsEnvToDeployment secret.name "K8SGPT_PROVIDER_ID" config c d w with
          ⟨r1, d1, w1⟩
        rw [hr1] at h1
        cases r1 <;> simpa using h1
  · exact issuedOnlyGets_refl w

/-- The tail of `GetDeployment` after the engine check: proxy endpoint,
amazonbedrock and ibmwatsonxai blocks. -/
theorem getDeployment_tail_onlyGets {σ : Type} (config : K8sGPT) (c : Client σ) (d : Deployment)
    (w : World σ) :
    IssuedOnlyGets w
      (match applyAmazonBedrock config c d w with
        | (.error err, w1) => ((.error err : Except Error Deployment), w1)
        | (.ok d1, w1) => applyIBMWatsonxAI config c d1 w1).2 := by
  have h1 := applyAmazonBedrock_onlyGets config c d w
  rcases hr : applyAmazonBedrock config c d w with ⟨r, w1⟩
  rw [hr] at h1
  cases r with
  | error err => exact h1
  | ok d1 => exact issuedOnlyGets_trans h1 (applyIBMWatsonxAI_onlyGets config c d1 w1)

theorem GetDeployment_onlyGets {σ : Type} (config : K8sGPT) (outOfClusterMode : Bool)
    (c : Client σ) (serviceAccountName : String) (w : World σ) :
    IssuedOnlyGets w (GetDeployment config outOfClusterMode c serviceAccountName w).2 := by
  unfold GetDeployment
  simp only []
  split
  · exact getDeployment_tail_onlyGets config c _ w
  · split
    · exact issuedOnlyGets_refl w
    · exact getDeployment_tail_onlyGets config c _ w

theorem GetDeployment_engine_error {σ : Type} (config : K8sGPT) (outOfClusterMode : Bool)
    (c : Client σ) (serviceAccountName : String) (w : World σ)
    (hEngine : config.spec.ai.engine ≠ "") (hBackend : config.spec.ai.backend ≠ AzureOpenAI) :
    GetDeployment config outOfClusterMode c serviceAccountName w =
      (.error (.plain "engine is supported only by azureopenai provider"), w) := by
  simp [GetDeployment, hEngine, hBackend]

theorem GetDeployment_no_region {σ : Type} (config : K8sGPT) (outOfClusterMode : Bool)
    (c : Client σ) (serviceAccountName : String) (w : World σ)
    (hBackend : config.spec.ai.backend = AmazonBedrock) (hRegion : config.spec.ai.region = "") :
    ∃ e, (GetDeployment config outOfClusterMode c serviceAccountName w).1 = .error e := by
  have hne : config.spec.ai.backend ≠ AzureOpenAI := by rw [hBackend]; decide
  by_cases hEngine : config.spec.ai.engine = ""
  · unfold GetDeployment
    simp only [hEngine, ne_eq, not_true_eq_false, false_and, if_false]
    obtain ⟨e, he⟩ := applyAmazonBedrock_no_region config c
      (applyProxyEndpoint config (deploymentBeforeEngine config outOfClusterMode serviceAccountName))
      w hBackend hRegion
    rcases hr : applyAmazonBedrock config c
      (applyProxyEndpoint config (deploymentBeforeEngine config outOfClusterMode serviceAccountName))
      w with ⟨r, w1⟩
    rw [hr] at he
    simp only at he
    subst he
    exact ⟨e, rfl⟩
  · exact ⟨_, by rw [GetDeployment_engine_error config outOfClusterMode c serviceAccountName w
      hEngine hne]⟩

/-- When the deployment fails to build, `Sync` returns the build error in the
world the build left. -/
theorem Sync_build_error {σ : Type} (c : Client σ) (config : K8sGPT) (i : SyncOrDestroy)
    (w : World σ) (e : Error)
    (h : (GetDeployment config config.spec.kubeconfig.isSome c ("k8sgpt-" ++ config.ns) w).1 =
      .error e) :
    Sync c config i w =
      (some e, (GetDeployment config config.spec.kubeconfig.isSome c ("k8sgpt-" ++ config.ns) w).2) := by
  unfold Sync
  simp only [GetServiceAccount, GetService]
  rcases hr : GetDeployment config config.spec.kubeconfig.isSome c ("k8sgpt-" ++ config.ns) w with
    ⟨r, w1⟩
  rw [hr] at h
  simp only at h
  subst h
  rfl

/-- When the deployment builds, `Sync` runs the loop over the five descriptors
in the world the build left. -/
theorem Sync_build_ok {σ : Type} (c : Client σ) (config : K8sGPT) (i : SyncOrDestroy)
    (w w1 : World σ) (sa : ServiceAccount) (svc : Service) (deployment : Deployment)
    (cr : ClusterRole) (crb : ClusterRoleBinding)
    (hsa : GetServiceAccount config ("k8sgpt-" ++ config.ns) = .ok sa)
    (hsvc : GetService config = .ok svc)
    (hd : GetDeployment config config.spec.kubeconfig.isSome c ("k8sgpt-" ++ config.ns) w =
      (.ok deployment, w1))
    (hcr : GetClusterRole config ("k8sgpt-" ++ config.ns) = .ok cr)
    (hcrb : GetClusterRoleBinding config ("k8sgpt-" ++ config.ns)
      ("k8sgpt-" ++ config.ns ++ "-clusterrole" ++ "-binding")
      ("k8sgpt-" ++ config.ns ++ "-clusterrole") = .ok crb) :
    Sync c config i w =
      syncLoop c config i
        [.serviceAccount sa, .service svc, .deployment deployment, .clusterRole cr,
          .clusterRoleBinding crb] w1 := by
  unfold Sync
  simp only [hsa, hsvc, hd, hcr, hcrb]

/-- C1: for every config whose engine is non-empty and whose backend is not
azureopenai: every call of `GetDeployment` that does not dereference a nil
`Spec.Kubeconfig` (any service account name, either mode) returns, and what it
returns is the engine error in the world it started from; the call `Sync` makes
is such a call; and `Sync` (with either operation) returns that same error in
the world it started from: the store is untouched and the call log is
unchanged, so no get, create, patch or delete was issued. -/
theorem engine_for_wrong_backend_fails_without_calls {σ : Type} (c : Client σ) (config : K8sGPT)
    (i : SyncOrDestroy) (w : World σ)
    (hEngine : config.spec.ai.engine ≠ "") (hBackend : config.spec.ai.backend ≠ AzureOpenAI) :
    (∀ (outOfClusterMode : Bool) (serviceAccountName : String),
        dereferencesNilKubeconfig config outOfClusterMode = false →
        GetDeploymentCall config outOfClusterMode c serviceAccountName w =
          some (.error (.plain "engine is supported only by azureopenai provider"), w)) ∧
      dereferencesNilKubeconfig config config.spec.kubeconfig.isSome = false ∧
      Sync c config i w = (some (.plain "engine is supported only by azureopenai provider"), w) := by
  refine ⟨?_, ?_, ?_⟩
  · intro outOfClusterMode serviceAccountName hmode
    simp only [GetDeploymentCall, hmode, Bool.false_eq_true, if_false,
      GetDeployment_engine_error config _ c _ w hEngine hBackend]
  · cases h : config.spec.kubeconfig <;> simp [dereferencesNilKubeconfig, h]
  · have h := GetDeployment_engine_error config config.spec.kubeconfig.isSome c
      ("k8sgpt-" ++ config.ns) w hEngine hBackend
    rw [Sync_build_error c config i w _ (by rw [h]), h]

/-- A witness of C1: the sample config with backend openai and engine `e1`,
built in either mode it can be built in and destroyed against an empty
in-memory store. -/
theorem engine_for_wrong_backend_fails_without_calls_witness :
    ((sampleWithAI { sampleAI with engine := "e1" }).spec.ai.engine ≠ "" ∧
      (sampleWithAI { sampleAI with engine := "e1" }).spec.ai.backend ≠ AzureOpenAI) ∧
    ((∀ (outOfClusterMode : Bool) (serviceAccountName : String),
        dereferencesNilKubeconfig (sampleWithAI { sampleAI with engine := "e1" })
          outOfClusterMode = false →
        GetDeploymentCall (sampleWithAI { sampleAI with engine := "e1" }) outOfClusterMode
            memClient serviceAccountName (memWorld [] []) =
          some (.error (.plain "engine is supported only by azureopenai provider"),
            memWorld [] [])) ∧
      dereferencesNilKubeconfig (sampleWithAI { sampleAI with engine := "e1" })
        (sampleWithAI { sampleAI with engine := "e1" }).spec.kubeconfig.isSome = false ∧
      Sync memClient (sampleWithAI { sampleAI with engine := "e1" }) .DestroyOp (memWorld [] []) =
        (some (.plain "engine is supported only by azureopenai provider"), memWorld [] [])) :=
  ⟨⟨by decide, by decide⟩,
    engine_for_wrong_backend_fails_without_calls memClient
      (sampleWithAI { sampleAI with engine := "e1" }) .DestroyOp (memWorld [] [])
      (by decide) (by decide)⟩

/-- The engine is optional for azureopenai: the sample config with backend
azureopenai and no engine builds, and its container has no `K8SGPT_ENGINE`
variable (the comment above the check in the source says the engine is required
for that backend; the code rejects an engine for other backends and accepts its
absence for every backend). -/
theorem azureopenai_without_engine_builds :
    (GetDeployment (sampleWithAI { sampleAI with backend := "azureopenai" }) false memClient
        "k8sgpt-ns1" (memWorld [] [])).1 =
      .ok (builtDeployment (sampleWithAI { sampleAI with backend := "azureopenai" }) false
        "k8sgpt-ns1") ∧
    (containerEnv (builtDeployment (sampleWithAI { sampleAI with backend := "azureopenai" }) false
        "k8sgpt-ns1")).all (fun e => decide (e.name ≠ "K8SGPT_ENGINE")) = true :=
  ⟨rfl, by decide⟩

/-- C2, counterexample: the sample config with backend amazonbedrock, no region
and no kubeconfig reference, built with `outOfClusterMode = true`. The call
dereferences the nil `Spec.Kubeconfig` in the out-of-cluster block and panics
before it reaches the region check: it returns nothing, so it does not return
an error. -/
theorem bedrock_without_region_panics_without_kubeconfig :
    (sampleWithAI { sampleAI with backend := "amazonbedrock" }).spec.ai.backend = AmazonBedrock ∧
      (sampleWithAI { sampleAI with backend := "amazonbedrock" }).spec.ai.region = "" ∧
      (sampleWithAI { sampleAI with backend := "amazonbedrock" }).spec.kubeconfig = none ∧
      dereferencesNilKubeconfig (sampleWithAI { sampleAI with backend := "amazonbedrock" }) true =
        true ∧
      GetDeploymentCall (sampleWithAI { sampleAI with backend := "amazonbedrock" }) true memClient
        "k8sgpt-ns1" (memWorld [] []) = none :=
  ⟨by decide, by decide, by decide, by decide, rfl⟩

/-- C2, amended: for every config whose backend is amazonbedrock and whose
region is empty, every client, store state and service account name: a call of
`GetDeployment` that does not dereference a nil `Spec.Kubeconfig` (mode off, or
mode on with the kubeconfig set) returns, and what it returns is an error; a
call that does (mode on, kubeconfig nil) panics and returns nothing; the call
`Sync` makes is of the first sort, and `Sync` (with either operation) returns
the build error having issued nothing but gets: no create, no patch and no
delete. -/
theorem bedrock_without_region_fails {σ : Type} (c : Client σ) (config : K8sGPT)
    (i : SyncOrDestroy) (w : World σ)
    (hBackend : config.spec.ai.backend = AmazonBedrock) (hRegion : config.spec.ai.region = "") :
    (∀ (outOfClusterMode : Bool) (serviceAccountName : String),
        dereferencesNilKubeconfig config outOfClusterMode = false →
        ∃ (e : Error) (w1 : World σ),
          GetDeploymentCall config outOfClusterMode c serviceAccountName w =
            some (.error e, w1)) ∧
      (∀ (outOfClusterMode : Bool) (serviceAccountName : String),
        dereferencesNilKubeconfig config outOfClusterMode = true →
        GetDeploymentCall config outOfClusterMode c serviceAccountName w = none) ∧
      dereferencesNilKubeconfig config config.spec.kubeconfig.isSome = false ∧
      (∃ e, (Sync c config i w).1 = some e ∧
        GetDeploymentCall config config.spec.kubeconfig.isSome c ("k8sgpt-" ++ config.ns) w =
          some (.error e, (Sync c config i w).2)) ∧
      IssuedOnlyGets w (Sync c config i w).2 := by
  have hsync : dereferencesNilKubeconfig config config.spec.kubeconfig.isSome = false := by
    cases h : config.spec.kubeconfig <;> simp [dereferencesNilKubeconfig, h]
  obtain ⟨e, he⟩ := GetDeployment_no_region config config.spec.kubeconfig.isSome c
    ("k8sgpt-" ++ config.ns) w hBackend hRegion
  refine ⟨?_, ?_, hsync, ⟨e, ?_, ?_⟩, ?_⟩
  · intro outOfClusterMode serviceAccountName hmode
    obtain ⟨e1, he1⟩ := GetDeployment_no_region config outOfClusterMode c serviceAccountName w
      hBackend hRegion
    refine ⟨e1, (GetDeployment config outOfClusterMode c serviceAccountName w).2, ?_⟩
    simp only [GetDeploymentCall, hmode, Bool.false_eq_true, if_false, ← he1]
  · intro outOfClusterMode serviceAccountName hmode
    simp only [GetDeploymentCall, hmode, if_true]
  · rw [Sync_build_error c config i w e he]
  · rw [Sync_build_error c config i w e he]
    simp only [GetDeploymentCall, hsync, Bool.false_eq_true, if_false, ← he]
  · rw [Sync_build_error c config i w e he]
    exact GetDeployment_onlyGets config _ c _ w

/-- A witness of C2 (amended): the sample config with backend amazonbedrock and
no region, synchronized against an empty in-memory store. -/
theorem bedrock_without_region_fails_witness :
    ((sampleWithAI { sampleAI with backend := "amazonbedrock" }).spec.ai.backend = AmazonBedrock ∧
      (sampleWithAI { sampleAI with backend := "amazonbedrock" }).spec.ai.region = "") ∧
    ((∀ (outOfClusterMode : Bool) (serviceAccountName : String),
        dereferencesNilKubeconfig (sampleWithAI { sampleAI with backend := "amazonbedrock" })
          outOfClusterMode = false →
        ∃ (e : Error) (w1 : World MemStore),
          GetDeploymentCall (sampleWithAI { sampleAI with backend := "amazonbedrock" })
            outOfClusterMode memClient serviceAccountName (memWorld [] []) =
            some (.error e, w1)) ∧
      (∀ (outOfClusterMode : Bool) (serviceAccountName : String),
        dereferencesNilKubeconfig (sampleWithAI { sampleAI with backend := "amazonbedrock" })
          outOfClusterMode = true →
        GetDeploymentCall (sampleWithAI { sampleAI with backend := "amazonbedrock" })
          outOfClusterMode memClient serviceAccountName (memWorld [] []) = none) ∧
      dereferencesNilKubeconfig (sampleWithAI { sampleAI with backend := "amazonbedrock" })
        (sampleWithAI { sampleAI with backend := "amazonbedrock" }).spec.kubeconfig.isSome =
          false ∧
      (∃ e, (Sync memClient (sampleWithAI { sampleAI with backend := "amazonbedrock" }) .SyncOp
          (memWorld [] [])).1 = some e ∧
        GetDeploymentCall (sampleWithAI { sampleAI with backend := "amazonbedrock" })
          (sampleWithAI { sampleAI with backend := "amazonbedrock" }).spec.kubeconfig.isSome
          memClient ("k8sgpt-" ++ (sampleWithAI { sampleAI with backend := "amazonbedrock" }).ns)
          (memWorld [] []) =
          some (.error e,
            (Sync memClient (sampleWithAI { sampleAI with backend := "amazonbedrock" }) .SyncOp
              (memWorld [] [])).2)) ∧
      IssuedOnlyGets (memWorld [] [])
        (Sync memClient (sampleWithAI { sampleAI with backend := "amazonbedrock" }) .SyncOp
          (memWorld [] [])).2) ∧
    (Sync memClient (sampleWithAI { sampleAI with backend := "amazonbedrock" }) .SyncOp
        (memWorld [] [])).1 =
      some (.plain "default region is required for amazonbedrock backend") :=
  ⟨⟨by decide, by decide⟩,
    bedrock_without_region_fails memClient
      (sampleWithAI { sampleAI with backend := "amazonbedrock" }) .SyncOp (memWorld [] [])
      (by decide) (by decide),
    by decide⟩

/-! ## Resources of the container -/

/-- C3, the code at the failing input: the sample config with `resources: {}`
(a non-nil, empty requirements structure) overrides none of the four fields and
all four closures yield the defaults, yet the deployment builds with a container
whose resources are the empty structure, not the defaults. -/
theorem empty_resources_override_drops_defaults :
    (cpuLimit (sampleWithResources (some { limits := none, requests := none })) = MustParse "1" ∧
      memLimit (sampleWithResources (some { limits := none, requests := none })) = MustParse "512Mi" ∧
      cpuRequest (sampleWithResources (some { limits := none, requests := none })) = MustParse "0.2" ∧
      memRequest (sampleWithResources (some { limits := none, requests := none })) =
        MustParse "256Mi") ∧
    (GetDeployment (sampleWithResources (some { limits := none, requests := none })) false
        memClient "k8sgpt-ns1" (memWorld [] [])).1.toOption.map containerResources =
      some [{ limits := none, requests := none }] ∧
    (GetDeployment (sampleWithResources (some { limits := none, requests := none })) false
        memClient "k8sgpt-ns1" (memWorld [] [])).1.toOption.map containerResources ≠
      some [defaultResources] := by
  decide

/-- C4, the code at the failing input: the sample config overriding only the cpu
limit (`limits: {cpu: 2}`); the closures yield cpu limit 2 and the defaults for
the other three fields, yet the deployment builds with a container whose
resources are exactly the config's structure: no memory limit and no requests. -/
theorem cpu_limit_override_drops_other_defaults :
    (cpuLimit (sampleWithResources (some { limits := some [("cpu", MustParse "2")], requests := none }))
        = MustParse "2" ∧
      memLimit (sampleWithResources (some { limits := some [("cpu", MustParse "2")], requests := none }))
        = MustParse "512Mi") ∧
    (GetDeployment
        (sampleWithResources (some { limits := some [("cpu", MustParse "2")], requests := none }))
        false memClient "k8sgpt-ns1" (memWorld [] [])).1.toOption.map containerResources =
      some [{ limits := some [("cpu", MustParse "2")], requests := none }] ∧
    (GetDeployment
        (sampleWithResources (some { limits := some [("cpu", MustParse "2")], requests := none }))
        false memClient "k8sgpt-ns1" (memWorld [] [])).1.toOption.map containerResources ≠
      some [{ limits := some [(ResourceCPU, MustParse "2"), (ResourceMemory, MustParse "512Mi")]
              requests := some [(ResourceCPU, MustParse "0.2"), (ResourceMemory, MustParse "256Mi")] }] := by
  decide

/-! ## The loop of `Sync` -/

theorem builders_succeed (config : K8sGPT) (serviceAccountName crbName clusterRoleName : String) :
    ∃ sa svc cr crb,
      GetServiceAccount config serviceAccountName = .ok sa ∧
      GetService config = .ok svc ∧
      GetClusterRole config serviceAccountName = .ok cr ∧
      GetClusterRoleBinding config serviceAccountName crbName clusterRoleName = .ok crb :=
  ⟨_, _, _, _, rfl, rfl, rfl, rfl⟩

theorem syncLoop_append {σ : Type} (c : Client σ) (config : K8sGPT) (i : SyncOrDestroy)
    (pre post : List Obj) (w wa : World σ) (h : syncLoop c config i pre w = (none, wa)) :
    syncLoop c config i (pre ++ post) w = syncLoop c config i post wa := by
  induction pre generalizing w with
  | nil =>
      simp only [syncLoop, Prod.mk.injEq, true_and] at h
      subst h
      rfl
  | cons obj rest ih =>
      cases i with
      | SyncOp =>
          simp only [List.cons_append, syncLoop] at h ⊢
          rcases hc : checkSecret c config w with ⟨r, w1⟩
          rw [hc] at h
          cases r with
          | some er => simp at h
          | none =>
              simp only at h ⊢
              rcases hd : doSync c obj w1 with ⟨r2, w2⟩
              rw [hd] at h
              cases r2 with
              | none => exact ih w2 h
              | some err =>
                  simp only at h ⊢
                  by_cases hae : IsAlreadyExists err = true
                  · simp only [hae, Bool.not_true, Bool.false_eq_true, if_false] at h ⊢
                    exact ih w2 h
                  · simp [hae] at h
      | DestroyOp =>
          simp only [List.cons_append, syncLoop] at h ⊢
          rcases hd : Delete c obj w with ⟨r, w1⟩
          rw [hd] at h
          cases r with
          | none => exact ih w1 h
          | some err =>
              simp only at h ⊢
              by_cases hnf : IsNotFound err = true
              · simp only [hnf, Bool.not_true, Bool.false_eq_true, if_false] at h ⊢
                exact ih w1 h
              · simp [hnf] at h

theorem checkSecret_onlyGets {σ : Type} (c : Client σ) (config : K8sGPT) (w : World σ) :
    IssuedOnlyGets w (checkSecret c config w).2 := by
  unfold checkSecret
  cases hs : config.spec.ai.secret with
  | none => exact issuedOnlyGets_refl w
  | some secret =>
      simp only
      have h := issuedOnlyGets_Get c .secret ⟨config.ns, secret.name⟩ w
      split <;> rename_i heq <;> rw [heq] at h <;> exact h

theorem checkSecret_fails {σ : Type} (c : Client σ) (config : K8sGPT) (w : World σ)
    (secret : SecretRef) (e : Error) (hs : config.spec.ai.secret = some secret)
    (hFail : (c.get .secret ⟨config.ns, secret.name⟩ w.store).1 = .error e) :
    (checkSecret c config w).1 = some e := by
  unfold checkSecret
  rw [hs]
  simp only
  rcases hg : Get c .secret ⟨config.ns, secret.name⟩ w with ⟨r, w1⟩
  have h1 : (Get c .secret ⟨config.ns, secret.name⟩ w).1 = .error e := hFail
  rw [hg] at h1
  simp only at h1
  subst h1
  rfl

/-- C5: for every config that references a secret, if the lookup of that secret
in the config's namespace fails in the store state in which the loop of `Sync`
starts (the state the build left), then `Sync` with `SyncOp` returns an error
and every call it issued is a get: no create and no patch (and no delete) was
issued for any descriptor, because the check precedes the first converge. -/
theorem missing_secret_aborts_before_any_converge {σ : Type} (c : Client σ) (config : K8sGPT)
    (w : World σ) (secret : SecretRef) (hs : config.spec.ai.secret = some secret)
    (hFail : ∃ e, (c.get .secret ⟨config.ns, secret.name⟩
      (GetDeployment config config.spec.kubeconfig.isSome c ("k8sgpt-" ++ config.ns) w).2.store).1 =
        .error e) :
    (∃ e, (Sync c config .SyncOp w).1 = some e) ∧
      IssuedOnlyGets w (Sync c config .SyncOp w).2 := by
  have hb := GetDeployment_onlyGets config config.spec.kubeconfig.isSome c
    ("k8sgpt-" ++ config.ns) w
  rcases hd : GetDeployment config config.spec.kubeconfig.isSome c ("k8sgpt-" ++ config.ns) w with
    ⟨r, w1⟩
  rw [hd] at hb hFail
  cases r with
  | error e =>
      rw [Sync_build_error c config .SyncOp w e (by rw [hd]), hd]
      exact ⟨⟨e, rfl⟩, hb⟩
  | ok deployment =>
      obtain ⟨sa, svc, cr, crb, hsa, hsvc, hcr, hcrb⟩ := builders_succeed config
        ("k8sgpt-" ++ config.ns) ("k8sgpt-" ++ config.ns ++ "-clusterrole" ++ "-binding")
        ("k8sgpt-" ++ config.ns ++ "-clusterrole")
      rw [Sync_build_ok c config .SyncOp w w1 sa svc deployment cr crb hsa hsvc hd hcr hcrb]
      obtain ⟨e, he⟩ := hFail
      have hc := checkSecret_fails c config w1 secret e hs he
      have hg := checkSecret_onlyGets c config w1
      simp only [syncLoop]
      rcases hcs : checkSecret c config w1 with ⟨r2, w2⟩
      rw [hcs] at hc hg
      simp only at hc hg
      subst hc
      exact ⟨⟨e, rfl⟩, issuedOnlyGets_trans hb hg⟩

/-- A witness of C5: the sample config referencing the secret `ai-secret`,
synchronized against an empty in-memory store. -/
theorem missing_secret_aborts_before_any_converge_witness :
    (∃ e, (Sync memClient
        (sampleWithAI { sampleAI with secret := some { name := "ai-secret", key := "token" } })
        .SyncOp (memWorld [] [])).1 = some e) ∧
      IssuedOnlyGets (memWorld [] [])
        (Sync memClient
          (sampleWithAI { sampleAI with secret := some { name := "ai-secret", key := "token" } })
          .SyncOp (memWorld [] [])).2 :=
  missing_secret_aborts_before_any_converge memClient
    (sampleWithAI { sampleAI with secret := some { name := "ai-secret", key := "token" } })
    (memWorld [] []) { name := "ai-secret", key := "token" } rfl ⟨notFoundError, rfl⟩


theorem syncLoop_destroy {σ : Type} (c : Client σ) (config : K8sGPT)
    (hDel : ∀ (obj : Obj) (s : σ) (e : Error), (c.delete obj s).1 = some e → IsNotFound e = true)
    (objs : List Obj) (w : World σ) :
    (syncLoop c config .DestroyOp objs w).1 = none ∧
      (syncLoop c config .DestroyOp objs w).2.calls = w.calls ++ objs.map Call.delete := by
  induction objs generalizing w with
  | nil => simp [syncLoop]
  | cons obj rest ih =>
      simp only [syncLoop]
      have hcalls : (Delete c obj w).2.calls = w.calls ++ [Call.delete obj] := rfl
      have hres : (Delete c obj w).1 = (c.delete obj w.store).1 := rfl
      rcases hd : Delete c obj w with ⟨r, w1⟩
      rw [hd] at hcalls hres
      simp only at hcalls hres
      have step : (syncLoop c config .DestroyOp rest w1).1 = none ∧
          (syncLoop c config .DestroyOp rest w1).2.calls =
            w.calls ++ (obj :: rest).map Call.delete := by
        obtain ⟨h1, h2⟩ := ih w1
        refine ⟨h1, ?_⟩
        rw [h2, hcalls]
        simp
      cases r with
      | none => exact step
      | some err =>
          have hnf : IsNotFound err = true := hDel obj w.store err hres.symm
          simp only [hnf, Bool.not_true, Bool.false_eq_true, if_false]
          exact step

/-- C9: for every config whose descriptors build, if every delete the client
answers is ok or not-found, `Sync` with `DestroyOp` returns success and the
calls it issued after the build are exactly the five deletes, one per
descriptor, in order: a not-found answer does not stop the loop. -/
theorem destroy_treats_not_found_as_success {σ : Type} (c : Client σ) (config : K8sGPT)
    (w w1 : World σ) (sa : ServiceAccount) (svc : Service) (deployment : Deployment)
    (cr : ClusterRole) (crb : ClusterRoleBinding)
    (hsa : GetServiceAccount config ("k8sgpt-" ++ config.ns) = .ok sa)
    (hsvc : GetService config = .ok svc)
    (hd : GetDeployment config config.spec.kubeconfig.isSome c ("k8sgpt-" ++ config.ns) w =
      (.ok deployment, w1))
    (hcr : GetClusterRole config ("k8sgpt-" ++ config.ns) = .ok cr)
    (hcrb : GetClusterRoleBinding config ("k8sgpt-" ++ config.ns)
      ("k8sgpt-" ++ config.ns ++ "-clusterrole" ++ "-binding")
      ("k8sgpt-" ++ config.ns ++ "-clusterrole") = .ok crb)
    (hDel : ∀ (obj : Obj) (s : σ) (e : Error), (c.delete obj s).1 = some e → IsNotFound e = true) :
    (Sync c config .DestroyOp w).1 = none ∧
      (Sync c config .DestroyOp w).2.calls =
        w1.calls ++ [Call.delete (.serviceAccount sa), Call.delete (.service svc),
          Call.delete (.deployment deployment), Call.delete (.clusterRole cr),
          Call.delete (.clusterRoleBinding crb)] := by
  rw [Sync_build_ok c config .DestroyOp w w1 sa svc deployment cr crb hsa hsvc hd hcr hcrb]
  exact syncLoop_destroy c config hDel _ w1

theorem memClient_delete_notFound (obj : Obj) (s : MemStore) (e : Error)
    (h : (memClient.delete obj s).1 = some e) : IsNotFound e = true := by
  simp only [memClient] at h
  split at h
  · simp at h
  · simp only [Option.some.injEq] at h
    subst h
    rfl

/-- A witness of C9: the sample config destroyed against an empty in-memory
store, where every delete answers not-found. -/
theorem destroy_treats_not_found_as_success_witness :
    (Sync memClient sampleConfig .DestroyOp (memWorld [] [])).1 = none ∧
      (Sync memClient sampleConfig .DestroyOp (memWorld [] [])).2.calls =
        (memWorld [] []).calls ++
          [Call.delete (.serviceAccount sampleServiceAccount), Call.delete (.service sampleService),
            Call.delete (.deployment sampleDeployment), Call.delete (.clusterRole sampleClusterRole),
            Call.delete (.clusterRoleBinding sampleClusterRoleBinding)] :=
  destroy_treats_not_found_as_success memClient sampleConfig (memWorld [] []) (memWorld [] [])
    sampleServiceAccount sampleService sampleDeployment sampleClusterRole sampleClusterRoleBinding
    rfl rfl rfl rfl rfl memClient_delete_notFound

/-- C10: for every config whose descriptors build, if the converge of one of the
five descriptors (reached after the descriptors before it converged and its
secret check passed) fails with an already-exists error, `Sync` with `SyncOp`
does not stop there: its result is the result of the loop over the remaining
descriptors, started in the world that converge left, so it returns success
when they succeed. -/
theorem already_exists_is_ignored_by_Sync {σ : Type} (c : Client σ) (config : K8sGPT)
    (w w1 : World σ) (sa : ServiceAccount) (svc : Service) (deployment : Deployment)
    (cr : ClusterRole) (crb : ClusterRoleBinding) (before after : List Obj) (obj : Obj) (e : Error)
    (hsa : GetServiceAccount config ("k8sgpt-" ++ config.ns) = .ok sa)
    (hsvc : GetService config = .ok svc)
    (hd : GetDeployment config config.spec.kubeconfig.isSome c ("k8sgpt-" ++ config.ns) w =
      (.ok deployment, w1))
    (hcr : GetClusterRole config ("k8sgpt-" ++ config.ns) = .ok cr)
    (hcrb : GetClusterRoleBinding config ("k8sgpt-" ++ config.ns)
      ("k8sgpt-" ++ config.ns ++ "-clusterrole" ++ "-binding")
      ("k8sgpt-" ++ config.ns ++ "-clusterrole") = .ok crb)
    (hsplit : [Obj.serviceAccount sa, .service svc, .deployment deployment, .clusterRole cr,
      .clusterRoleBinding crb] = before ++ obj :: after)
    (hbefore : (syncLoop c config .SyncOp before w1).1 = none)
    (hcheck : (checkSecret c config (syncLoop c config .SyncOp before w1).2).1 = none)
    (hsync : (doSync c obj (checkSecret c config (syncLoop c config .SyncOp before w1).2).2).1 =
      some e)
    (hexists : IsAlreadyExists e = true) :
    Sync c config .SyncOp w =
        syncLoop c config .SyncOp after
          (doSync c obj (checkSecret c config (syncLoop c config .SyncOp before w1).2).2).2 ∧
      ((syncLoop c config .SyncOp after
          (doSync c obj (checkSecret c config (syncLoop c config .SyncOp before w1).2).2).2).1 = none →
        (Sync c config .SyncOp w).1 = none) := by
  have key : Sync c config .SyncOp w =
      syncLoop c config .SyncOp after
        (doSync c obj (checkSecret c config (syncLoop c config .SyncOp before w1).2).2).2 := by
    rw [Sync_build_ok c config .SyncOp w w1 sa svc deployment cr crb hsa hsvc hd hcr hcrb, hsplit,
      syncLoop_append c config .SyncOp before (obj :: after) w1
        (syncLoop c config .SyncOp before w1).2 (Prod.ext hbefore rfl)]
    simp only [syncLoop]
    rcases hc : checkSecret c config (syncLoop c config .SyncOp before w1).2 with ⟨r, wb⟩
    rw [hc] at hcheck hsync
    simp only at hcheck hsync
    subst hcheck
    simp only
    rcases hs : doSync c obj wb with ⟨r2, wc⟩
    rw [hs] at hsync
    simp only at hsync
    subst hsync
    simp [hexists]
  exact ⟨key, fun h => by rw [key]; exact h⟩

/-- A witness of C10: the sample config synchronized against an empty in-memory
store that answers already-exists to the first create (the service account's);
the pass goes on and succeeds. -/
theorem already_exists_is_ignored_by_Sync_witness :
    Sync memClient sampleConfig .SyncOp (memWorld [] [alreadyExistsError]) =
        syncLoop memClient sampleConfig .SyncOp
          [.service sampleService, .deployment sampleDeployment, .clusterRole sampleClusterRole,
            .clusterRoleBinding sampleClusterRoleBinding]
          (doSync memClient (.serviceAccount sampleServiceAccount)
            (checkSecret memClient sampleConfig
              (syncLoop memClient sampleConfig .SyncOp [] (memWorld [] [alreadyExistsError])).2).2).2 ∧
      ((syncLoop memClient sampleConfig .SyncOp
          [.service sampleService, .deployment sampleDeployment, .clusterRole sampleClusterRole,
            .clusterRoleBinding sampleClusterRoleBinding]
          (doSync memClient (.serviceAccount sampleServiceAccount)
            (checkSecret memClient sampleConfig
              (syncLoop memClient sampleConfig .SyncOp [] (memWorld [] [alreadyExistsError])).2).2).2).1
          = none →
        (Sync memClient sampleConfig .SyncOp (memWorld [] [alreadyExistsError])).1 = none) :=
  already_exists_is_ignored_by_Sync memClient sampleConfig (memWorld [] [alreadyExistsError])
    (memWorld [] [alreadyExistsError]) sampleServiceAccount sampleService sampleDeployment
    sampleClusterRole sampleClusterRoleBinding [] _ (.serviceAccount sampleServiceAccount)
    alreadyExistsError rfl rfl rfl rfl rfl rfl rfl rfl (by decide) rfl

/-! ## Retry on conflict -/

theorem OnError_first_not_retriable {σ : Type} (retriable : Error → Bool)
    (fn : Obj → World σ → Option (Error × Obj) × World σ) (steps : Nat) (lastErr : Option Error)
    (obj obj1 : Obj) (w w1 : World σ) (e : Error) (hfirst : fn obj w = (some (e, obj1), w1))
    (hnot : retriable e = false) :
    OnError retriable fn (steps + 1) lastErr obj w = (some e, w1) := by
  simp [OnError, hfirst, hnot]

/-- C7: only conflict responses are retried. Whatever the client and the
descriptor, if the first `CreateOrPatch` attempt of `doSync` (on the target and
with the mutate function chosen by its type switch) returns an error that is
not a conflict, `doSync` returns that error in the world that single attempt
left: no further attempt is made. -/
theorem non_conflict_error_is_not_retried {σ : Type} (clt : Client σ) (obj target obj1 : Obj)
    (mutateFn : Option MutateFn) (w w1 w2 : World σ) (e : Error)
    (htarget : doSyncTarget clt obj w = (.ok (target, mutateFn), w1))
    (hfirst : CreateOrPatch clt mutateFn target w1 = (some (e, obj1), w2))
    (hnot : IsConflict e = false) :
    doSync clt obj w = (some e, w2) := by
  unfold doSync
  rw [htarget]
  exact OnError_first_not_retriable IsConflict _ 4 none target obj1 w1 w2 e hfirst hnot

/-- A witness of C7: the service account of the sample config converged against
an empty in-memory store that answers an internal error to the create. -/
theorem non_conflict_error_is_not_retried_witness :
    doSync memClient (.serviceAccount sampleServiceAccount) (memWorld [] [internalError]) =
      (some internalError,
        ⟨⟨[], []⟩,
          [Call.get .serviceAccount ⟨"ns1", "k8sgpt-ns1"⟩,
            Call.create (.serviceAccount sampleServiceAccount)]⟩) :=
  non_conflict_error_is_not_retried memClient (.serviceAccount sampleServiceAccount)
    (.serviceAccount sampleServiceAccount) (.serviceAccount sampleServiceAccount) none
    (memWorld [] [internalError]) (memWorld [] [internalError]) _ internalError rfl rfl rfl

/-! ## The in-memory store -/

theorem sameIdentity_iff (k : Kind) (key : NamespacedName) (o : Obj) :
    sameIdentity k key o = true ↔ o.kind = k ∧ ObjectKeyFromObject o = key := by
  simp [sameIdentity]

theorem Obj.toKind_of_kind (k : Kind) (o : Obj) (hk : o.kind = k) :
    ∃ t, Obj.toKind k o = some t ∧ Obj.ofKind k t = o := by
  cases o <;> (subst hk; exact ⟨_, rfl, rfl⟩)

theorem Obj.kind_ofKind (k : Kind) (t : KObj k) : (Obj.ofKind k t).kind = k := by
  cases k <;> rfl

theorem find_some_sameIdentity (k : Kind) (key : NamespacedName) (objs : List Obj) (o : Obj)
    (h : objs.find? (sameIdentity k key) = some o) :
    o.kind = k ∧ ObjectKeyFromObject o = key :=
  (sameIdentity_iff k key o).mp (List.find?_some h)

theorem any_of_find_some (p : Obj → Bool) (objs : List Obj) (o : Obj)
    (h : objs.find? p = some o) : objs.any p = true := by
  induction objs with
  | nil => simp at h
  | cons x xs ih =>
      by_cases hx : p x = true
      · simp [hx]
      · simp only [List.find?, hx] at h
        simp [ih h]

theorem any_of_find_none (p : Obj → Bool) (objs : List Obj) (h : objs.find? p = none) :
    objs.any p = false := by
  induction objs with
  | nil => rfl
  | cons x xs ih =>
      by_cases hx : p x = true
      · simp [List.find?, hx] at h
      · simp only [List.find?, hx] at h
        simp [hx, ih h]

theorem find_append_new (p : Obj → Bool) (objs : List Obj) (d : Obj)
    (h : objs.find? p = none) (hd : p d = true) : (objs ++ [d]).find? p = some d := by
  induction objs with
  | nil => simp [List.find?, hd]
  | cons x xs ih =>
      by_cases hx : p x = true
      · simp [List.find?, hx] at h
      · simp only [List.find?, hx] at h
        simp only [List.cons_append, List.find?, hx]
        exact ih h

theorem find_replaceStored (obj : Obj) (objs : List Obj) (o : Obj)
    (h : objs.find? (sameIdentity obj.kind (ObjectKeyFromObject obj)) = some o) :
    (replaceStored obj objs).find? (sameIdentity obj.kind (ObjectKeyFromObject obj)) = some obj := by
  have hself : sameIdentity obj.kind (ObjectKeyFromObject obj) obj = true := by
    simp [sameIdentity]
  induction objs with
  | nil => simp at h
  | cons x xs ih =>
      by_cases hx : sameIdentity obj.kind (ObjectKeyFromObject obj) x = true
      · simp [replaceStored, List.find?, hx, hself]
      · simp only [List.find?, hx] at h
        have := ih h
        simp only [replaceStored] at this
        simp [replaceStored, List.find?, hx, this]

theorem Get_mem_found (k : Kind) (key : NamespacedName) (objs : List Obj) (faults : List Error)
    (calls : List Call) (o : Obj) (h : objs.find? (sameIdentity k key) = some o) :
    ∃ t, Obj.ofKind k t = o ∧
      Get memClient k key ⟨⟨objs, faults⟩, calls⟩ =
        (.ok t, ⟨⟨objs, faults⟩, calls ++ [Call.get k key]⟩) := by
  obtain ⟨t, ht, hof⟩ := Obj.toKind_of_kind k o (find_some_sameIdentity k key objs o h).1
  refine ⟨t, hof, ?_⟩
  simp [Get, memClient, h, ht]

theorem Get_mem_absent (k : Kind) (key : NamespacedName) (objs : List Obj) (faults : List Error)
    (calls : List Call) (h : objs.find? (sameIdentity k key) = none) :
    Get memClient k key ⟨⟨objs, faults⟩, calls⟩ =
      (.error notFoundError, ⟨⟨objs, faults⟩, calls ++ [Call.get k key]⟩) := by
  simp [Get, memClient, h]

theorem GetInto_mem_found (target : Obj) (objs : List Obj) (faults : List Error)
    (calls : List Call) (o : Obj)
    (h : objs.find? (sameIdentity target.kind (ObjectKeyFromObject target)) = some o) :
    GetInto memClient (ObjectKeyFromObject target) target ⟨⟨objs, faults⟩, calls⟩ =
      (none, o, ⟨⟨objs, faults⟩, calls ++ [Call.get target.kind (ObjectKeyFromObject target)]⟩) := by
  obtain ⟨t, hof, hg⟩ := Get_mem_found target.kind (ObjectKeyFromObject target) objs faults calls o h
  simp [GetInto, hg, hof]

theorem GetInto_mem_absent (target : Obj) (objs : List Obj) (faults : List Error)
    (calls : List Call)
    (h : objs.find? (sameIdentity target.kind (ObjectKeyFromObject target)) = none) :
    GetInto memClient (ObjectKeyFromObject target) target ⟨⟨objs, faults⟩, calls⟩ =
      (some notFoundError, target,
        ⟨⟨objs, faults⟩, calls ++ [Call.get target.kind (ObjectKeyFromObject target)]⟩) := by
  simp [GetInto, Get_mem_absent _ _ objs faults calls h]

/-! ## The mutate closures -/

theorem withSpecOf_kind (d o : Obj) : (withSpecOf d o).kind = o.kind := by
  cases d <;> cases o <;> rfl

theorem withSpecOf_key (d o : Obj) :
    ObjectKeyFromObject (withSpecOf d o) = ObjectKeyFromObject o := by
  cases d <;> cases o <;> rfl

theorem withSpecOf_idem (d o : Obj) : withSpecOf d (withSpecOf d o) = withSpecOf d o := by
  cases d <;> cases o <;> rfl

theorem withSpecOf_self (d : Obj) : withSpecOf d d = d := by
  cases d <;> rfl

theorem deploymentMutateFn_eq (expect : Deployment) (o : Obj) :
    deploymentMutateFn expect o = (none, withSpecOf (.deployment expect) o) := by
  cases o <;> rfl

theorem serviceMutateFn_eq (expect : Service) (o : Obj) :
    serviceMutateFn expect o = (none, withSpecOf (.service expect) o) := by
  cases o <;> rfl

theorem doSyncTarget_mem_found (d : Obj) (objs : List Obj) (faults : List Error)
    (calls : List Call) (o : Obj)
    (h : objs.find? (sameIdentity d.kind (ObjectKeyFromObject d)) = some o) :
    ∃ (target : Obj) (f : Option MutateFn),
      doSyncTarget memClient d ⟨⟨objs, faults⟩, calls⟩ =
        (.ok (target, f), ⟨⟨objs, faults⟩, calls ++ targetGets d⟩) ∧
      target.kind = d.kind ∧ ObjectKeyFromObject target = ObjectKeyFromObject d ∧
      ∀ x : Obj, ObjectKeyFromObject x = ObjectKeyFromObject d →
        mutateIfSet f (ObjectKeyFromObject d) x = (none, withSpecOf d x) := by
  have hmut : ∀ (m : MutateFn), (∀ x, m x = (none, withSpecOf d x)) →
      ∀ x : Obj, ObjectKeyFromObject x = ObjectKeyFromObject d →
        mutateIfSet (some m) (ObjectKeyFromObject d) x = (none, withSpecOf d x) := by
    intro m hm x hx
    simp [mutateIfSet, mutate, hm x, withSpecOf_key, hx]
  have hnone : (∀ x, withSpecOf d x = x) →
      ∀ x : Obj, ObjectKeyFromObject x = ObjectKeyFromObject d →
        mutateIfSet none (ObjectKeyFromObject d) x = (none, withSpecOf d x) := by
    intro hd x _
    simp [mutateIfSet, hd x]
  obtain ⟨hk, hkey⟩ := find_some_sameIdentity _ _ objs o h
  cases d with
  | deployment expect =>
      obtain ⟨t, hof, hg⟩ := Get_mem_found .deployment
        (ObjectKeyFromObject (.deployment expect)) objs faults calls o h
      refine ⟨.deployment t, some (deploymentMutateFn expect), ?_, rfl, ?_,
        hmut _ (deploymentMutateFn_eq expect)⟩
      · simp [doSyncTarget, hg, targetGets]
      · rw [← hkey, ← hof]; rfl
  | service expect =>
      obtain ⟨t, hof, hg⟩ := Get_mem_found .service
        (ObjectKeyFromObject (.service expect)) objs faults calls o h
      refine ⟨.service t, some (serviceMutateFn expect), ?_, rfl, ?_,
        hmut _ (serviceMutateFn_eq expect)⟩
      · simp [doSyncTarget, hg, targetGets]
      · rw [← hkey, ← hof]; rfl
  | secret s =>
      exact ⟨_, none, by simp [doSyncTarget, targetGets], rfl, rfl,
        hnone (fun x => by cases x <;> rfl)⟩
  | serviceAccount s =>
      exact ⟨_, none, by simp [doSyncTarget, targetGets], rfl, rfl,
        hnone (fun x => by cases x <;> rfl)⟩
  | clusterRole s =>
      exact ⟨_, none, by simp [doSyncTarget, targetGets], rfl, rfl,
        hnone (fun x => by cases x <;> rfl)⟩
  | clusterRoleBinding s =>
      exact ⟨_, none, by simp [doSyncTarget, targetGets], rfl, rfl,
        hnone (fun x => by cases x <;> rfl)⟩

theorem doSyncTarget_mem_absent (d : Obj) (objs : List Obj) (faults : List Error)
    (calls : List Call)
    (h : objs.find? (sameIdentity d.kind (ObjectKeyFromObject d)) = none) :
    doSyncTarget memClient d ⟨⟨objs, faults⟩, calls⟩ =
      (.ok (d, none), ⟨⟨objs, faults⟩, calls ++ targetGets d⟩) := by
  cases d with
  | deployment expect =>
      have hg := Get_mem_absent .deployment (ObjectKeyFromObject (.deployment expect)) objs faults
        calls h
      simp [doSyncTarget, hg, targetGets, notFoundError, IsNotFound]
  | service expect =>
      have hg := Get_mem_absent .service (ObjectKeyFromObject (.service expect)) objs faults
        calls h
      simp [doSyncTarget, hg, targetGets, notFoundError, IsNotFound]
  | secret s => simp [doSyncTarget, targetGets]
  | serviceAccount s => simp [doSyncTarget, targetGets]
  | clusterRole s => simp [doSyncTarget, targetGets]
  | clusterRoleBinding s => simp [doSyncTarget, targetGets]

/-! ## One attempt of `CreateOrPatch` against the in-memory store -/

theorem CreateOrPatch_mem_unchanged (f : Option MutateFn) (target o o1 : Obj) (objs : List Obj)
    (faults : List Error) (calls : List Call)
    (hfind : objs.find? (sameIdentity target.kind (ObjectKeyFromObject target)) = some o)
    (hmut : mutateIfSet f (ObjectKeyFromObject target) o = (none, o1))
    (hsame : o.withoutStatus = o1.withoutStatus) :
    CreateOrPatch memClient f target ⟨⟨objs, faults⟩, calls⟩ =
      (none, ⟨⟨objs, faults⟩,
        calls ++ [Call.get target.kind (ObjectKeyFromObject target)]⟩) := by
  unfold CreateOrPatch
  simp only [GetInto_mem_found target objs faults calls o hfind, hmut]
  simp [hsame]

theorem CreateOrPatch_mem_patch_fault (f : Option MutateFn) (target o o1 : Obj) (objs : List Obj)
    (e : Error) (faults : List Error) (calls : List Call)
    (hfind : objs.find? (sameIdentity target.kind (ObjectKeyFromObject target)) = some o)
    (hmut : mutateIfSet f (ObjectKeyFromObject target) o = (none, o1))
    (hdiff : o.withoutStatus ≠ o1.withoutStatus) :
    CreateOrPatch memClient f target ⟨⟨objs, e :: faults⟩, calls⟩ =
      (some (e, o1), ⟨⟨objs, faults⟩,
        calls ++ [Call.get target.kind (ObjectKeyFromObject target), Call.patch o1]⟩) := by
  unfold CreateOrPatch
  simp only [GetInto_mem_found target objs (e :: faults) calls o hfind, hmut]
  simp [hdiff, Patch, memClient]

theorem CreateOrPatch_mem_patch_ok (f : Option MutateFn) (target o o1 : Obj) (objs : List Obj)
    (calls : List Call)
    (hfind : objs.find? (sameIdentity target.kind (ObjectKeyFromObject target)) = some o)
    (hmut : mutateIfSet f (ObjectKeyFromObject target) o = (none, o1))
    (hdiff : o.withoutStatus ≠ o1.withoutStatus)
    (hkind : o1.kind = target.kind)
    (hkey : ObjectKeyFromObject o1 = ObjectKeyFromObject target) :
    CreateOrPatch memClient f target ⟨⟨objs, []⟩, calls⟩ =
      (none, ⟨⟨replaceStored o1 objs, []⟩,
        calls ++ [Call.get target.kind (ObjectKeyFromObject target), Call.patch o1]⟩) := by
  have hany : objs.any (sameIdentity o1.kind (ObjectKeyFromObject o1)) = true := by
    rw [hkind, hkey]; exact any_of_find_some _ objs o hfind
  unfold CreateOrPatch
  simp only [GetInto_mem_found target objs [] calls o hfind, hmut]
  simp only [ne_eq, hdiff, not_false_eq_true, if_true, Patch, memClient, hany, replaceStored]
  simp

theorem CreateOrPatch_mem_create_fault (f : Option MutateFn) (target t1 : Obj) (objs : List Obj)
    (e : Error) (faults : List Error) (calls : List Call)
    (hfind : objs.find? (sameIdentity target.kind (ObjectKeyFromObject target)) = none)
    (hmut : mutateIfSet f (ObjectKeyFromObject target) target = (none, t1)) :
    CreateOrPatch memClient f target ⟨⟨objs, e :: faults⟩, calls⟩ =
      (some (e, t1), ⟨⟨objs, faults⟩,
        calls ++ [Call.get target.kind (ObjectKeyFromObject target), Call.create t1]⟩) := by
  unfold CreateOrPatch
  simp only [GetInto_mem_absent target objs (e :: faults) calls hfind]
  simp [hmut, Create, memClient, notFoundError, IsNotFound]

theorem CreateOrPatch_mem_create_ok (f : Option MutateFn) (target t1 : Obj) (objs : List Obj)
    (calls : List Call)
    (hfind : objs.find? (sameIdentity target.kind (ObjectKeyFromObject target)) = none)
    (hmut : mutateIfSet f (ObjectKeyFromObject target) target = (none, t1))
    (hkind : t1.kind = target.kind)
    (hkey : ObjectKeyFromObject t1 = ObjectKeyFromObject target) :
    CreateOrPatch memClient f target ⟨⟨objs, []⟩, calls⟩ =
      (none, ⟨⟨objs ++ [t1], []⟩,
        calls ++ [Call.get target.kind (ObjectKeyFromObject target), Call.create t1]⟩) := by
  have hany : objs.any (sameIdentity t1.kind (ObjectKeyFromObject t1)) = false := by
    rw [hkind, hkey]; exact any_of_find_none _ objs hfind
  unfold CreateOrPatch
  simp only [GetInto_mem_absent target objs [] calls hfind]
  simp only [hmut, Create, memClient, notFoundError, IsNotFound, hany]
  simp

/-! ## The retry loop against the in-memory store -/

theorem OnError_mem_conflicts (d o : Obj) (f : Option MutateFn) (objs : List Obj)
    (hfind : objs.find? (sameIdentity d.kind (ObjectKeyFromObject d)) = some o)
    (hmutf : ∀ x : Obj, ObjectKeyFromObject x = ObjectKeyFromObject d →
      mutateIfSet f (ObjectKeyFromObject d) x = (none, withSpecOf d x))
    (hdiff : o.withoutStatus ≠ (withSpecOf d o).withoutStatus)
    (steps : Nat) :
    ∀ (n : Nat) (lastErr : Option Error) (target : Obj) (calls : List Call),
      target.kind = d.kind → ObjectKeyFromObject target = ObjectKeyFromObject d →
      OnError IsConflict (CreateOrPatch memClient f) steps lastErr target
          ⟨⟨objs, List.replicate n conflictError⟩, calls⟩ =
        if n < steps then
          (none, ⟨⟨replaceStored (withSpecOf d o) objs, []⟩,
            calls ++ repeatCalls
              [Call.get d.kind (ObjectKeyFromObject d), Call.patch (withSpecOf d o)] (n + 1)⟩)
        else
          (if steps = 0 then lastErr else some conflictError,
            ⟨⟨objs, List.replicate (n - steps) conflictError⟩,
              calls ++ repeatCalls
                [Call.get d.kind (ObjectKeyFromObject d), Call.patch (withSpecOf d o)] steps⟩) := by
  have hokey : ObjectKeyFromObject o = ObjectKeyFromObject d :=
    (find_some_sameIdentity _ _ objs o hfind).2
  have hokind : o.kind = d.kind := (find_some_sameIdentity _ _ objs o hfind).1
  induction steps with
  | zero =>
      intro n lastErr target calls _ _
      simp [OnError, repeatCalls]
  | succ steps ih =>
      intro n lastErr target calls htk htkey
      have hfind1 : objs.find? (sameIdentity target.kind (ObjectKeyFromObject target)) = some o := by
        rw [htk, htkey]; exact hfind
      have hmut1 : mutateIfSet f (ObjectKeyFromObject target) o = (none, withSpecOf d o) := by
        rw [htkey]; exact hmutf o hokey
      cases n with
      | zero =>
          have h := CreateOrPatch_mem_patch_ok f target o (withSpecOf d o) objs calls hfind1 hmut1
            hdiff (by rw [withSpecOf_kind, hokind, htk]) (by rw [withSpecOf_key, hokey, htkey])
          rw [htk, htkey] at h
          simp [OnError, h, repeatCalls]
      | succ n =>
          have h := CreateOrPatch_mem_patch_fault f target o (withSpecOf d o) objs conflictError
            (List.replicate n conflictError) calls hfind1 hmut1 hdiff
          rw [htk, htkey] at h
          have hrec := ih n (some conflictError) (withSpecOf d o)
            (calls ++ [Call.get d.kind (ObjectKeyFromObject d), Call.patch (withSpecOf d o)])
            (by rw [withSpecOf_kind, hokind]) (by rw [withSpecOf_key, hokey])
          simp only [OnError, List.replicate_succ, h]
          have hc : IsConflict conflictError = true := rfl
          simp only [hc, if_true, hrec]
          by_cases hlt : n < steps
          · simp [hlt, repeatCalls]
          · have hlt2 : ¬ (n + 1 < steps + 1) := by omega
            simp only [hlt, hlt2, if_false]
            cases steps with
            | zero => simp [repeatCalls]
            | succ k => simp [repeatCalls]

theorem OnError_mem_patch_success (d o : Obj) (f : Option MutateFn) (objs : List Obj)
    (hfind : objs.find? (sameIdentity d.kind (ObjectKeyFromObject d)) = some o)
    (hmutf : ∀ x : Obj, ObjectKeyFromObject x = ObjectKeyFromObject d →
      mutateIfSet f (ObjectKeyFromObject d) x = (none, withSpecOf d x))
    (hdiff : o.withoutStatus ≠ (withSpecOf d o).withoutStatus)
    (steps : Nat) :
    ∀ (lastErr : Option Error) (target : Obj) (faults : List Error) (calls : List Call),
      target.kind = d.kind → ObjectKeyFromObject target = ObjectKeyFromObject d →
      (steps ≠ 0 ∨ lastErr ≠ none) →
      (OnError IsConflict (CreateOrPatch memClient f) steps lastErr target
          ⟨⟨objs, faults⟩, calls⟩).1 = none →
      (OnError IsConflict (CreateOrPatch memClient f) steps lastErr target
          ⟨⟨objs, faults⟩, calls⟩).2.store = ⟨replaceStored (withSpecOf d o) objs, []⟩ := by
  have hokey : ObjectKeyFromObject o = ObjectKeyFromObject d :=
    (find_some_sameIdentity _ _ objs o hfind).2
  have hokind : o.kind = d.kind := (find_some_sameIdentity _ _ objs o hfind).1
  induction steps with
  | zero =>
      intro lastErr target faults calls _ _ hne hres
      simp only [OnError] at hres
      rcases hne with h | h
      · exact absurd rfl h
      · exact absurd hres h
  | succ steps ih =>
      intro lastErr target faults calls htk htkey _ hres
      have hfind1 : objs.find? (sameIdentity target.kind (ObjectKeyFromObject target)) = some o := by
        rw [htk, htkey]; exact hfind
      have hmut1 : mutateIfSet f (ObjectKeyFromObject target) o = (none, withSpecOf d o) := by
        rw [htkey]; exact hmutf o hokey
      cases faults with
      | nil =>
          have h := CreateOrPatch_mem_patch_ok f target o (withSpecOf d o) objs calls hfind1 hmut1
            hdiff (by rw [withSpecOf_kind, hokind, htk]) (by rw [withSpecOf_key, hokey, htkey])
          simp [OnError, h]
      | cons e rest =>
          have h := CreateOrPatch_mem_patch_fault f target o (withSpecOf d o) objs e rest calls
            hfind1 hmut1 hdiff
          simp only [OnError, h] at hres ⊢
          by_cases hc : IsConflict e = true
          · simp only [hc, if_true] at hres ⊢
            exact ih (some e) (withSpecOf d o) rest _ (by rw [withSpecOf_kind, hokind])
              (by rw [withSpecOf_key, hokey]) (Or.inr (by simp)) hres
          · simp [hc] at hres

theorem OnError_mem_create_success (d : Obj) (objs : List Obj)
    (hfind : objs.find? (sameIdentity d.kind (ObjectKeyFromObject d)) = none)
    (steps : Nat) :
    ∀ (lastErr : Option Error) (faults : List Error) (calls : List Call),
      (steps ≠ 0 ∨ lastErr ≠ none) →
      (OnError IsConflict (CreateOrPatch memClient none) steps lastErr d
          ⟨⟨objs, faults⟩, calls⟩).1 = none →
      (OnError IsConflict (CreateOrPatch memClient none) steps lastErr d
          ⟨⟨objs, faults⟩, calls⟩).2.store = ⟨objs ++ [d], []⟩ := by
  induction steps with
  | zero =>
      intro lastErr faults calls hne hres
      simp only [OnError] at hres
      rcases hne with h | h
      · exact absurd rfl h
      · exact absurd hres h
  | succ steps ih =>
      intro lastErr faults calls _ hres
      cases faults with
      | nil =>
          have h := CreateOrPatch_mem_create_ok none d d objs calls hfind rfl rfl rfl
          simp [OnError, h]
      | cons e rest =>
          have h := CreateOrPatch_mem_create_fault none d d objs e rest calls hfind rfl
          simp only [OnError, h] at hres ⊢
          by_cases hc : IsConflict e = true
          · simp only [hc, if_true] at hres ⊢
            exact ih (some e) rest _ (Or.inr (by simp)) hres
          · simp [hc] at hres

theorem doSync_mem_stable (d o : Obj) (objs : List Obj) (faults : List Error) (calls : List Call)
    (hfind : objs.find? (sameIdentity d.kind (ObjectKeyFromObject d)) = some o)
    (hsame : o.withoutStatus = (withSpecOf d o).withoutStatus) :
    doSync memClient d ⟨⟨objs, faults⟩, calls⟩ =
      (none, ⟨⟨objs, faults⟩,
        calls ++ targetGets d ++ [Call.get d.kind (ObjectKeyFromObject d)]⟩) := by
  obtain ⟨target, f, ht, htk, htkey, hmutf⟩ := doSyncTarget_mem_found d objs faults calls o hfind
  have hokey : ObjectKeyFromObject o = ObjectKeyFromObject d :=
    (find_some_sameIdentity _ _ objs o hfind).2
  have h := CreateOrPatch_mem_unchanged f target o (withSpecOf d o) objs faults
    (calls ++ targetGets d) (by rw [htk, htkey]; exact hfind)
    (by rw [htkey]; exact hmutf o hokey) hsame
  rw [htk, htkey] at h
  simp [doSync, ht, RetryOnConflict, DefaultRetrySteps, OnError, h]

theorem targetGets_isGet (d : Obj) : ∀ x ∈ targetGets d, x.isGet = true := by
  cases d <;> simp [targetGets, Call.isGet]

/-- C6: for an object that exists in the store and needs a patch (the stored
object differs from it once the descriptor's spec is assigned), if the store
answers conflict to the first `n` create-or-patch calls and serves the next
one, `doSync` returns success after exactly `n + 1` attempts (each a get and a
patch) when `n < 5`, and returns the conflict error after exactly 5 attempts,
leaving the stored objects as they were, when `n >= 5`. -/
theorem conflicts_are_retried_up_to_five_attempts (d o : Obj) (objs : List Obj)
    (calls : List Call) (n : Nat)
    (hfind : objs.find? (sameIdentity d.kind (ObjectKeyFromObject d)) = some o)
    (hdiff : o.withoutStatus ≠ (withSpecOf d o).withoutStatus) :
    doSync memClient d ⟨⟨objs, List.replicate n conflictError⟩, calls⟩ =
      if n < 5 then
        (none, ⟨⟨replaceStored (withSpecOf d o) objs, []⟩,
          calls ++ targetGets d ++ repeatCalls
            [Call.get d.kind (ObjectKeyFromObject d), Call.patch (withSpecOf d o)] (n + 1)⟩)
      else
        (some conflictError, ⟨⟨objs, List.replicate (n - 5) conflictError⟩,
          calls ++ targetGets d ++ repeatCalls
            [Call.get d.kind (ObjectKeyFromObject d), Call.patch (withSpecOf d o)] 5⟩) := by
  obtain ⟨target, f, ht, htk, htkey, hmutf⟩ :=
    doSyncTarget_mem_found d objs (List.replicate n conflictError) calls o hfind
  have h := OnError_mem_conflicts d o f objs hfind hmutf hdiff 5 n none target
    (calls ++ targetGets d) htk htkey
  simp only [doSync, ht, RetryOnConflict, DefaultRetrySteps, h]
  simp

/-- A witness of C6: the sample deployment converged onto a stored deployment
with three replicas while the store answers conflict twice: success after three
attempts. -/
theorem conflicts_are_retried_up_to_five_attempts_witness :
    doSync memClient (.deployment sampleDeployment)
        ⟨⟨[.deployment storedDeployment], [conflictError, conflictError]⟩, []⟩ =
      (none,
        ⟨⟨[.deployment { storedDeployment with spec := sampleDeployment.spec }], []⟩,
          [Call.get .deployment ⟨"ns1", "k8sgpt-sample"⟩,
            Call.get .deployment ⟨"ns1", "k8sgpt-sample"⟩,
            Call.patch (.deployment { storedDeployment with spec := sampleDeployment.spec }),
            Call.get .deployment ⟨"ns1", "k8sgpt-sample"⟩,
            Call.patch (.deployment { storedDeployment with spec := sampleDeployment.spec }),
            Call.get .deployment ⟨"ns1", "k8sgpt-sample"⟩,
            Call.patch (.deployment { storedDeployment with spec := sampleDeployment.spec })]⟩) :=
  conflicts_are_retried_up_to_five_attempts (.deployment sampleDeployment)
    (.deployment storedDeployment) [.deployment storedDeployment] [] 2 rfl (by decide)

/-- C8: converge is idempotent against the in-memory store. For every
descriptor, every list of stored objects, every script of faults and every call
log, if `doSync` succeeds, then running `doSync` again with the same descriptor
succeeds, leaves the store exactly as the first call left it, and issues
nothing but gets (no create, no patch). -/
theorem doSync_twice_leaves_store_unchanged (d : Obj) (objs : List Obj) (faults : List Error)
    (calls : List Call)
    (hfirst : (doSync memClient d ⟨⟨objs, faults⟩, calls⟩).1 = none) :
    (doSync memClient d (doSync memClient d ⟨⟨objs, faults⟩, calls⟩).2).1 = none ∧
      (doSync memClient d (doSync memClient d ⟨⟨objs, faults⟩, calls⟩).2).2.store =
        (doSync memClient d ⟨⟨objs, faults⟩, calls⟩).2.store ∧
      IssuedOnlyGets (doSync memClient d ⟨⟨objs, faults⟩, calls⟩).2
        (doSync memClient d (doSync memClient d ⟨⟨objs, faults⟩, calls⟩).2).2 := by
  -- the second run, from any world whose store holds a converged object
  have second : ∀ (objs1 : List Obj) (faults1 : List Error) (calls1 : List Call) (o1 : Obj),
      objs1.find? (sameIdentity d.kind (ObjectKeyFromObject d)) = some o1 →
      o1.withoutStatus = (withSpecOf d o1).withoutStatus →
      (doSync memClient d ⟨⟨objs1, faults1⟩, calls1⟩).1 = none ∧
        (doSync memClient d ⟨⟨objs1, faults1⟩, calls1⟩).2.store = ⟨objs1, faults1⟩ ∧
        IssuedOnlyGets ⟨⟨objs1, faults1⟩, calls1⟩
          (doSync memClient d ⟨⟨objs1, faults1⟩, calls1⟩).2 := by
    intro objs1 faults1 calls1 o1 hf hs
    rw [doSync_mem_stable d o1 objs1 faults1 calls1 hf hs]
    refine ⟨rfl, rfl, targetGets d ++ [Call.get d.kind (ObjectKeyFromObject d)], ?_, ?_⟩
    · simp
    · intro x hx
      rcases List.mem_append.mp hx with h | h
      · exact targetGets_isGet d x h
      · simp only [List.mem_singleton] at h
        subst h
        rfl
  -- it is enough to know the store the first run left
  have finish : ∀ (objs1 : List Obj) (faults1 : List Error) (o1 : Obj),
      (doSync memClient d ⟨⟨objs, faults⟩, calls⟩).2.store = ⟨objs1, faults1⟩ →
      objs1.find? (sameIdentity d.kind (ObjectKeyFromObject d)) = some o1 →
      o1.withoutStatus = (withSpecOf d o1).withoutStatus →
      (doSync memClient d (doSync memClient d ⟨⟨objs, faults⟩, calls⟩).2).1 = none ∧
        (doSync memClient d (doSync memClient d ⟨⟨objs, faults⟩, calls⟩).2).2.store =
          (doSync memClient d ⟨⟨objs, faults⟩, calls⟩).2.store ∧
        IssuedOnlyGets (doSync memClient d ⟨⟨objs, faults⟩, calls⟩).2
          (doSync memClient d (doSync memClient d ⟨⟨objs, faults⟩, calls⟩).2).2 := by
    intro objs1 faults1 o1 hstore hf hs
    have hw : (doSync memClient d ⟨⟨objs, faults⟩, calls⟩).2 =
        ⟨⟨objs1, faults1⟩, (doSync memClient d ⟨⟨objs, faults⟩, calls⟩).2.calls⟩ := by
      rw [← hstore]
    rw [hw]
    exact second objs1 faults1 _ o1 hf hs
  cases hL : objs.find? (sameIdentity d.kind (ObjectKeyFromObject d)) with
  | none =>
      have ht := doSyncTarget_mem_absent d objs faults calls hL
      have hrun : doSync memClient d ⟨⟨objs, faults⟩, calls⟩ =
          OnError IsConflict (CreateOrPatch memClient none) 5 none d
            ⟨⟨objs, faults⟩, calls ++ targetGets d⟩ := by
        simp only [doSync, ht, RetryOnConflict, DefaultRetrySteps]
      have hstore := OnError_mem_create_success d objs hL 5 none faults (calls ++ targetGets d)
        (Or.inl (by decide)) (by rw [← hrun]; exact hfirst)
      rw [← hrun] at hstore
      exact finish (objs ++ [d]) [] d hstore
        (find_append_new _ objs d hL (by simp [sameIdentity])) (by rw [withSpecOf_self])
  | some o =>
      by_cases hsame : o.withoutStatus = (withSpecOf d o).withoutStatus
      · have hrun := doSync_mem_stable d o objs faults calls hL hsame
        exact finish objs faults o (by rw [hrun]) hL hsame
      · obtain ⟨target, f, ht, htk, htkey, hmutf⟩ := doSyncTarget_mem_found d objs faults calls o hL
        have hrun : doSync memClient d ⟨⟨objs, faults⟩, calls⟩ =
            OnError IsConflict (CreateOrPatch memClient f) 5 none target
              ⟨⟨objs, faults⟩, calls ++ targetGets d⟩ := by
          simp only [doSync, ht, RetryOnConflict, DefaultRetrySteps]
        have hstore := OnError_mem_patch_success d o f objs hL hmutf hsame 5 none target faults
          (calls ++ targetGets d) htk htkey (Or.inl (by decide)) (by rw [← hrun]; exact hfirst)
        rw [← hrun] at hstore
        obtain ⟨hokind, hokey⟩ := find_some_sameIdentity _ _ objs o hL
        have hfind2 := find_replaceStored (withSpecOf d o) objs o
          (by rw [withSpecOf_kind, withSpecOf_key, hokind, hokey]; exact hL)
        rw [withSpecOf_kind, withSpecOf_key, hokind, hokey] at hfind2
        exact finish _ [] (withSpecOf d o) hstore hfind2 (by rw [withSpecOf_idem])

/-- A witness of C8: the sample deployment converged twice onto a store holding
a deployment with three replicas, with one conflict scripted. -/
theorem doSync_twice_leaves_store_unchanged_witness :
    (doSync memClient (.deployment sampleDeployment)
        (doSync memClient (.deployment sampleDeployment)
          ⟨⟨[.deployment storedDeployment], [conflictError]⟩, []⟩).2).1 = none ∧
      (doSync memClient (.deployment sampleDeployment)
        (doSync memClient (.deployment sampleDeployment)
          ⟨⟨[.deployment storedDeployment], [conflictError]⟩, []⟩).2).2.store =
        (doSync memClient (.deployment sampleDeployment)
          ⟨⟨[.deployment storedDeployment], [conflictError]⟩, []⟩).2.store ∧
      IssuedOnlyGets
        (doSync memClient (.deployment sampleDeployment)
          ⟨⟨[.deployment storedDeployment], [conflictError]⟩, []⟩).2
        (doSync memClient (.deployment sampleDeployment)
          (doSync memClient (.deployment sampleDeployment)
            ⟨⟨[.deployment storedDeployment], [conflictError]⟩, []⟩).2).2 :=
  doSync_twice_leaves_store_unchanged (.deployment sampleDeployment)
    [.deployment storedDeployment] [conflictError] [] (by decide)

/-! ## The build as a function of the config -/

theorem deploymentLiteral_eq (config : K8sGPT) (serviceAccountName : String) :
    deploymentLiteral config serviceAccountName =
      deploymentWith config serviceAccountName none [dataVolume] ["serve"] [dataVolumeMount]
        (literalEnv config)
        { limits := some [(ResourceCPU, cpuLimit config), (ResourceMemory, memLimit config)]
          requests := some [(ResourceCPU, cpuRequest config), (ResourceMemory, memRequest config)] } :=
  rfl

theorem appendEnv_deploymentWith (config : K8sGPT) (sa : String) (am : Option Bool)
    (vols : List Volume) (args : List String) (mounts : List VolumeMount) (env : List EnvVar)
    (res : ResourceRequirements) (e : EnvVar) :
    appendEnv (deploymentWith config sa am vols args mounts env res) e =
      deploymentWith config sa am vols args mounts (env ++ [e]) res :=
  rfl

theorem applyOutOfCluster_deploymentWith (config : K8sGPT) (outOfClusterMode : Bool) (sa : String)
    (env : List EnvVar) (res : ResourceRequirements) :
    applyOutOfCluster config outOfClusterMode
        (deploymentWith config sa none [dataVolume] ["serve"] [dataVolumeMount] env res) =
      deploymentWith config
        (if outOfClusterMode && !needsServiceAccount config then "" else sa)
        (if outOfClusterMode && !needsServiceAccount config then some false else none)
        (if outOfClusterMode then [dataVolume, kubeconfigVolume config] else [dataVolume])
        (if outOfClusterMode then
          ["serve", "--kubeconfig=" ++ ("/tmp/" ++ config.name) ++ "/kubeconfig"]
          else ["serve"])
        (if outOfClusterMode then [dataVolumeMount, kubeconfigVolumeMount config]
          else [dataVolumeMount])
        env res := by
  cases outOfClusterMode with
  | false => rfl
  | true =>
      have hn : needsServiceAccount config =
          (decide (config.spec.ai.backend = AmazonBedrock) &&
            (match config.spec.extraOptions with
             | some extraOptions => decide (extraOptions.serviceAccountIRSA ≠ "")
             | none => false)) := rfl
      cases h : needsServiceAccount config with
      | false =>
          rw [hn] at h
          simp only [applyOutOfCluster, h]
          rfl
      | true =>
          rw [hn] at h
          simp only [applyOutOfCluster, h]
          rfl
theorem applyPassword_deploymentWith (config : K8sGPT) (sa : String) (am : Option Bool)
    (vols : List Volume) (args : List String) (mounts : List VolumeMount) (env : List EnvVar)
    (res : ResourceRequirements) :
    applyPassword config (deploymentWith config sa am vols args mounts env res) =
      deploymentWith config sa am vols args mounts (env ++ passwordEnv config) res := by
  unfold applyPassword passwordEnv
  cases config.spec.ai.secret with
  | none => simp
  | some secret =>
      by_cases hb : config.spec.ai.backend = AmazonBedrock
      · simp [hb]
      · simp [hb, appendEnv_deploymentWith]

theorem applyRemoteCache_deploymentWith (config : K8sGPT) (sa : String) (am : Option Bool)
    (vols : List Volume) (args : List String) (mounts : List VolumeMount) (env : List EnvVar)
    (res : ResourceRequirements) :
    applyRemoteCache config (deploymentWith config sa am vols args mounts env res) =
      deploymentWith config sa am vols args mounts (env ++ remoteCacheEnv config) res := by
  unfold applyRemoteCache remoteCacheEnv
  cases config.spec.remoteCache with
  | none => simp
  | some remoteCache =>
      by_cases ha : remoteCache.azure.isSome = true
      · simp [ha, appendEnv_deploymentWith]
      · by_cases hs : remoteCache.s3.isSome = true
        · simp [ha, hs, appendEnv_deploymentWith]
        · simp [ha, hs]

theorem applyProviderAndBaseUrl_deploymentWith (config : K8sGPT) (sa : String)
    (am : Option Bool) (vols : List Volume) (args : List String) (mounts : List VolumeMount)
    (env : List EnvVar) (res : ResourceRequirements) :
    applyProviderAndBaseUrl config (deploymentWith config sa am vols args mounts env res) =
      deploymentWith config sa am vols args mounts (env ++ providerAndBaseUrlEnv config) res := by
  unfold applyProviderAndBaseUrl providerAndBaseUrlEnv
  by_cases hp : config.spec.ai.providerId = "" <;> by_cases hu : config.spec.ai.baseUrl = "" <;>
    simp [hp, hu, appendEnv_deploymentWith]

theorem applyResources_deploymentWith (config : K8sGPT) (sa : String) (am : Option Bool)
    (vols : List Volume) (args : List String) (mounts : List VolumeMount) (env : List EnvVar)
    (res : ResourceRequirements) :
    applyResources config (deploymentWith config sa am vols args mounts env res) =
      deploymentWith config sa am vols args mounts env
        (match config.spec.resources with
         | some resources => resources
         | none => res) := by
  unfold applyResources
  cases config.spec.resources with
  | none => rfl
  | some resources => rfl

theorem applyProxyEndpoint_deploymentWith (config : K8sGPT) (sa : String) (am : Option Bool)
    (vols : List Volume) (args : List String) (mounts : List VolumeMount) (env : List EnvVar)
    (res : ResourceRequirements) :
    applyProxyEndpoint config (deploymentWith config sa am vols args mounts env res) =
      deploymentWith config sa am vols args mounts (env ++ proxyEnv config) res := by
  unfold applyProxyEndpoint proxyEnv
  by_cases hp : config.spec.ai.proxyEndpoint = "" <;> simp [hp, appendEnv_deploymentWith]

theorem deploymentBeforeEngine_eq (config : K8sGPT) (outOfClusterMode : Bool) (sa : String) :
    deploymentBeforeEngine config outOfClusterMode sa =
      deploymentWith config
        (if outOfClusterMode && !needsServiceAccount config then "" else sa)
        (if outOfClusterMode && !needsServiceAccount config then some false else none)
        (if outOfClusterMode then [dataVolume, kubeconfigVolume config] else [dataVolume])
        (if outOfClusterMode then
          ["serve", "--kubeconfig=" ++ ("/tmp/" ++ config.name) ++ "/kubeconfig"]
          else ["serve"])
        (if outOfClusterMode then [dataVolumeMount, kubeconfigVolumeMount config]
          else [dataVolumeMount])
        (literalEnv config ++ passwordEnv config ++ remoteCacheEnv config ++
          providerAndBaseUrlEnv config)
        (builtResources config) := by
  unfold deploymentBeforeEngine
  rw [deploymentLiteral_eq, applyOutOfCluster_deploymentWith, applyPassword_deploymentWith,
    applyRemoteCache_deploymentWith, applyProviderAndBaseUrl_deploymentWith,
    applyResources_deploymentWith]
  rfl

theorem addSecretAsEnvToDeployment_cases {σ : Type} (secretName secretKey : String)
    (config : K8sGPT) (c : Client σ) (d : Deployment) (w : World σ) :
    (addSecretAsEnvToDeployment secretName secretKey config c d w).1 = some secretMissingError ∨
      ((addSecretAsEnvToDeployment secretName secretKey config c d w).1 = none ∧
        (addSecretAsEnvToDeployment secretName secretKey config c d w).2.1 =
          appendEnv d (secretEnvVar secretKey secretName secretKey)) := by
  unfold addSecretAsEnvToDeployment
  split
  · exact Or.inl rfl
  · exact Or.inr ⟨rfl, rfl⟩

theorem applyAmazonBedrock_cases {σ : Type} (config : K8sGPT) (c : Client σ) (sa : String)
    (am : Option Bool) (vols : List Volume) (args : List String) (mounts : List VolumeMount)
    (env : List EnvVar) (res : ResourceRequirements) (w : World σ) :
    (applyAmazonBedrock config c (deploymentWith config sa am vols args mounts env res) w).1 =
        .error secretMissingError ∨
      (applyAmazonBedrock config c (deploymentWith config sa am vols args mounts env res) w).1 =
        (if config.spec.ai.backend = AmazonBedrock ∧ config.spec.ai.region = "" then
          .error (.plain "default region is required for amazonbedrock backend")
        else .ok (deploymentWith config sa am vols args mounts (env ++ bedrockEnv config) res)) := by
  unfold applyAmazonBedrock bedrockEnv
  by_cases hb : config.spec.ai.backend = AmazonBedrock
  · simp only [hb, if_true, true_and]
    cases hs : config.spec.ai.secret with
    | none =>
        refine Or.inr ?_
        by_cases hr : config.spec.ai.region = "" <;>
          simp [hr, appendEnv_deploymentWith]
    | some secret =>
        simp only
        rcases addSecretAsEnvToDeployment_cases secret.name "AWS_ACCESS_KEY_ID" config c
          (deploymentWith config sa am vols args mounts env res) w with h1 | ⟨h1, h1d⟩
        · refine Or.inl ?_
          rcases hr1 : addSecretAsEnvToDeployment secret.name "AWS_ACCESS_KEY_ID" config c
            (deploymentWith config sa am vols args mounts env res) w with ⟨r1, d1, w1⟩
          rw [hr1] at h1
          simp only at h1
          subst h1
          rfl
        · rcases hr1 : addSecretAsEnvToDeployment secret.name "AWS_ACCESS_KEY_ID" config c
            (deploymentWith config sa am vols args mounts env res) w with ⟨r1, d1, w1⟩
          rw [hr1] at h1 h1d
          simp only at h1 h1d
          subst h1 h1d
          simp only
          rcases addSecretAsEnvToDeployment_cases secret.name "AWS_SECRET_ACCESS_KEY" config c
            (appendEnv (deploymentWith config sa am vols args mounts env res)
              (secretEnvVar "AWS_ACCESS_KEY_ID" secret.name "AWS_ACCESS_KEY_ID")) w1 with
            h2 | ⟨h2, h2d⟩
          · refine Or.inl ?_
            rcases hr2 : addSecretAsEnvToDeployment secret.name "AWS_SECRET_ACCESS_KEY" config c
              (appendEnv (deploymentWith config sa am vols args mounts env res)
                (secretEnvVar "AWS_ACCESS_KEY_ID" secret.name "AWS_ACCESS_KEY_ID")) w1 with
              ⟨r2, d2, w2⟩
            rw [hr2] at h2
            simp only at h2
            subst h2
            rfl
          · refine Or.inr ?_
            rcases hr2 : addSecretAsEnvToDeployment secret.name "AWS_SECRET_ACCESS_KEY" config c
              (appendEnv (deploymentWith config sa am vols args mounts env res)
                (secretEnvVar "AWS_ACCESS_KEY_ID" secret.name "AWS_ACCESS_KEY_ID")) w1 with
              ⟨r2, d2, w2⟩
            rw [hr2] at h2 h2d
            simp only at h2 h2d
            subst h2 h2d
            by_cases hr : config.spec.ai.region = "" <;>
              simp [hr, appendEnv_deploymentWith]
  · simp [hb]

theorem applyIBMWatsonxAI_cases {σ : Type} (config : K8sGPT) (c : Client σ) (sa : String)
    (am : Option Bool) (vols : List Volume) (args : List String) (mounts : List VolumeMount)
    (env : List EnvVar) (res : ResourceRequirements) (w : World σ) :
    (applyIBMWatsonxAI config c (deploymentWith config sa am vols args mounts env res) w).1 =
        .error secretMissingError ∨
      (applyIBMWatsonxAI config c (deploymentWith config sa am vols args mounts env res) w).1 =
        .ok (deploymentWith config sa am vols args mounts (env ++ watsonxEnv config) res) := by
  unfold applyIBMWatsonxAI watsonxEnv
  by_cases hb : config.spec.ai.backend = IBMWatsonxAI
  · simp only [hb, if_true]
    cases hs : config.spec.ai.secret with
    | none => exact Or.inr (by simp)
    | some secret =>
        simp only
        rcases addSecretAsEnvToDeployment_cases secret.name "K8SGPT_PROVIDER_ID" config c
          (deploymentWith config sa am vols args mounts env res) w with h1 | ⟨h1, h1d⟩
        · refine Or.inl ?_
          rcases hr1 : addSecretAsEnvToDeployment secret.name "K8SGPT_PROVIDER_ID" config c
            (deploymentWith config sa am vols args mounts env res) w with ⟨r1, d1, w1⟩
          rw [hr1] at h1
          simp only at h1
          subst h1
          rfl
        · refine Or.inr ?_
          rcases hr1 : addSecretAsEnvToDeployment secret.name "K8SGPT_PROVIDER_ID" config c
            (deploymentWith config sa am vols args mounts env res) w with ⟨r1, d1, w1⟩
          rw [hr1] at h1 h1d
          simp only at h1 h1d
          subst h1 h1d
          simp [appendEnv_deploymentWith]
  · simp [hb]
theorem getDeployment_tail_cases {σ : Type} (config : K8sGPT) (c : Client σ) (sa : String)
    (am : Option Bool) (vols : List Volume) (args : List String) (mounts : List VolumeMount)
    (env : List EnvVar) (res : ResourceRequirements) (w : World σ) :
    (match applyAmazonBedrock config c
        (applyProxyEndpoint config (deploymentWith config sa am vols args mounts env res)) w with
      | (.error err, w1) => ((.error err : Except Error Deployment), w1)
      | (.ok d1, w1) => applyIBMWatsonxAI config c d1 w1).1 = .error secretMissingError ∨
    (match applyAmazonBedrock config c
        (applyProxyEndpoint config (deploymentWith config sa am vols args mounts env res)) w with
      | (.error err, w1) => ((.error err : Except Error Deployment), w1)
      | (.ok d1, w1) => applyIBMWatsonxAI config c d1 w1).1 =
      (if config.spec.ai.backend = AmazonBedrock ∧ config.spec.ai.region = "" then
        .error (.plain "default region is required for amazonbedrock backend")
      else .ok (deploymentWith config sa am vols args mounts
        (env ++ proxyEnv config ++ bedrockEnv config ++ watsonxEnv config) res)) := by
  rw [applyProxyEndpoint_deploymentWith]
  rcases applyAmazonBedrock_cases config c sa am vols args mounts (env ++ proxyEnv config) res w
    with h | h
  · refine Or.inl ?_
    rcases hr : applyAmazonBedrock config c
      (deploymentWith config sa am vols args mounts (env ++ proxyEnv config) res) w with ⟨r, w1⟩
    rw [hr] at h
    simp only at h
    subst h
    rfl
  · rcases hr : applyAmazonBedrock config c
      (deploymentWith config sa am vols args mounts (env ++ proxyEnv config) res) w with ⟨r, w1⟩
    rw [hr] at h
    simp only at h
    by_cases hv : config.spec.ai.backend = AmazonBedrock ∧ config.spec.ai.region = ""
    · rw [if_pos hv] at h
      subst h
      exact Or.inr (by rw [if_pos hv])
    · rw [if_neg hv] at h
      subst h
      simp only [if_neg hv]
      exact applyIBMWatsonxAI_cases config c sa am vols args mounts
        (env ++ proxyEnv config ++ bedrockEnv config) res w1

/-- The result of `GetDeployment` is the result determined by its arguments
other than the client and the world, unless a secret lookup failed. -/
theorem GetDeployment_cases {σ : Type} (config : K8sGPT) (outOfClusterMode : Bool)
    (c : Client σ) (serviceAccountName : String) (w : World σ) :
    (GetDeployment config outOfClusterMode c serviceAccountName w).1 = .error secretMissingError ∨
      (GetDeployment config outOfClusterMode c serviceAccountName w).1 =
        builtResult config outOfClusterMode serviceAccountName := by
  have hAB : AzureOpenAI ≠ AmazonBedrock := by decide
  unfold GetDeployment
  simp only [deploymentBeforeEngine_eq]
  by_cases he : config.spec.ai.engine = ""
  · simp only [he, ne_eq, not_true_eq_false, false_and, if_false]
    have hres : builtResult config outOfClusterMode serviceAccountName =
        (if config.spec.ai.backend = AmazonBedrock ∧ config.spec.ai.region = "" then
          .error (.plain "default region is required for amazonbedrock backend")
        else .ok (deploymentWith config
          (if outOfClusterMode && !needsServiceAccount config then "" else serviceAccountName)
          (if outOfClusterMode && !needsServiceAccount config then some false else none)
          (if outOfClusterMode then [dataVolume, kubeconfigVolume config] else [dataVolume])
          (if outOfClusterMode then
            ["serve", "--kubeconfig=" ++ ("/tmp/" ++ config.name) ++ "/kubeconfig"]
            else ["serve"])
          (if outOfClusterMode then [dataVolumeMount, kubeconfigVolumeMount config]
            else [dataVolumeMount])
          (literalEnv config ++ passwordEnv config ++ remoteCacheEnv config ++
            providerAndBaseUrlEnv config ++ proxyEnv config ++ bedrockEnv config ++
            watsonxEnv config)
          (builtResources config))) := by
      unfold builtResult validationError builtDeployment builtEnv engineEnv
      by_cases hv : config.spec.ai.backend = AmazonBedrock ∧ config.spec.ai.region = ""
      · simp [he, hv]
      · simp [he, hv]
    rw [hres]
    exact getDeployment_tail_cases config c _ _ _ _ _ _ _ w
  · by_cases hb : config.spec.ai.backend = AzureOpenAI
    · simp only [he, hb, ne_eq, not_false_eq_true, and_self, if_true, appendEnv_deploymentWith]
      have hres : builtResult config outOfClusterMode serviceAccountName =
          (if config.spec.ai.backend = AmazonBedrock ∧ config.spec.ai.region = "" then
            .error (.plain "default region is required for amazonbedrock backend")
          else .ok (deploymentWith config
            (if outOfClusterMode && !needsServiceAccount config then "" else serviceAccountName)
            (if outOfClusterMode && !needsServiceAccount config then some false else none)
            (if outOfClusterMode then [dataVolume, kubeconfigVolume config] else [dataVolume])
            (if outOfClusterMode then
              ["serve", "--kubeconfig=" ++ ("/tmp/" ++ config.name) ++ "/kubeconfig"]
              else ["serve"])
            (if outOfClusterMode then [dataVolumeMount, kubeconfigVolumeMount config]
              else [dataVolumeMount])
            (literalEnv config ++ passwordEnv config ++ remoteCacheEnv config ++
              providerAndBaseUrlEnv config ++
              [plainEnvVar "K8SGPT_ENGINE" config.spec.ai.engine] ++ proxyEnv config ++
              bedrockEnv config ++ watsonxEnv config)
            (builtResources config))) := by
        unfold builtResult validationError builtDeployment builtEnv engineEnv
        simp [he, hb, hAB]
      rw [hres]
      exact getDeployment_tail_cases config c _ _ _ _ _ _ _ w
    · refine Or.inr ?_
      simp [he, hb, builtResult, validationError]

/-- A deployment that `GetDeployment` returns is the one determined by its
arguments other than the client and the world. -/
theorem GetDeployment_ok_eq {σ : Type} (config : K8sGPT) (outOfClusterMode : Bool)
    (c : Client σ) (serviceAccountName : String) (w : World σ) (d : Deployment)
    (h : (GetDeployment config outOfClusterMode c serviceAccountName w).1 = .ok d) :
    d = builtDeployment config outOfClusterMode serviceAccountName ∧
      validationError config = none := by
  rcases GetDeployment_cases config outOfClusterMode c serviceAccountName w with h1 | h1
  · rw [h1] at h; cases h
  · rw [h1] at h
    unfold builtResult at h
    cases hv : validationError config with
    | some e => rw [hv] at h; cases h
    | none =>
        rw [hv] at h
        simp only [Except.ok.injEq] at h
        exact ⟨h.symm, rfl⟩

/-! ## Out-of-cluster mode and the environment -/

/-- C14: for every config with a kubeconfig reference, built with
`outOfClusterMode = true` (as `Sync` does exactly when the reference is set), if
`GetDeployment` returns a deployment then: unless the backend is amazonbedrock
with a non-empty IRSA role, the pod's service account name is empty and automount
is set to false; in that excepted case the service account name is the given one
and automount is unset; automount is false exactly outside the excepted case; and
in both cases the kubeconfig secret (name and key of the reference) is a volume
mounted read-only at `/tmp/<config name>` and the container's arguments are
`serve` and `--kubeconfig=/tmp/<config name>/kubeconfig`. -/
theorem out_of_cluster_identity_and_kubeconfig {σ : Type} (config : K8sGPT) (c : Client σ)
    (serviceAccountName : String) (w : World σ) (kubeconfig : SecretRef) (d : Deployment)
    (hk : config.spec.kubeconfig = some kubeconfig)
    (hd : (GetDeployment config true c serviceAccountName w).1 = .ok d) :
    (¬ (config.spec.ai.backend = AmazonBedrock ∧
          ∃ eo, config.spec.extraOptions = some eo ∧ eo.serviceAccountIRSA ≠ "") →
        d.spec.template.spec.serviceAccountName = "" ∧
          d.spec.template.spec.automountServiceAccountToken = some false) ∧
      ((config.spec.ai.backend = AmazonBedrock ∧
          ∃ eo, config.spec.extraOptions = some eo ∧ eo.serviceAccountIRSA ≠ "") →
        d.spec.template.spec.serviceAccountName = serviceAccountName ∧
          d.spec.template.spec.automountServiceAccountToken = none) ∧
      (d.spec.template.spec.automountServiceAccountToken = some false ↔
        ¬ (config.spec.ai.backend = AmazonBedrock ∧
          ∃ eo, config.spec.extraOptions = some eo ∧ eo.serviceAccountIRSA ≠ "")) ∧
      d.spec.template.spec.volumes =
        [ dataVolume,
          { name := "kubeconfig"
            volumeSource :=
              { emptyDir := false
                secret := some
                  { secretName := kubeconfig.name
                    items := [{ key := kubeconfig.key, path := "kubeconfig" }] } } } ] ∧
      d.spec.template.spec.containers.map (fun k => k.volumeMounts) =
        [[ dataVolumeMount,
           { name := "kubeconfig", readOnly := true, mountPath := "/tmp/" ++ config.name } ]] ∧
      d.spec.template.spec.containers.map (fun k => k.args) =
        [["serve", "--kubeconfig=" ++ ("/tmp/" ++ config.name) ++ "/kubeconfig"]] := by
  obtain ⟨hd1, _⟩ := GetDeployment_ok_eq config true c serviceAccountName w d hd
  subst hd1
  have hn : needsServiceAccount config = true ↔
      (config.spec.ai.backend = AmazonBedrock ∧
        ∃ eo, config.spec.extraOptions = some eo ∧ eo.serviceAccountIRSA ≠ "") := by
    unfold needsServiceAccount
    cases config.spec.extraOptions with
    | none => simp
    | some eo => simp
  have hvol : kubeconfigVolume config =
      { name := "kubeconfig"
        volumeSource :=
          { emptyDir := false
            secret := some
              { secretName := kubeconfig.name
                items := [{ key := kubeconfig.key, path := "kubeconfig" }] } } } := by
    simp [kubeconfigVolume, hk]
  by_cases hx : (config.spec.ai.backend = AmazonBedrock ∧
      ∃ eo, config.spec.extraOptions = some eo ∧ eo.serviceAccountIRSA ≠ "")
  · have hb : needsServiceAccount config = true := hn.mpr hx
    simp [builtDeployment, deploymentWith, hb, hx, hvol, kubeconfigVolumeMount]
  · have hb : needsServiceAccount config = false := by
      cases h : needsServiceAccount config with
      | false => rfl
      | true => exact absurd (hn.mp h) hx
    simp [builtDeployment, deploymentWith, hb, hx, hvol, kubeconfigVolumeMount]

/-- A witness of C14: the sample config with a kubeconfig reference, built out of
cluster against an empty in-memory store. -/
theorem out_of_cluster_identity_and_kubeconfig_witness :
    (¬ (sampleOutOfCluster.spec.ai.backend = AmazonBedrock ∧
          ∃ eo, sampleOutOfCluster.spec.extraOptions = some eo ∧ eo.serviceAccountIRSA ≠ "") →
        (builtDeployment sampleOutOfCluster true "k8sgpt-ns1").spec.template.spec.serviceAccountName
            = "" ∧
          (builtDeployment sampleOutOfCluster true
            "k8sgpt-ns1").spec.template.spec.automountServiceAccountToken = some false) ∧
      ((sampleOutOfCluster.spec.ai.backend = AmazonBedrock ∧
          ∃ eo, sampleOutOfCluster.spec.extraOptions = some eo ∧ eo.serviceAccountIRSA ≠ "") →
        (builtDeployment sampleOutOfCluster true "k8sgpt-ns1").spec.template.spec.serviceAccountName
            = "k8sgpt-ns1" ∧
          (builtDeployment sampleOutOfCluster true
            "k8sgpt-ns1").spec.template.spec.automountServiceAccountToken = none) ∧
      ((builtDeployment sampleOutOfCluster true
          "k8sgpt-ns1").spec.template.spec.automountServiceAccountToken = some false ↔
        ¬ (sampleOutOfCluster.spec.ai.backend = AmazonBedrock ∧
          ∃ eo, sampleOutOfCluster.spec.extraOptions = some eo ∧ eo.serviceAccountIRSA ≠ "")) ∧
      (builtDeployment sampleOutOfCluster true "k8sgpt-ns1").spec.template.spec.volumes =
        [ dataVolume,
          { name := "kubeconfig"
            volumeSource :=
              { emptyDir := false
                secret := some
                  { secretName := "remote-cluster"
                    items := [{ key := "config", path := "kubeconfig" }] } } } ] ∧
      (builtDeployment sampleOutOfCluster true "k8sgpt-ns1").spec.template.spec.containers.map
          (fun k => k.volumeMounts) =
        [[ dataVolumeMount,
           { name := "kubeconfig", readOnly := true, mountPath := "/tmp/" ++ "k8sgpt-sample" } ]] ∧
      (builtDeployment sampleOutOfCluster true "k8sgpt-ns1").spec.template.spec.containers.map
          (fun k => k.args) =
        [["serve", "--kubeconfig=" ++ ("/tmp/" ++ "k8sgpt-sample") ++ "/kubeconfig"]] :=
  out_of_cluster_identity_and_kubeconfig sampleOutOfCluster memClient "k8sgpt-ns1" (memWorld [] [])
    { name := "remote-cluster", key := "config" }
    (builtDeployment sampleOutOfCluster true "k8sgpt-ns1") rfl rfl
theorem containerEnv_builtDeployment (config : K8sGPT) (outOfClusterMode : Bool) (sa : String) :
    containerEnv (builtDeployment config outOfClusterMode sa) = builtEnv config :=
  rfl

theorem mem_passwordEnv (config : K8sGPT) (e : EnvVar) :
    e ∈ passwordEnv config ↔
      ∃ s, config.spec.ai.secret = some s ∧ config.spec.ai.backend ≠ AmazonBedrock ∧
        e = secretEnvVar "K8SGPT_PASSWORD" s.name s.key := by
  unfold passwordEnv
  cases config.spec.ai.secret with
  | none => simp
  | some secret =>
      by_cases hb : config.spec.ai.backend = AmazonBedrock <;> simp [hb]

theorem not_password_literalEnv (config : K8sGPT) (e : EnvVar) (h : e ∈ literalEnv config) :
    e.name ≠ "K8SGPT_PASSWORD" ∧ e.valueFrom = none := by
  simp only [literalEnv, List.mem_cons, List.mem_singleton, List.not_mem_nil, or_false] at h
  rcases h with h | h | h | h | h | h <;> subst h <;> exact ⟨by simp [plainEnvVar], rfl⟩

theorem not_password_remoteCacheEnv (config : K8sGPT) (e : EnvVar)
    (h : e ∈ remoteCacheEnv config) : e.name ≠ "K8SGPT_PASSWORD" := by
  unfold remoteCacheEnv at h
  cases hrc : config.spec.remoteCache with
  | none => rw [hrc] at h; simp at h
  | some rc =>
      rw [hrc] at h
      simp only at h
      split at h
      · simp only [List.mem_cons, List.mem_singleton, List.not_mem_nil, or_false] at h
        rcases h with h | h | h <;> subst h <;> simp [secretEnvVar]
      · split at h
        · simp only [List.mem_cons, List.mem_singleton, List.not_mem_nil, or_false] at h
          rcases h with h | h <;> subst h <;> simp [secretEnvVar]
        · simp at h

theorem not_password_providerAndBaseUrlEnv (config : K8sGPT) (e : EnvVar)
    (h : e ∈ providerAndBaseUrlEnv config) : e.name ≠ "K8SGPT_PASSWORD" ∧ e.valueFrom = none := by
  unfold providerAndBaseUrlEnv at h
  rcases List.mem_append.mp h with h | h
  · split at h
    · simp only [List.mem_singleton] at h
      subst h
      exact ⟨by simp [plainEnvVar], rfl⟩
    · simp at h
  · split at h
    · simp only [List.mem_singleton] at h
      subst h
      exact ⟨by simp [plainEnvVar], rfl⟩
    · simp at h

theorem not_password_engineEnv (config : K8sGPT) (e : EnvVar) (h : e ∈ engineEnv config) :
    e.name ≠ "K8SGPT_PASSWORD" ∧ e.valueFrom = none := by
  unfold engineEnv at h
  split at h
  · simp only [List.mem_singleton] at h
    subst h
    exact ⟨by simp [plainEnvVar], rfl⟩
  · simp at h

theorem not_password_proxyEnv (config : K8sGPT) (e : EnvVar) (h : e ∈ proxyEnv config) :
    e.name ≠ "K8SGPT_PASSWORD" ∧ e.valueFrom = none := by
  unfold proxyEnv at h
  split at h
  · simp only [List.mem_singleton] at h
    subst h
    exact ⟨by simp [plainEnvVar], rfl⟩
  · simp at h

theorem not_password_bedrockEnv (config : K8sGPT) (e : EnvVar) (h : e ∈ bedrockEnv config) :
    e.name ≠ "K8SGPT_PASSWORD" ∧ (config.spec.ai.secret = none → e.valueFrom = none) := by
  unfold bedrockEnv at h
  split at h
  · rcases List.mem_append.mp h with h | h
    · cases hs : config.spec.ai.secret with
      | none => rw [hs] at h; simp at h
      | some s =>
          rw [hs] at h
          simp only [List.mem_cons, List.mem_singleton, List.not_mem_nil, or_false] at h
          rcases h with h | h <;> subst h <;> exact ⟨by simp [secretEnvVar], by simp⟩
    · simp only [List.mem_singleton] at h
      subst h
      exact ⟨by simp [plainEnvVar], fun _ => rfl⟩
  · simp at h

theorem not_password_watsonxEnv (config : K8sGPT) (e : EnvVar) (h : e ∈ watsonxEnv config) :
    e.name ≠ "K8SGPT_PASSWORD" ∧ (config.spec.ai.secret = none → e.valueFrom = none) := by
  unfold watsonxEnv at h
  split at h
  · cases hs : config.spec.ai.secret with
    | none => rw [hs] at h; simp at h
    | some s =>
        rw [hs] at h
        simp only [List.mem_singleton] at h
        subst h
        exact ⟨by simp [secretEnvVar], by simp⟩
  · simp at h

/-- C15: for every config for which `GetDeployment` returns a deployment, the
environment of the container has a variable named `K8SGPT_PASSWORD` exactly when
the config references an AI secret and the backend is not amazonbedrock; that
variable is then the one sourced from the secret's name and key, and no other
variable has that name; and when the config references no AI secret, every
variable that is sourced from a secret is one of the remote cache variables
(sourced from the remote cache credentials, not from an AI credential secret). -/
theorem password_variable_iff_secret_and_not_bedrock {σ : Type} (config : K8sGPT)
    (outOfClusterMode : Bool) (c : Client σ) (serviceAccountName : String) (w : World σ)
    (d : Deployment)
    (hd : (GetDeployment config outOfClusterMode c serviceAccountName w).1 = .ok d) :
    ((∃ e ∈ containerEnv d, e.name = "K8SGPT_PASSWORD") ↔
        ∃ s, config.spec.ai.secret = some s ∧ config.spec.ai.backend ≠ AmazonBedrock) ∧
      (∀ s, config.spec.ai.secret = some s → config.spec.ai.backend ≠ AmazonBedrock →
        secretEnvVar "K8SGPT_PASSWORD" s.name s.key ∈ containerEnv d ∧
          ∀ e ∈ containerEnv d, e.name = "K8SGPT_PASSWORD" →
            e = secretEnvVar "K8SGPT_PASSWORD" s.name s.key) ∧
      (config.spec.ai.secret = none →
        ∀ e ∈ containerEnv d, e.valueFrom ≠ none → e ∈ remoteCacheEnv config) := by
  obtain ⟨hd1, _⟩ := GetDeployment_ok_eq config outOfClusterMode c serviceAccountName w d hd
  subst hd1
  rw [containerEnv_builtDeployment]
  have hname : ∀ e ∈ builtEnv config, e.name = "K8SGPT_PASSWORD" → e ∈ passwordEnv config := by
    intro e he hn
    simp only [builtEnv, List.mem_append] at he
    rcases he with ((((((he | he) | he) | he) | he) | he) | he) | he
    · exact absurd hn (not_password_literalEnv config e he).1
    · exact he
    · exact absurd hn (not_password_remoteCacheEnv config e he)
    · exact absurd hn (not_password_providerAndBaseUrlEnv config e he).1
    · exact absurd hn (not_password_engineEnv config e he).1
    · exact absurd hn (not_password_proxyEnv config e he).1
    · exact absurd hn (not_password_bedrockEnv config e he).1
    · exact absurd hn (not_password_watsonxEnv config e he).1
  have hsub : ∀ e ∈ passwordEnv config, e ∈ builtEnv config := by
    intro e he
    simp only [builtEnv, List.mem_append]
    exact Or.inl (Or.inl (Or.inl (Or.inl (Or.inl (Or.inl (Or.inr he))))))
  refine ⟨⟨?_, ?_⟩, ?_, ?_⟩
  · rintro ⟨e, he, hn⟩
    obtain ⟨s, hs, hb, _⟩ := (mem_passwordEnv config e).mp (hname e he hn)
    exact ⟨s, hs, hb⟩
  · rintro ⟨s, hs, hb⟩
    exact ⟨secretEnvVar "K8SGPT_PASSWORD" s.name s.key,
      hsub _ ((mem_passwordEnv config _).mpr ⟨s, hs, hb, rfl⟩), rfl⟩
  · intro s hs hb
    refine ⟨hsub _ ((mem_passwordEnv config _).mpr ⟨s, hs, hb, rfl⟩), ?_⟩
    intro e he hn
    obtain ⟨s1, hs1, _, heq⟩ := (mem_passwordEnv config e).mp (hname e he hn)
    rw [hs] at hs1
    cases hs1
    exact heq
  · intro hs e he hv
    simp only [builtEnv, List.mem_append] at he
    rcases he with ((((((he | he) | he) | he) | he) | he) | he) | he
    · exact absurd (not_password_literalEnv config e he).2 hv
    · obtain ⟨s, hs1, _⟩ := (mem_passwordEnv config e).mp he
      rw [hs] at hs1
      cases hs1
    · exact he
    · exact absurd (not_password_providerAndBaseUrlEnv config e he).2 hv
    · exact absurd (not_password_engineEnv config e he).2 hv
    · exact absurd (not_password_proxyEnv config e he).2 hv
    · exact absurd ((not_password_bedrockEnv config e he).2 hs) hv
    · exact absurd ((not_password_watsonxEnv config e he).2 hs) hv

/-- A witness of C15: the sample config referencing the secret `ai-secret` with
backend openai, built against an in-memory store. -/
theorem password_variable_iff_secret_and_not_bedrock_witness :
    ((∃ e ∈ containerEnv (builtDeployment
          (sampleWithAI { sampleAI with secret := some { name := "ai-secret", key := "token" } })
          false "k8sgpt-ns1"), e.name = "K8SGPT_PASSWORD") ↔
        ∃ s, (sampleWithAI { sampleAI with secret := some { name := "ai-secret", key := "token" } }
          ).spec.ai.secret = some s ∧
          (sampleWithAI { sampleAI with secret := some { name := "ai-secret", key := "token" } }
          ).spec.ai.backend ≠ AmazonBedrock) ∧
      (∀ s, (sampleWithAI { sampleAI with secret := some { name := "ai-secret", key := "token" } }
          ).spec.ai.secret = some s →
        (sampleWithAI { sampleAI with secret := some { name := "ai-secret", key := "token" } }
          ).spec.ai.backend ≠ AmazonBedrock →
        secretEnvVar "K8SGPT_PASSWORD" s.name s.key ∈ containerEnv (builtDeployment
          (sampleWithAI { sampleAI with secret := some { name := "ai-secret", key := "token" } })
          false "k8sgpt-ns1") ∧
          ∀ e ∈ containerEnv (builtDeployment
              (sampleWithAI { sampleAI with secret := some { name := "ai-secret", key := "token" } })
              false "k8sgpt-ns1"), e.name = "K8SGPT_PASSWORD" →
            e = secretEnvVar "K8SGPT_PASSWORD" s.name s.key) ∧
      ((sampleWithAI { sampleAI with secret := some { name := "ai-secret", key := "token" } }
          ).spec.ai.secret = none →
        ∀ e ∈ containerEnv (builtDeployment
            (sampleWithAI { sampleAI with secret := some { name := "ai-secret", key := "token" } })
            false "k8sgpt-ns1"), e.valueFrom ≠ none →
          e ∈ remoteCacheEnv
            (sampleWithAI { sampleAI with secret := some { name := "ai-secret", key := "token" } })) :=
  password_variable_iff_secret_and_not_bedrock
    (sampleWithAI { sampleAI with secret := some { name := "ai-secret", key := "token" } })
    false memClient "k8sgpt-ns1" (memWorld [] [])
    (builtDeployment
      (sampleWithAI { sampleAI with secret := some { name := "ai-secret", key := "token" } })
      false "k8sgpt-ns1") rfl
/-! ## The descriptor set as a function of the config -/

theorem addSecretAsEnvToDeployment_found {σ : Type} (secretName secretKey : String)
    (config : K8sGPT) (c : Client σ) (d : Deployment) (w : World σ) (S : σ → Prop)
    (hS : S w.store)
    (hclosed : ∀ (s : σ) (k : Kind) (key : NamespacedName), S s → S (c.get k key s).2)
    (hok : ∀ s, S s → ∃ o, (c.get .secret ⟨config.ns, secretName⟩ s).1 = .ok o) :
    (addSecretAsEnvToDeployment secretName secretKey config c d w).1 = none ∧
      S (addSecretAsEnvToDeployment secretName secretKey config c d w).2.2.store := by
  obtain ⟨o, ho⟩ := hok w.store hS
  have hg1 : (Get c .secret ⟨config.ns, secretName⟩ w).1 = .ok o := ho
  have hg2 : S (Get c .secret ⟨config.ns, secretName⟩ w).2.store := hclosed w.store _ _ hS
  unfold addSecretAsEnvToDeployment
  rcases hg : Get c .secret ⟨config.ns, secretName⟩ w with ⟨r, w1⟩
  rw [hg] at hg1 hg2
  simp only at hg1 hg2
  subst hg1
  exact ⟨rfl, hg2⟩

theorem applyAmazonBedrock_found {σ : Type} (config : K8sGPT) (c : Client σ) (d : Deployment)
    (w : World σ) (S : σ → Prop) (hS : S w.store)
    (hclosed : ∀ (s : σ) (k : Kind) (key : NamespacedName), S s → S (c.get k key s).2)
    (hok : ∀ secret, config.spec.ai.secret = some secret →
      ∀ s, S s → ∃ o, (c.get .secret ⟨config.ns, secret.name⟩ s).1 = .ok o) :
    (applyAmazonBedrock config c d w).1 ≠ .error secretMissingError ∧
      S (applyAmazonBedrock config c d w).2.store := by
  unfold applyAmazonBedrock
  by_cases hb : config.spec.ai.backend = AmazonBedrock
  · simp only [hb, if_true]
    cases hs : config.spec.ai.secret with
    | none =>
        simp only
        by_cases hr : config.spec.ai.region = ""
        · simp only [hr, if_true]
          exact ⟨by simp [secretMissingError], hS⟩
        · simp only [hr, if_false]
          exact ⟨by simp, hS⟩
    | some secret =>
        simp only
        obtain ⟨h1, h1s⟩ := addSecretAsEnvToDeployment_found secret.name "AWS_ACCESS_KEY_ID"
          config c d w S hS hclosed (hok secret hs)
        rcases hr1 : addSecretAsEnvToDeployment secret.name "AWS_ACCESS_KEY_ID" config c d w with
          ⟨r1, d1, w1⟩
        rw [hr1] at h1 h1s
        simp only at h1 h1s
        subst h1
        simp only
        obtain ⟨h2, h2s⟩ := addSecretAsEnvToDeployment_found secret.name "AWS_SECRET_ACCESS_KEY"
          config c d1 w1 S h1s hclosed (hok secret hs)
        rcases hr2 : addSecretAsEnvToDeployment secret.name "AWS_SECRET_ACCESS_KEY" config c d1 w1
          with ⟨r2, d2, w2⟩
        rw [hr2] at h2 h2s
        simp only at h2 h2s
        subst h2
        simp only
        by_cases hr : config.spec.ai.region = ""
        · simp only [hr, if_true]
          exact ⟨by simp [secretMissingError], h2s⟩
        · simp only [hr, if_false]
          exact ⟨by simp, h2s⟩
  · simp only [hb, if_false]
    exact ⟨by simp, hS⟩

theorem applyIBMWatsonxAI_found {σ : Type} (config : K8sGPT) (c : Client σ) (d : Deployment)
    (w : World σ) (S : σ → Prop) (hS : S w.store)
    (hclosed : ∀ (s : σ) (k : Kind) (key : NamespacedName), S s → S (c.get k key s).2)
    (hok : ∀ secret, config.spec.ai.secret = some secret →
      ∀ s, S s → ∃ o, (c.get .secret ⟨config.ns, secret.name⟩ s).1 = .ok o) :
    (applyIBMWatsonxAI config c d w).1 ≠ .error secretMissingError := by
  unfold applyIBMWatsonxAI
  by_cases hb : config.spec.ai.backend = IBMWatsonxAI
  · simp only [hb, if_true]
    cases hs : config.spec.ai.secret with
    | none => simp
    | some secret =>
        simp only
        obtain ⟨h1, _⟩ := addSecretAsEnvToDeployment_found secret.name "K8SGPT_PROVIDER_ID"
          config c d w S hS hclosed (hok secret hs)
        rcases hr1 : addSecretAsEnvToDeployment secret.name "K8SGPT_PROVIDER_ID" config c d w with
          ⟨r1, d1, w1⟩
        rw [hr1] at h1
        simp only at h1
        subst h1
        simp
  · simp [hb]

theorem GetDeployment_found {σ : Type} (config : K8sGPT) (outOfClusterMode : Bool)
    (c : Client σ) (serviceAccountName : String) (w : World σ) (S : σ → Prop) (hS : S w.store)
    (hclosed : ∀ (s : σ) (k : Kind) (key : NamespacedName), S s → S (c.get k key s).2)
    (hok : ∀ secret, config.spec.ai.secret = some secret →
      ∀ s, S s → ∃ o, (c.get .secret ⟨config.ns, secret.name⟩ s).1 = .ok o) :
    (GetDeployment config outOfClusterMode c serviceAccountName w).1 =
      builtResult config outOfClusterMode serviceAccountName := by
  have tail : ∀ d : Deployment,
      (match applyAmazonBedrock config c d w with
        | (.error err, w1) => ((.error err : Except Error Deployment), w1)
        | (.ok d1, w1) => applyIBMWatsonxAI config c d1 w1).1 ≠ .error secretMissingError := by
    intro d
    obtain ⟨h1, h1s⟩ := applyAmazonBedrock_found config c d w S hS hclosed hok
    rcases hr : applyAmazonBedrock config c d w with ⟨r, w1⟩
    rw [hr] at h1 h1s
    cases r with
    | error e => exact h1
    | ok d1 => exact applyIBMWatsonxAI_found config c d1 w1 S h1s hclosed hok
  rcases GetDeployment_cases config outOfClusterMode c serviceAccountName w with h | h
  · exfalso
    unfold GetDeployment at h
    simp only at h
    split at h
    · exact tail _ h
    · split at h
      · simp [secretMissingError] at h
      · exact tail _ h
  · exact h

theorem memClient_get_store (s : MemStore) (k : Kind) (key : NamespacedName) :
    (memClient.get k key s).2 = s := by
  simp only [memClient]
  split <;> rfl

/-- C20: the deployment descriptor is a function of the config alone. For any two
clients and worlds: each build returns either the result determined by the config
(with the mode and the service account name) or the missing-secret error; two
builds that both return a deployment return the same deployment; and when, in
both stores, the lookup of the referenced secret (if any) succeeds in every state
the gets can reach, the two builds return the same result, the one determined by
the config. The other four builders take no client at all. -/
theorem deployment_is_a_function_of_the_config {σ1 σ2 : Type} (config : K8sGPT)
    (outOfClusterMode : Bool) (serviceAccountName : String)
    (c1 : Client σ1) (w1 : World σ1) (c2 : Client σ2) (w2 : World σ2)
    (S1 : σ1 → Prop) (S2 : σ2 → Prop) (hS1 : S1 w1.store) (hS2 : S2 w2.store)
    (hclosed1 : ∀ (s : σ1) (k : Kind) (key : NamespacedName), S1 s → S1 (c1.get k key s).2)
    (hclosed2 : ∀ (s : σ2) (k : Kind) (key : NamespacedName), S2 s → S2 (c2.get k key s).2)
    (hok1 : ∀ secret, config.spec.ai.secret = some secret →
      ∀ s, S1 s → ∃ o, (c1.get .secret ⟨config.ns, secret.name⟩ s).1 = .ok o)
    (hok2 : ∀ secret, config.spec.ai.secret = some secret →
      ∀ s, S2 s → ∃ o, (c2.get .secret ⟨config.ns, secret.name⟩ s).1 = .ok o) :
    (GetDeployment config outOfClusterMode c1 serviceAccountName w1).1 =
        (GetDeployment config outOfClusterMode c2 serviceAccountName w2).1 ∧
      (GetDeployment config outOfClusterMode c1 serviceAccountName w1).1 =
        builtResult config outOfClusterMode serviceAccountName ∧
      (∀ (σ3 σ4 : Type) (c3 : Client σ3) (w3 : World σ3) (c4 : Client σ4) (w4 : World σ4)
        (d3 d4 : Deployment),
        (GetDeployment config outOfClusterMode c3 serviceAccountName w3).1 = .ok d3 →
        (GetDeployment config outOfClusterMode c4 serviceAccountName w4).1 = .ok d4 →
        d3 = d4) ∧
      (∀ (σ3 : Type) (c3 : Client σ3) (w3 : World σ3),
        (GetDeployment config outOfClusterMode c3 serviceAccountName w3).1 =
            builtResult config outOfClusterMode serviceAccountName ∨
          (GetDeployment config outOfClusterMode c3 serviceAccountName w3).1 =
            .error secretMissingError) := by
  have h1 := GetDeployment_found config outOfClusterMode c1 serviceAccountName w1 S1 hS1
    hclosed1 hok1
  have h2 := GetDeployment_found config outOfClusterMode c2 serviceAccountName w2 S2 hS2
    hclosed2 hok2
  refine ⟨by rw [h1, h2], h1, ?_, ?_⟩
  · intro σ3 σ4 c3 w3 c4 w4 d3 d4 h3 h4
    rw [(GetDeployment_ok_eq config outOfClusterMode c3 serviceAccountName w3 d3 h3).1,
      (GetDeployment_ok_eq config outOfClusterMode c4 serviceAccountName w4 d4 h4).1]
  · intro σ3 c3 w3
    exact (GetDeployment_cases config outOfClusterMode c3 serviceAccountName w3).symm

/-- A witness of C20: the amazonbedrock sample config built against two in-memory
stores that both hold the secret `ai-secret`, one of them holding a stored
deployment as well. -/
theorem deployment_is_a_function_of_the_config_witness :
    (GetDeployment sampleBedrock false memClient "k8sgpt-ns1"
        (memWorld [.secret sampleSecret] [])).1 =
        (GetDeployment sampleBedrock false memClient "k8sgpt-ns1"
          (memWorld [.deployment storedDeployment, .secret sampleSecret] [conflictError])).1 ∧
      (GetDeployment sampleBedrock false memClient "k8sgpt-ns1"
        (memWorld [.secret sampleSecret] [])).1 =
        builtResult sampleBedrock false "k8sgpt-ns1" ∧
      (∀ (σ3 σ4 : Type) (c3 : Client σ3) (w3 : World σ3) (c4 : Client σ4) (w4 : World σ4)
        (d3 d4 : Deployment),
        (GetDeployment sampleBedrock false c3 "k8sgpt-ns1" w3).1 = .ok d3 →
        (GetDeployment sampleBedrock false c4 "k8sgpt-ns1" w4).1 = .ok d4 →
        d3 = d4) ∧
      (∀ (σ3 : Type) (c3 : Client σ3) (w3 : World σ3),
        (GetDeployment sampleBedrock false c3 "k8sgpt-ns1" w3).1 =
            builtResult sampleBedrock false "k8sgpt-ns1" ∨
          (GetDeployment sampleBedrock false c3 "k8sgpt-ns1" w3).1 =
            .error secretMissingError) :=
  deployment_is_a_function_of_the_config sampleBedrock false "k8sgpt-ns1"
    memClient (memWorld [.secret sampleSecret] [])
    memClient (memWorld [.deployment storedDeployment, .secret sampleSecret] [conflictError])
    (fun s => s = ⟨[.secret sampleSecret], []⟩)
    (fun s => s = ⟨[.deployment storedDeployment, .secret sampleSecret], [conflictError]⟩)
    rfl rfl
    (fun s k key hs => by rw [memClient_get_store]; exact hs)
    (fun s k key hs => by rw [memClient_get_store]; exact hs)
    (fun secret hsec s hs => by
      subst hs
      have hn : secret = { name := "ai-secret", key := "token" } := by
        simp only [sampleBedrock, sampleWithAI, Option.some.injEq] at hsec
        exact hsec.symm
      subst hn
      exact ⟨sampleSecret, rfl⟩)
    (fun secret hsec s hs => by
      subst hs
      have hn : secret = { name := "ai-secret", key := "token" } := by
        simp only [sampleBedrock, sampleWithAI, Option.some.injEq] at hsec
        exact hsec.symm
      subst hn
      exact ⟨sampleSecret, rfl⟩)

/-! ## The calls a pass issues -/

theorem GetInto_calls {σ : Type} (c : Client σ) (key : NamespacedName) (obj : Obj) (w : World σ) :
    (GetInto c key obj w).2.2.calls = w.calls ++ [Call.get obj.kind key] ∧
      (GetInto c key obj w).2.1.kind = obj.kind := by
  unfold GetInto
  have hc : (Get c obj.kind key w).2.calls = w.calls ++ [Call.get obj.kind key] := rfl
  rcases hg : Get c obj.kind key w with ⟨r, w1⟩
  rw [hg] at hc
  cases r with
  | error e => exact ⟨hc, rfl⟩
  | ok o => exact ⟨hc, Obj.kind_ofKind obj.kind o⟩

theorem CreateOrPatch_calls {σ : Type} (c : Client σ) (f : Option MutateFn) (obj : Obj)
    (w : World σ)
    (hf : ∀ (key : NamespacedName) (x : Obj), (mutateIfSet f key x).2.kind = x.kind) :
    (∃ extra, (CreateOrPatch c f obj w).2.calls = w.calls ++ extra ∧
        ∀ x ∈ extra, x.isDelete = false ∧ x.kind = obj.kind) ∧
      ∀ e o1, (CreateOrPatch c f obj w).1 = some (e, o1) → o1.kind = obj.kind := by
  obtain ⟨hgc, hgk⟩ := GetInto_calls c (ObjectKeyFromObject obj) obj w
  unfold CreateOrPatch
  simp only
  rcases hg : GetInto c (ObjectKeyFromObject obj) obj w with ⟨r, obj0, w1⟩
  rw [hg] at hgc hgk
  simp only at hgc hgk
  have hmk := hf (ObjectKeyFromObject obj) obj0
  rcases hm : mutateIfSet f (ObjectKeyFromObject obj) obj0 with ⟨rm, obj1⟩
  rw [hm] at hmk
  simp only at hmk
  have hk1 : obj1.kind = obj.kind := by rw [hmk, hgk]
  have hget : ∀ x ∈ [Call.get obj.kind (ObjectKeyFromObject obj)],
      x.isDelete = false ∧ x.kind = obj.kind := by
    intro x hx
    simp only [List.mem_singleton] at hx
    subst hx
    exact ⟨rfl, rfl⟩
  cases r with
  | some err =>
      simp only
      by_cases hnf : IsNotFound err = true
      · simp only [hnf, Bool.not_true, Bool.false_eq_true, if_false, hm]
        cases rm with
        | some err1 =>
            refine ⟨⟨_, hgc, hget⟩, ?_⟩
            intro e o1 h
            simp only [Option.some.injEq, Prod.mk.injEq] at h
            rw [← h.2]; exact hk1
        | none =>
            simp only
            have hcc : (Create c obj1 w1).2.calls = w1.calls ++ [Call.create obj1] := rfl
            rcases hcr : Create c obj1 w1 with ⟨rc, w2⟩
            rw [hcr] at hcc
            simp only at hcc
            have hall : ∀ x ∈ [Call.get obj.kind (ObjectKeyFromObject obj), Call.create obj1],
                x.isDelete = false ∧ x.kind = obj.kind := by
              intro x hx
              simp only [List.mem_cons, List.mem_singleton, List.not_mem_nil, or_false] at hx
              rcases hx with hx | hx <;> subst hx
              · exact ⟨rfl, rfl⟩
              · exact ⟨rfl, hk1⟩
            cases rc with
            | some err2 =>
                refine ⟨⟨_, by rw [hcc, hgc, List.append_assoc]; rfl, hall⟩, ?_⟩
                intro e o1 h
                simp only [Option.some.injEq, Prod.mk.injEq] at h
                rw [← h.2]; exact hk1
            | none =>
                exact ⟨⟨_, by rw [hcc, hgc, List.append_assoc]; rfl, hall⟩,
                  fun e o1 h => by simp at h⟩
      · simp only [hnf, Bool.not_false, if_true]
        refine ⟨⟨_, hgc, hget⟩, ?_⟩
        intro e o1 h
        simp only [Option.some.injEq, Prod.mk.injEq] at h
        rw [← h.2]; exact hgk
  | none =>
      simp only [hm]
      cases rm with
      | some err1 =>
          refine ⟨⟨_, hgc, hget⟩, ?_⟩
          intro e o1 h
          simp only [Option.some.injEq, Prod.mk.injEq] at h
          rw [← h.2]; exact hk1
      | none =>
          simp only
          by_cases hdiff : obj0.withoutStatus = obj1.withoutStatus
          · simp only [ne_eq, hdiff, not_true_eq_false, if_false]
            exact ⟨⟨_, hgc, hget⟩, fun e o1 h => by simp at h⟩
          · simp only [ne_eq, hdiff, not_false_eq_true, if_true]
            have hpc : (Patch c obj1 obj0 w1).2.calls = w1.calls ++ [Call.patch obj1] := rfl
            rcases hpr : Patch c obj1 obj0 w1 with ⟨rp, w2⟩
            rw [hpr] at hpc
            simp only at hpc
            have hall : ∀ x ∈ [Call.get obj.kind (ObjectKeyFromObject obj), Call.patch obj1],
                x.isDelete = false ∧ x.kind = obj.kind := by
              intro x hx
              simp only [List.mem_cons, List.mem_singleton, List.not_mem_nil, or_false] at hx
              rcases hx with hx | hx <;> subst hx
              · exact ⟨rfl, rfl⟩
              · exact ⟨rfl, hk1⟩
            cases rp with
            | some err2 =>
                refine ⟨⟨_, by rw [hpc, hgc, List.append_assoc]; rfl, hall⟩, ?_⟩
                intro e o1 h
                simp only [Option.some.injEq, Prod.mk.injEq] at h
                rw [← h.2]; exact hk1
            | none =>
                exact ⟨⟨_, by rw [hpc, hgc, List.append_assoc]; rfl, hall⟩,
                  fun e o1 h => by simp at h⟩

theorem OnError_calls {σ : Type} (c : Client σ) (f : Option MutateFn) (k : Kind)
    (hf : ∀ (key : NamespacedName) (x : Obj), (mutateIfSet f key x).2.kind = x.kind)
    (steps : Nat) :
    ∀ (lastErr : Option Error) (obj : Obj) (w : World σ), obj.kind = k →
      ∃ extra, (OnError IsConflict (CreateOrPatch c f) steps lastErr obj w).2.calls =
          w.calls ++ extra ∧
        ∀ x ∈ extra, x.isDelete = false ∧ x.kind = k := by
  induction steps with
  | zero =>
      intro lastErr obj w _
      exact ⟨[], by simp [OnError], by simp⟩
  | succ steps ih =>
      intro lastErr obj w hk
      obtain ⟨⟨extra, hcalls, hall⟩, hkind⟩ := CreateOrPatch_calls c f obj w hf
      rw [hk] at hall
      simp only [OnError]
      rcases hcp : CreateOrPatch c f obj w with ⟨r, w1⟩
      rw [hcp] at hcalls hkind
      simp only at hcalls hkind
      cases r with
      | none => exact ⟨extra, hcalls, hall⟩
      | some p =>
          obtain ⟨err, obj1⟩ := p
          simp only
          by_cases hc : IsConflict err = true
          · simp only [hc, if_true]
            obtain ⟨extra2, hcalls2, hall2⟩ := ih (some err) obj1 w1
              (by rw [hkind err obj1 rfl, hk])
            refine ⟨extra ++ extra2, by rw [hcalls2, hcalls, List.append_assoc], ?_⟩
            intro x hx
            rcases List.mem_append.mp hx with h | h
            · exact hall x h
            · exact hall2 x h
          · simp only [hc, if_false]
            exact ⟨extra, hcalls, hall⟩

theorem mutateIfSet_kind_of_withSpecOf (m : MutateFn) (d : Obj)
    (hm : ∀ x, m x = (none, withSpecOf d x)) (key : NamespacedName) (x : Obj) :
    (mutateIfSet (some m) key x).2.kind = x.kind := by
  simp only [mutateIfSet, mutate, hm x]
  split <;> exact withSpecOf_kind d x

theorem doSync_calls {σ : Type} (c : Client σ) (obj : Obj) (w : World σ) :
    ∃ extra, (doSync c obj w).2.calls = w.calls ++ extra ∧
      ∀ x ∈ extra, x.isDelete = false ∧ x.kind = obj.kind := by
  have hnone : ∀ (key : NamespacedName) (x : Obj),
      (mutateIfSet (none : Option MutateFn) key x).2.kind = x.kind := fun _ _ => rfl
  have plain : ∀ w1 : World σ, (∃ pre, w1.calls = w.calls ++ pre ∧
        ∀ x ∈ pre, x.isDelete = false ∧ x.kind = obj.kind) →
      ∀ (f : Option MutateFn) (target : Obj), target.kind = obj.kind →
      (∀ (key : NamespacedName) (x : Obj), (mutateIfSet f key x).2.kind = x.kind) →
      ∃ extra, (RetryOnConflict DefaultRetrySteps (CreateOrPatch c f) target w1).2.calls =
          w.calls ++ extra ∧
        ∀ x ∈ extra, x.isDelete = false ∧ x.kind = obj.kind := by
    intro w1 ⟨pre, hpre, hpall⟩ f target htk hf
    obtain ⟨extra, hcalls, hall⟩ := OnError_calls c f obj.kind hf DefaultRetrySteps none target w1 htk
    refine ⟨pre ++ extra, ?_, ?_⟩
    · unfold RetryOnConflict
      rw [hcalls, hpre, List.append_assoc]
    · intro x hx
      rcases List.mem_append.mp hx with h | h
      · exact hpall x h
      · exact hall x h
  have typed : ∀ (k : Kind) (m : KObj k → MutateFn) (wrap : KObj k → Obj), obj.kind = k →
      (∀ t, (wrap t).kind = k) →
      (∀ t (key : NamespacedName) (x : Obj), (mutateIfSet (some (m t)) key x).2.kind = x.kind) →
      ∀ (mine : KObj k),
      ∃ extra, (match Get c k (ObjectKeyFromObject obj) w with
          | (.error err, w1) =>
              if !IsNotFound err then (some err, w1)
              else RetryOnConflict DefaultRetrySteps (CreateOrPatch c none) obj w1
          | (.ok exist, w1) =>
              RetryOnConflict DefaultRetrySteps (CreateOrPatch c (some (m mine))) (wrap exist)
                w1).2.calls = w.calls ++ extra ∧
        ∀ x ∈ extra, x.isDelete = false ∧ x.kind = obj.kind := by
    intro k m wrap hk hwrap hm mine
    have hgc : (Get c k (ObjectKeyFromObject obj) w).2.calls =
        w.calls ++ [Call.get k (ObjectKeyFromObject obj)] := rfl
    have hpre : ∀ x ∈ [Call.get k (ObjectKeyFromObject obj)],
        x.isDelete = false ∧ x.kind = obj.kind := by
      intro x hx
      simp only [List.mem_singleton] at hx
      subst hx
      exact ⟨rfl, hk.symm⟩
    rcases hg : Get c k (ObjectKeyFromObject obj) w with ⟨r, w1⟩
    rw [hg] at hgc
    simp only at hgc
    cases r with
    | error err =>
        simp only
        by_cases hnf : IsNotFound err = true
        · simp only [hnf, Bool.not_true, Bool.false_eq_true, if_false]
          exact plain w1 ⟨_, hgc, hpre⟩ none obj rfl hnone
        · simp only [hnf, Bool.not_false, if_true]
          exact ⟨_, hgc, hpre⟩
    | ok exist =>
        simp only
        exact plain w1 ⟨_, hgc, hpre⟩ (some (m mine)) (wrap exist) (by rw [hwrap, hk])
          (hm mine)
  cases obj with
  | deployment expect =>
      have h := typed .deployment (fun t => deploymentMutateFn t) Obj.deployment rfl
        (fun _ => rfl)
        (fun t => mutateIfSet_kind_of_withSpecOf _ (.deployment t) (deploymentMutateFn_eq t))
        expect
      simp only [doSync, doSyncTarget]
      rcases hg : Get c .deployment (ObjectKeyFromObject (.deployment expect)) w with ⟨r, w1⟩
      rw [hg] at h
      cases r with
      | error err =>
          simp only at h ⊢
          by_cases hnf : IsNotFound err = true
          · simp only [hnf, Bool.not_true, Bool.false_eq_true, if_false] at h ⊢
            exact h
          · simp only [hnf, Bool.not_false, if_true] at h ⊢
            exact h
      | ok exist => exact h
  | service expect =>
      have h := typed .service (fun t => serviceMutateFn t) Obj.service rfl
        (fun _ => rfl)
        (fun t => mutateIfSet_kind_of_withSpecOf _ (.service t) (serviceMutateFn_eq t))
        expect
      simp only [doSync, doSyncTarget]
      rcases hg : Get c .service (ObjectKeyFromObject (.service expect)) w with ⟨r, w1⟩
      rw [hg] at h
      cases r with
      | error err =>
          simp only at h ⊢
          by_cases hnf : IsNotFound err = true
          · simp only [hnf, Bool.not_true, Bool.false_eq_true, if_false] at h ⊢
            exact h
          · simp only [hnf, Bool.not_false, if_true] at h ⊢
            exact h
      | ok exist => exact h
  | secret s =>
      exact plain w ⟨[], by simp, by simp⟩ none _ rfl hnone
  | serviceAccount s =>
      exact plain w ⟨[], by simp, by simp⟩ none _ rfl hnone
  | clusterRole s =>
      exact plain w ⟨[], by simp, by simp⟩ none _ rfl hnone
  | clusterRoleBinding s =>
      exact plain w ⟨[], by simp, by simp⟩ none _ rfl hnone
theorem checkSecret_calls {σ : Type} (c : Client σ) (config : K8sGPT) (w : World σ) :
    ∃ extra, (checkSecret c config w).2.calls = w.calls ++ extra ∧
      ∀ x ∈ extra, x.isDelete = false ∧ x.kind = .secret := by
  unfold checkSecret
  cases hs : config.spec.ai.secret with
  | none => exact ⟨[], by simp, by simp⟩
  | some secret =>
      simp only
      have hgc : (Get c .secret ⟨config.ns, secret.name⟩ w).2.calls =
          w.calls ++ [Call.get .secret ⟨config.ns, secret.name⟩] := rfl
      have hall : ∀ x ∈ [Call.get .secret ⟨config.ns, secret.name⟩],
          x.isDelete = false ∧ x.kind = .secret := by
        intro x hx
        simp only [List.mem_singleton] at hx
        subst hx
        exact ⟨rfl, rfl⟩
      rcases hg : Get c .secret ⟨config.ns, secret.name⟩ w with ⟨r, w1⟩
      rw [hg] at hgc
      cases r with
      | error e => exact ⟨_, hgc, hall⟩
      | ok o => exact ⟨_, hgc, hall⟩

theorem syncLoop_sync_calls {σ : Type} (c : Client σ) (config : K8sGPT) (objs : List Obj) :
    objs.Pairwise (fun a b => a.kind.rank ≤ b.kind.rank) →
    ∀ w : World σ, ∃ extra, (syncLoop c config .SyncOp objs w).2.calls = w.calls ++ extra ∧
      (∀ x ∈ extra, x.isDelete = false ∧ (x.kind = .secret ∨ ∃ o ∈ objs, x.kind = o.kind)) ∧
      extra.Pairwise InDescriptorOrder := by
  induction objs with
  | nil =>
      intro _ w
      exact ⟨[], by simp [syncLoop], by simp, List.Pairwise.nil⟩
  | cons obj rest ih =>
      intro hsorted w
      obtain ⟨hhead, htail⟩ := List.pairwise_cons.mp hsorted
      obtain ⟨e1, hc1, ha1⟩ := checkSecret_calls c config w
      simp only [syncLoop]
      rcases hcs : checkSecret c config w with ⟨r1, w1⟩
      rw [hcs] at hc1
      simp only at hc1
      have ha1' : ∀ x ∈ e1, x.isDelete = false ∧
          (x.kind = .secret ∨ ∃ o ∈ obj :: rest, x.kind = o.kind) :=
        fun x hx => ⟨(ha1 x hx).1, Or.inl (ha1 x hx).2⟩
      have hp1 : e1.Pairwise InDescriptorOrder := by
        rw [List.pairwise_iff_forall_sublist]
        intro a b hab
        exact Or.inl (ha1 a (hab.subset (by simp))).2
      cases r1 with
      | some er => exact ⟨e1, hc1, ha1', hp1⟩
      | none =>
          simp only
          obtain ⟨e2, hc2, ha2⟩ := doSync_calls c obj w1
          -- the calls of the secret check and of the converge of `obj`
          have hseg : ∀ x ∈ e1 ++ e2, x.isDelete = false ∧
              (x.kind = .secret ∨ x.kind = obj.kind) := by
            intro x hx
            rcases List.mem_append.mp hx with h | h
            · exact ⟨(ha1 x h).1, Or.inl (ha1 x h).2⟩
            · exact ⟨(ha2 x h).1, Or.inr (ha2 x h).2⟩
          have hsegall : ∀ x ∈ e1 ++ e2, x.isDelete = false ∧
              (x.kind = .secret ∨ ∃ o ∈ obj :: rest, x.kind = o.kind) := by
            intro x hx
            rcases (hseg x hx).2 with h | h
            · exact ⟨(hseg x hx).1, Or.inl h⟩
            · exact ⟨(hseg x hx).1, Or.inr ⟨obj, by simp, h⟩⟩
          have hsegp : (e1 ++ e2).Pairwise InDescriptorOrder := by
            rw [List.pairwise_iff_forall_sublist]
            intro a b hab
            have ha := (hseg a (hab.subset (by simp))).2
            have hb := (hseg b (hab.subset (by simp))).2
            rcases ha with ha | ha
            · exact Or.inl ha
            · rcases hb with hb | hb
              · exact Or.inr (Or.inl hb)
              · exact Or.inr (Or.inr (by rw [ha, hb]))
          have hcseg : (doSync c obj w1).2.calls = w.calls ++ (e1 ++ e2) := by
            rw [hc2, hc1, List.append_assoc]
          have continue_ : ∀ w2 : World σ, w2.calls = w.calls ++ (e1 ++ e2) →
              ∃ extra, (syncLoop c config .SyncOp rest w2).2.calls = w.calls ++ extra ∧
                (∀ x ∈ extra, x.isDelete = false ∧
                  (x.kind = .secret ∨ ∃ o ∈ obj :: rest, x.kind = o.kind)) ∧
                extra.Pairwise InDescriptorOrder := by
            intro w2 hw2
            obtain ⟨e3, hc3, ha3, hp3⟩ := ih htail w2
            refine ⟨(e1 ++ e2) ++ e3, by rw [hc3, hw2, List.append_assoc], ?_, ?_⟩
            · intro x hx
              rcases List.mem_append.mp hx with h | h
              · exact hsegall x h
              · obtain ⟨hd, hk⟩ := ha3 x h
                refine ⟨hd, ?_⟩
                rcases hk with hk | ⟨o, ho, hk⟩
                · exact Or.inl hk
                · exact Or.inr ⟨o, List.mem_cons_of_mem _ ho, hk⟩
            · rw [List.pairwise_append]
              refine ⟨hsegp, hp3, ?_⟩
              intro a ha b hb
              rcases (hseg a ha).2 with hka | hka
              · exact Or.inl hka
              · rcases (ha3 b hb).2 with hkb | ⟨o, ho, hkb⟩
                · exact Or.inr (Or.inl hkb)
                · exact Or.inr (Or.inr (by rw [hka, hkb]; exact hhead o ho))
          rcases hds : doSync c obj w1 with ⟨r2, w2⟩
          rw [hds] at hcseg
          simp only at hcseg
          cases r2 with
          | none => exact continue_ w2 hcseg
          | some err =>
              simp only
              by_cases hae : IsAlreadyExists err = true
              · simp only [hae, Bool.not_true, Bool.false_eq_true, if_false]
                exact continue_ w2 hcseg
              · simp only [hae, Bool.not_false, if_true]
                exact ⟨e1 ++ e2, hcseg, hsegall, hsegp⟩

theorem syncLoop_destroy_calls {σ : Type} (c : Client σ) (config : K8sGPT) (objs : List Obj) :
    ∀ w : World σ, ∃ extra, (syncLoop c config .DestroyOp objs w).2.calls = w.calls ++ extra ∧
      ∀ x ∈ extra, x.isDelete = true := by
  induction objs with
  | nil =>
      intro w
      exact ⟨[], by simp [syncLoop], by simp⟩
  | cons obj rest ih =>
      intro w
      have hdc : (Delete c obj w).2.calls = w.calls ++ [Call.delete obj] := rfl
      simp only [syncLoop]
      rcases hd : Delete c obj w with ⟨r, w1⟩
      rw [hd] at hdc
      simp only at hdc
      have hone : ∀ x ∈ [Call.delete obj], x.isDelete = true := by
        intro x hx
        simp only [List.mem_singleton] at hx
        subst hx
        rfl
      have continue_ : ∃ extra, (syncLoop c config .DestroyOp rest w1).2.calls = w.calls ++ extra ∧
          ∀ x ∈ extra, x.isDelete = true := by
        obtain ⟨e2, hc2, ha2⟩ := ih w1
        refine ⟨[Call.delete obj] ++ e2, by rw [hc2, hdc, List.append_assoc], ?_⟩
        intro x hx
        rcases List.mem_append.mp hx with h | h
        · exact hone x h
        · exact ha2 x h
      cases r with
      | none => exact continue_
      | some err =>
          simp only
          by_cases hnf : IsNotFound err = true
          · simp only [hnf, Bool.not_true, Bool.false_eq_true, if_false]
            exact continue_
          · simp only [hnf, Bool.not_false, if_true]
            exact ⟨_, hdc, hone⟩

/-- With either operation `Sync` is the build followed, when the build succeeds,
by the loop over five descriptors listed in rank order. -/
theorem Sync_eq_build_then_loop {σ : Type} (c : Client σ) (config : K8sGPT) (i : SyncOrDestroy)
    (w : World σ) :
    (∃ e, Sync c config i w =
        (some e, (GetDeployment config config.spec.kubeconfig.isSome c
          ("k8sgpt-" ++ config.ns) w).2)) ∨
      ∃ objs : List Obj, objs.Pairwise (fun a b => a.kind.rank ≤ b.kind.rank) ∧
        Sync c config i w =
          syncLoop c config i objs
            (GetDeployment config config.spec.kubeconfig.isSome c
              ("k8sgpt-" ++ config.ns) w).2 := by
  rcases hd : GetDeployment config config.spec.kubeconfig.isSome c ("k8sgpt-" ++ config.ns) w with
    ⟨r, w1⟩
  cases r with
  | error e =>
      refine Or.inl ⟨e, ?_⟩
      rw [Sync_build_error c config i w e (by rw [hd]), hd]
  | ok deployment =>
      obtain ⟨sa, svc, cr, crb, hsa, hsvc, hcr, hcrb⟩ := builders_succeed config
        ("k8sgpt-" ++ config.ns) ("k8sgpt-" ++ config.ns ++ "-clusterrole" ++ "-binding")
        ("k8sgpt-" ++ config.ns ++ "-clusterrole")
      refine Or.inr ⟨_, ?_, Sync_build_ok c config i w w1 sa svc deployment cr crb hsa hsvc hd
        hcr hcrb⟩
      simp [Obj.kind, Kind.rank]

theorem isGet_not_delete (x : Call) (h : x.isGet = true) :
    x.isDelete = false ∧ x.isCreateOrPatch = false := by
  cases x <;> simp_all [Call.isGet, Call.isDelete, Call.isCreateOrPatch]

theorem isDelete_not_createOrPatch (x : Call) (h : x.isDelete = true) :
    x.isCreateOrPatch = false := by
  cases x <;> simp_all [Call.isDelete, Call.isCreateOrPatch]

/-- C19: for every client, config and world, every call `Sync` issues with
`SyncOp` is not a delete (whether the pass succeeds or fails part-way, so nothing
converged earlier is removed), and every call `Sync` issues with `DestroyOp` is
neither a create nor a patch. -/
theorem Sync_never_deletes_and_destroy_never_writes {σ : Type} (c : Client σ) (config : K8sGPT)
    (w : World σ) :
    (∃ extra, (Sync c config .SyncOp w).2.calls = w.calls ++ extra ∧
        ∀ x ∈ extra, x.isDelete = false) ∧
      (∃ extra, (Sync c config .DestroyOp w).2.calls = w.calls ++ extra ∧
        ∀ x ∈ extra, x.isCreateOrPatch = false) := by
  obtain ⟨b, hb, hball⟩ := GetDeployment_onlyGets config config.spec.kubeconfig.isSome c
    ("k8sgpt-" ++ config.ns) w
  constructor
  · rcases Sync_eq_build_then_loop c config .SyncOp w with ⟨e, he⟩ | ⟨objs, hsorted, he⟩
    · rw [he]
      exact ⟨b, hb, fun x hx => (isGet_not_delete x (hball x hx)).1⟩
    · rw [he]
      obtain ⟨extra, hc, ha, _⟩ := syncLoop_sync_calls c config objs hsorted
        (GetDeployment config config.spec.kubeconfig.isSome c ("k8sgpt-" ++ config.ns) w).2
      refine ⟨b ++ extra, by rw [hc, hb, List.append_assoc], ?_⟩
      intro x hx
      rcases List.mem_append.mp hx with h | h
      · exact (isGet_not_delete x (hball x h)).1
      · exact (ha x h).1
  · rcases Sync_eq_build_then_loop c config .DestroyOp w with ⟨e, he⟩ | ⟨objs, _, he⟩
    · rw [he]
      exact ⟨b, hb, fun x hx => (isGet_not_delete x (hball x hx)).2⟩
    · rw [he]
      obtain ⟨extra, hc, ha⟩ := syncLoop_destroy_calls c config objs
        (GetDeployment config config.spec.kubeconfig.isSome c ("k8sgpt-" ++ config.ns) w).2
      refine ⟨b ++ extra, by rw [hc, hb, List.append_assoc], ?_⟩
      intro x hx
      rcases List.mem_append.mp hx with h | h
      · exact (isGet_not_delete x (hball x h)).2
      · exact isDelete_not_createOrPatch x (ha x h)
theorem convergedBefore_of_pairwise (early late : Kind) (calls : List Call)
    (he : early ≠ .secret) (hl : late ≠ .secret) (hrank : early.rank < late.rank)
    (hp : calls.Pairwise InDescriptorOrder) : convergedBefore early late calls = true := by
  unfold convergedBefore
  induction calls with
  | nil => rfl
  | cons x xs ih =>
      obtain ⟨hhead, htail⟩ := List.pairwise_cons.mp hp
      by_cases hx : x.kind = late
      · have hne : early ≠ late := by
          intro h; rw [h] at hrank; exact Nat.lt_irrefl _ hrank
        simp only [List.dropWhile, hx, ne_eq, not_true_eq_false, decide_False, List.all_cons,
          decide_not, Bool.and_eq_true, Bool.not_eq_true', decide_eq_false_iff_not,
          List.all_eq_true]
        refine ⟨fun h => hne h.symm, ?_⟩
        intro y hy hk
        rcases hhead y hy with h | h | h
        · exact hl (hx ▸ h)
        · exact he (hk ▸ h)
        · rw [hx, hk] at h
          exact Nat.lt_irrefl _ (Nat.lt_of_lt_of_le hrank h)
      · simp only [List.dropWhile, ne_eq, hx, not_false_eq_true, decide_True]
        exact ih htail

/-- C16, counterexample: in the pass of the sample config over an empty
in-memory store (a pass that succeeds), the ClusterRole and the
ClusterRoleBinding are not converged before the Deployment: calls on them follow
the first call on the Deployment. -/
theorem access_control_is_not_converged_before_workload :
    (Sync memClient sampleConfig .SyncOp (memWorld [] [])).1 = none ∧
      convergedBefore .clusterRole .deployment
        (Sync memClient sampleConfig .SyncOp (memWorld [] [])).2.calls = false ∧
      convergedBefore .clusterRoleBinding .deployment
        (Sync memClient sampleConfig .SyncOp (memWorld [] [])).2.calls = false := by
  decide

/-! ## What converge submits for an existing object -/

theorem withSpecOf_eq_of_withoutStatus (d o : Obj)
    (h : o.withoutStatus = (withSpecOf d o).withoutStatus) : withSpecOf d o = o := by
  cases d <;> cases o <;> simp_all [withSpecOf, Obj.withoutStatus] <;>
    (rename_i e x; rw [← h])

theorem OnError_mem_patch_calls (d o : Obj) (f : Option MutateFn) (objs : List Obj)
    (hfind : objs.find? (sameIdentity d.kind (ObjectKeyFromObject d)) = some o)
    (hmutf : ∀ x : Obj, ObjectKeyFromObject x = ObjectKeyFromObject d →
      mutateIfSet f (ObjectKeyFromObject d) x = (none, withSpecOf d x))
    (hdiff : o.withoutStatus ≠ (withSpecOf d o).withoutStatus)
    (steps : Nat) :
    ∀ (lastErr : Option Error) (target : Obj) (faults : List Error) (calls : List Call),
      target.kind = d.kind → ObjectKeyFromObject target = ObjectKeyFromObject d →
      ∃ extra, (OnError IsConflict (CreateOrPatch memClient f) steps lastErr target
          ⟨⟨objs, faults⟩, calls⟩).2.calls = calls ++ extra ∧
        ∀ x ∈ extra, x.isGet = true ∨ x = Call.patch (withSpecOf d o) := by
  have hokey : ObjectKeyFromObject o = ObjectKeyFromObject d :=
    (find_some_sameIdentity _ _ objs o hfind).2
  have hokind : o.kind = d.kind := (find_some_sameIdentity _ _ objs o hfind).1
  have hatt : ∀ x ∈ [Call.get d.kind (ObjectKeyFromObject d), Call.patch (withSpecOf d o)],
      x.isGet = true ∨ x = Call.patch (withSpecOf d o) := by
    intro x hx
    simp only [List.mem_cons, List.mem_singleton, List.not_mem_nil, or_false] at hx
    rcases hx with hx | hx
    · subst hx; exact Or.inl rfl
    · exact Or.inr hx
  induction steps with
  | zero =>
      intro lastErr target faults calls _ _
      exact ⟨[], by simp [OnError], by simp⟩
  | succ steps ih =>
      intro lastErr target faults calls htk htkey
      have hfind1 : objs.find? (sameIdentity target.kind (ObjectKeyFromObject target)) = some o := by
        rw [htk, htkey]; exact hfind
      have hmut1 : mutateIfSet f (ObjectKeyFromObject target) o = (none, withSpecOf d o) := by
        rw [htkey]; exact hmutf o hokey
      cases faults with
      | nil =>
          have h := CreateOrPatch_mem_patch_ok f target o (withSpecOf d o) objs calls hfind1 hmut1
            hdiff (by rw [withSpecOf_kind, hokind, htk]) (by rw [withSpecOf_key, hokey, htkey])
          rw [htk, htkey] at h
          exact ⟨_, by simp only [OnError, h], hatt⟩
      | cons e rest =>
          have h := CreateOrPatch_mem_patch_fault f target o (withSpecOf d o) objs e rest calls
            hfind1 hmut1 hdiff
          rw [htk, htkey] at h
          simp only [OnError, h]
          by_cases hc : IsConflict e = true
          · simp only [hc, if_true]
            obtain ⟨extra, hcalls, hall⟩ := ih (some e) (withSpecOf d o) rest
              (calls ++ [Call.get d.kind (ObjectKeyFromObject d), Call.patch (withSpecOf d o)])
              (by rw [withSpecOf_kind, hokind]) (by rw [withSpecOf_key, hokey])
            refine ⟨[Call.get d.kind (ObjectKeyFromObject d), Call.patch (withSpecOf d o)] ++ extra,
              by rw [hcalls, List.append_assoc], ?_⟩
            intro x hx
            rcases List.mem_append.mp hx with hx | hx
            · exact hatt x hx
            · exact hall x hx
          · simp only [hc, if_false]
            exact ⟨_, rfl, hatt⟩

/-- C17: for a Deployment or Service descriptor whose object exists in the
in-memory store (any stored objects, any script of faults): every call `doSync`
issues is a get or a patch submitting one and the same object, the stored object
with only its `Spec` replaced by the descriptor's (metadata, hence labels,
annotations and owner references, and status are the stored ones); and when
`doSync` succeeds that object is what the store holds under the identity. -/
theorem patch_submits_stored_object_with_spec_replaced (d o : Obj) (objs : List Obj)
    (faults : List Error) (calls : List Call)
    (hkind : d.kind = .deployment ∨ d.kind = .service)
    (hfind : objs.find? (sameIdentity d.kind (ObjectKeyFromObject d)) = some o) :
    (∃ extra, (doSync memClient d ⟨⟨objs, faults⟩, calls⟩).2.calls = calls ++ extra ∧
        ∀ x ∈ extra, x.isGet = true ∨ x = Call.patch (withSpecOf d o)) ∧
      ((doSync memClient d ⟨⟨objs, faults⟩, calls⟩).1 = none →
        (doSync memClient d ⟨⟨objs, faults⟩, calls⟩).2.store.objs.find?
          (sameIdentity d.kind (ObjectKeyFromObject d)) = some (withSpecOf d o)) ∧
      ((∃ (expect stored : Deployment), d = .deployment expect ∧ o = .deployment stored ∧
          withSpecOf d o = .deployment
            { objectMeta := stored.objectMeta, spec := expect.spec, status := stored.status }) ∨
        (∃ (expect stored : Service), d = .service expect ∧ o = .service stored ∧
          withSpecOf d o = .service
            { objectMeta := stored.objectMeta, spec := expect.spec, status := stored.status })) := by
  obtain ⟨hokind, hokey⟩ := find_some_sameIdentity _ _ objs o hfind
  have hshape : (∃ (expect stored : Deployment), d = .deployment expect ∧ o = .deployment stored ∧
          withSpecOf d o = .deployment
            { objectMeta := stored.objectMeta, spec := expect.spec, status := stored.status }) ∨
        (∃ (expect stored : Service), d = .service expect ∧ o = .service stored ∧
          withSpecOf d o = .service
            { objectMeta := stored.objectMeta, spec := expect.spec, status := stored.status }) := by
    cases d <;> cases o <;> simp_all [Obj.kind, withSpecOf]
  refine ⟨?_, ?_, hshape⟩
  · by_cases hsame : o.withoutStatus = (withSpecOf d o).withoutStatus
    · rw [doSync_mem_stable d o objs faults calls hfind hsame]
      refine ⟨targetGets d ++ [Call.get d.kind (ObjectKeyFromObject d)], by simp, ?_⟩
      intro x hx
      rcases List.mem_append.mp hx with h | h
      · exact Or.inl (targetGets_isGet d x h)
      · simp only [List.mem_singleton] at h
        subst h
        exact Or.inl rfl
    · obtain ⟨target, f, ht, htk, htkey, hmutf⟩ :=
        doSyncTarget_mem_found d objs faults calls o hfind
      obtain ⟨extra, hcalls, hall⟩ := OnError_mem_patch_calls d o f objs hfind hmutf hsame 5 none
        target faults (calls ++ targetGets d) htk htkey
      refine ⟨targetGets d ++ extra, ?_, ?_⟩
      · simp only [doSync, ht, RetryOnConflict, DefaultRetrySteps]
        rw [hcalls, List.append_assoc]
      · intro x hx
        rcases List.mem_append.mp hx with h | h
        · exact Or.inl (targetGets_isGet d x h)
        · exact hall x h
  · intro hres
    by_cases hsame : o.withoutStatus = (withSpecOf d o).withoutStatus
    · rw [doSync_mem_stable d o objs faults calls hfind hsame]
      simp only
      rw [withSpecOf_eq_of_withoutStatus d o hsame]
      exact hfind
    · obtain ⟨target, f, ht, htk, htkey, hmutf⟩ :=
        doSyncTarget_mem_found d objs faults calls o hfind
      have hrun : doSync memClient d ⟨⟨objs, faults⟩, calls⟩ =
          OnError IsConflict (CreateOrPatch memClient f) 5 none target
            ⟨⟨objs, faults⟩, calls ++ targetGets d⟩ := by
        simp only [doSync, ht, RetryOnConflict, DefaultRetrySteps]
      have hstore := OnError_mem_patch_success d o f objs hfind hmutf hsame 5 none target faults
        (calls ++ targetGets d) htk htkey (Or.inl (by decide)) (by rw [← hrun]; exact hres)
      rw [← hrun] at hstore
      rw [hstore]
      have hfind2 := find_replaceStored (withSpecOf d o) objs o
        (by rw [withSpecOf_kind, withSpecOf_key, hokind, hokey]; exact hfind)
      rw [withSpecOf_kind, withSpecOf_key, hokind, hokey] at hfind2
      exact hfind2

/-- A witness of C17: the sample deployment converged onto the stored deployment
(three replicas, a label, a uid, a resource version, one available replica) with
one conflict scripted. -/
theorem patch_submits_stored_object_with_spec_replaced_witness :
    (∃ extra, (doSync memClient (.deployment sampleDeployment)
          ⟨⟨[.deployment storedDeployment], [conflictError]⟩, []⟩).2.calls = [] ++ extra ∧
        ∀ x ∈ extra, x.isGet = true ∨
          x = Call.patch (withSpecOf (.deployment sampleDeployment) (.deployment storedDeployment))) ∧
      ((doSync memClient (.deployment sampleDeployment)
          ⟨⟨[.deployment storedDeployment], [conflictError]⟩, []⟩).1 = none →
        (doSync memClient (.deployment sampleDeployment)
          ⟨⟨[.deployment storedDeployment], [conflictError]⟩, []⟩).2.store.objs.find?
          (sameIdentity .deployment ⟨"ns1", "k8sgpt-sample"⟩) =
            some (withSpecOf (.deployment sampleDeployment) (.deployment storedDeployment))) ∧
      ((∃ (expect stored : Deployment), Obj.deployment sampleDeployment = .deployment expect ∧
          Obj.deployment storedDeployment = .deployment stored ∧
          withSpecOf (.deployment sampleDeployment) (.deployment storedDeployment) = .deployment
            { objectMeta := stored.objectMeta, spec := expect.spec, status := stored.status }) ∨
        (∃ (expect stored : Service), Obj.deployment sampleDeployment = .service expect ∧
          Obj.deployment storedDeployment = .service stored ∧
          withSpecOf (.deployment sampleDeployment) (.deployment storedDeployment) = .service
            { objectMeta := stored.objectMeta, spec := expect.spec, status := stored.status })) :=
  patch_submits_stored_object_with_spec_replaced (.deployment sampleDeployment)
    (.deployment storedDeployment) [.deployment storedDeployment] [conflictError] []
    (Or.inl rfl) rfl
/-! ## Propagation of store errors -/

theorem Sync_at_descriptor {σ : Type} (c : Client σ) (config : K8sGPT) (i : SyncOrDestroy)
    (w w1 : World σ) (sa : ServiceAccount) (svc : Service) (deployment : Deployment)
    (cr : ClusterRole) (crb : ClusterRoleBinding) (before after : List Obj) (obj : Obj)
    (hsa : GetServiceAccount config ("k8sgpt-" ++ config.ns) = .ok sa)
    (hsvc : GetService config = .ok svc)
    (hd : GetDeployment config config.spec.kubeconfig.isSome c ("k8sgpt-" ++ config.ns) w =
      (.ok deployment, w1))
    (hcr : GetClusterRole config ("k8sgpt-" ++ config.ns) = .ok cr)
    (hcrb : GetClusterRoleBinding config ("k8sgpt-" ++ config.ns)
      ("k8sgpt-" ++ config.ns ++ "-clusterrole" ++ "-binding")
      ("k8sgpt-" ++ config.ns ++ "-clusterrole") = .ok crb)
    (hsplit : [Obj.serviceAccount sa, .service svc, .deployment deployment, .clusterRole cr,
      .clusterRoleBinding crb] = before ++ obj :: after)
    (hbefore : (syncLoop c config i before w1).1 = none) :
    Sync c config i w = syncLoop c config i (obj :: after) (syncLoop c config i before w1).2 := by
  rw [Sync_build_ok c config i w w1 sa svc deployment cr crb hsa hsvc hd hcr hcrb, hsplit,
    syncLoop_append c config i before (obj :: after) w1 (syncLoop c config i before w1).2
      (Prod.ext hbefore rfl)]

theorem addSecretAsEnvToDeployment_unfetchable {σ : Type} (secretName secretKey : String)
    (config : K8sGPT) (c : Client σ) (d : Deployment) (w : World σ) (e0 : Error)
    (hget : (c.get .secret ⟨config.ns, secretName⟩ w.store).1 = .error e0) :
    (addSecretAsEnvToDeployment secretName secretKey config c d w).1 =
      some secretMissingError := by
  simp only [addSecretAsEnvToDeployment, Get, hget]
  rfl

theorem applyAmazonBedrock_unfetchable {σ : Type} (config : K8sGPT) (c : Client σ)
    (d : Deployment) (w : World σ) (sec : SecretRef) (e0 : Error)
    (hb : config.spec.ai.backend = AmazonBedrock) (hs : config.spec.ai.secret = some sec)
    (hget : (c.get .secret ⟨config.ns, sec.name⟩ w.store).1 = .error e0) :
    (applyAmazonBedrock config c d w).1 = .error secretMissingError := by
  have h := addSecretAsEnvToDeployment_unfetchable sec.name "AWS_ACCESS_KEY_ID" config c d w e0
    hget
  unfold applyAmazonBedrock
  rw [if_pos hb]
  simp only [hs]
  rcases hr : addSecretAsEnvToDeployment sec.name "AWS_ACCESS_KEY_ID" config c d w with
    ⟨r, d1, w1⟩
  rw [hr] at h
  simp only at h
  subst h
  rfl

theorem applyIBMWatsonxAI_unfetchable {σ : Type} (config : K8sGPT) (c : Client σ)
    (d : Deployment) (w : World σ) (sec : SecretRef) (e0 : Error)
    (hb : config.spec.ai.backend = IBMWatsonxAI) (hs : config.spec.ai.secret = some sec)
    (hget : (c.get .secret ⟨config.ns, sec.name⟩ w.store).1 = .error e0) :
    (applyIBMWatsonxAI config c d w).1 = .error secretMissingError := by
  have h := addSecretAsEnvToDeployment_unfetchable sec.name "K8SGPT_PROVIDER_ID" config c d w e0
    hget
  unfold applyIBMWatsonxAI
  rw [if_pos hb]
  simp only [hs]
  rcases hr : addSecretAsEnvToDeployment sec.name "K8SGPT_PROVIDER_ID" config c d w with
    ⟨r, d1, w1⟩
  rw [hr] at h
  simp only at h
  subst h
  rfl

/-- With backend amazonbedrock or ibmwatsonxai and a credential secret whose
lookup fails in the store state in which the build starts, `GetDeployment`
fails. -/
theorem GetDeployment_unfetchable {σ : Type} (config : K8sGPT) (outOfClusterMode : Bool)
    (c : Client σ) (serviceAccountName : String) (w : World σ) (sec : SecretRef) (e0 : Error)
    (hb : config.spec.ai.backend = AmazonBedrock ∨ config.spec.ai.backend = IBMWatsonxAI)
    (hs : config.spec.ai.secret = some sec)
    (hget : (c.get .secret ⟨config.ns, sec.name⟩ w.store).1 = .error e0) :
    ∃ e, (GetDeployment config outOfClusterMode c serviceAccountName w).1 = .error e := by
  have hne : config.spec.ai.backend ≠ AzureOpenAI := by
    rcases hb with h | h <;> rw [h] <;> decide
  by_cases hEngine : config.spec.ai.engine = ""
  · unfold GetDeployment
    simp only [hEngine, ne_eq, not_true_eq_false, false_and, if_false]
    rcases hb with hb | hb
    · have h := applyAmazonBedrock_unfetchable config c
        (applyProxyEndpoint config (deploymentBeforeEngine config outOfClusterMode
          serviceAccountName)) w sec e0 hb hs hget
      rcases hr : applyAmazonBedrock config c
        (applyProxyEndpoint config (deploymentBeforeEngine config outOfClusterMode
          serviceAccountName)) w with ⟨r, w1⟩
      rw [hr] at h
      simp only at h
      subst h
      exact ⟨_, rfl⟩
    · have hnb : config.spec.ai.backend ≠ AmazonBedrock := by rw [hb]; decide
      have hab : applyAmazonBedrock config c
          (applyProxyEndpoint config (deploymentBeforeEngine config outOfClusterMode
            serviceAccountName)) w =
          (.ok (applyProxyEndpoint config (deploymentBeforeEngine config outOfClusterMode
            serviceAccountName)), w) := by
        unfold applyAmazonBedrock
        rw [if_neg hnb]
      rw [hab]
      exact ⟨_, applyIBMWatsonxAI_unfetchable config c _ w sec e0 hb hs hget⟩
  · exact ⟨_, by rw [GetDeployment_engine_error config outOfClusterMode c serviceAccountName w
      hEngine hne]⟩

/-- With backend amazonbedrock or ibmwatsonxai, no engine and a credential secret
whose lookup fails in the store state in which the build starts, the error
`GetDeployment` returns is the fixed missing-secret error. -/
theorem GetDeployment_unfetchable_missing {σ : Type} (config : K8sGPT) (outOfClusterMode : Bool)
    (c : Client σ) (serviceAccountName : String) (w : World σ) (sec : SecretRef) (e0 : Error)
    (hb : config.spec.ai.backend = AmazonBedrock ∨ config.spec.ai.backend = IBMWatsonxAI)
    (hEngine : config.spec.ai.engine = "")
    (hs : config.spec.ai.secret = some sec)
    (hget : (c.get .secret ⟨config.ns, sec.name⟩ w.store).1 = .error e0) :
    (GetDeployment config outOfClusterMode c serviceAccountName w).1 =
      .error secretMissingError := by
  unfold GetDeployment
  simp only [hEngine, ne_eq, not_true_eq_false, false_and, if_false]
  rcases hb with hb | hb
  · have h := applyAmazonBedrock_unfetchable config c
      (applyProxyEndpoint config (deploymentBeforeEngine config outOfClusterMode
        serviceAccountName)) w sec e0 hb hs hget
    rcases hr : applyAmazonBedrock config c
      (applyProxyEndpoint config (deploymentBeforeEngine config outOfClusterMode
        serviceAccountName)) w with ⟨r, w1⟩
    rw [hr] at h
    simp only at h
    subst h
    rfl
  · have hnb : config.spec.ai.backend ≠ AmazonBedrock := by rw [hb]; decide
    have hab : applyAmazonBedrock config c
        (applyProxyEndpoint config (deploymentBeforeEngine config outOfClusterMode
          serviceAccountName)) w =
        (.ok (applyProxyEndpoint config (deploymentBeforeEngine config outOfClusterMode
          serviceAccountName)), w) := by
      unfold applyAmazonBedrock
      rw [if_neg hnb]
    rw [hab]
    exact applyIBMWatsonxAI_unfetchable config c _ w sec e0 hb hs hget

/-- C18, counterexample: with backend amazonbedrock and a secret reference, over
a store whose gets answer an internal error, the secret lookup made while
building the deployment returns the internal error, yet `Sync` returns the fixed
missing-secret error, not the error the store returned. -/
theorem build_lookup_error_is_replaced :
    (failingGetClient.get .secret ⟨"ns1", "ai-secret"⟩ ⟨[], []⟩).1 = .error internalError ∧
      (Sync failingGetClient sampleBedrock .SyncOp (memWorld [] [])).1 =
        some secretMissingError ∧
      (Sync failingGetClient sampleBedrock .SyncOp (memWorld [] [])).1 ≠ some internalError :=
  ⟨rfl, by decide, by decide⟩

/-- C18, amended: at each level of a `Sync` pass the error of a store call is
returned unmodified, for every client; each part assumes only that the pass
reaches the call it speaks of (for the loop: the descriptors before `obj` were
processed without error by the same operation). `CreateOrPatch` returns the error of its
get (unless not-found), of its create and of its patch; the retry loop returns at
once an attempt's error that is not a conflict; `doSync` returns the error of its
own get of a Deployment or Service (unless not-found); and, at any descriptor
reached by the loop, `Sync` returns the error of the secret check, the error of
the converge (unless already-exists) and the error of the delete (unless
not-found), in the world that call left. An error of the secret lookups made
while building the deployment is replaced by the fixed missing-secret error,
and a pass (in any world, with either operation) whose build reaches such a
lookup and finds it failing ends with that fixed error. -/
theorem loop_store_errors_are_returned_unmodified {σ : Type} (c : Client σ) (config : K8sGPT)
    (w w1 : World σ) (sa : ServiceAccount) (svc : Service) (deployment : Deployment)
    (cr : ClusterRole) (crb : ClusterRoleBinding) (before after : List Obj) (obj : Obj)
    (hsa : GetServiceAccount config ("k8sgpt-" ++ config.ns) = .ok sa)
    (hsvc : GetService config = .ok svc)
    (hd : GetDeployment config config.spec.kubeconfig.isSome c ("k8sgpt-" ++ config.ns) w =
      (.ok deployment, w1))
    (hcr : GetClusterRole config ("k8sgpt-" ++ config.ns) = .ok cr)
    (hcrb : GetClusterRoleBinding config ("k8sgpt-" ++ config.ns)
      ("k8sgpt-" ++ config.ns ++ "-clusterrole" ++ "-binding")
      ("k8sgpt-" ++ config.ns ++ "-clusterrole") = .ok crb)
    (hsplit : [Obj.serviceAccount sa, .service svc, .deployment deployment, .clusterRole cr,
      .clusterRoleBinding crb] = before ++ obj :: after) :
    -- the secret check before the converge of `obj`
    (∀ (secret : SecretRef) (e : Error), (syncLoop c config .SyncOp before w1).1 = none →
      config.spec.ai.secret = some secret →
      (Get c .secret ⟨config.ns, secret.name⟩ (syncLoop c config .SyncOp before w1).2).1 =
        .error e →
      Sync c config .SyncOp w =
        (some e,
          (Get c .secret ⟨config.ns, secret.name⟩ (syncLoop c config .SyncOp before w1).2).2)) ∧
    -- the converge of `obj`
    (∀ e : Error, (syncLoop c config .SyncOp before w1).1 = none →
      (checkSecret c config (syncLoop c config .SyncOp before w1).2).1 = none →
      (doSync c obj (checkSecret c config (syncLoop c config .SyncOp before w1).2).2).1 = some e →
      IsAlreadyExists e = false →
      Sync c config .SyncOp w =
        (some e, (doSync c obj (checkSecret c config (syncLoop c config .SyncOp before w1).2).2).2)) ∧
    -- the delete of `obj`
    (∀ e : Error, (syncLoop c config .DestroyOp before w1).1 = none →
      (Delete c obj (syncLoop c config .DestroyOp before w1).2).1 = some e →
      IsNotFound e = false →
      Sync c config .DestroyOp w =
        (some e, (Delete c obj (syncLoop c config .DestroyOp before w1).2).2)) ∧
    -- the get of `doSync` itself
    (∀ (w2 : World σ) (e : Error), obj.kind = .deployment ∨ obj.kind = .service →
      (Get c obj.kind (ObjectKeyFromObject obj) w2).1 = .error e → IsNotFound e = false →
      doSync c obj w2 = (some e, (Get c obj.kind (ObjectKeyFromObject obj) w2).2)) ∧
    -- an attempt under the retry loop
    (∀ (fn : Obj → World σ → Option (Error × Obj) × World σ) (steps : Nat)
      (lastErr : Option Error) (target o1 : Obj) (w2 w3 : World σ) (e : Error),
      fn target w2 = (some (e, o1), w3) → IsConflict e = false →
      OnError IsConflict fn (steps + 1) lastErr target w2 = (some e, w3)) ∧
    -- the get, the create and the patch of an attempt
    (∀ (f : Option MutateFn) (target : Obj) (w2 : World σ) (e : Error),
      (GetInto c (ObjectKeyFromObject target) target w2).1 = some e → IsNotFound e = false →
      CreateOrPatch c f target w2 =
        (some (e, target), (GetInto c (ObjectKeyFromObject target) target w2).2.2)) ∧
    (∀ (f : Option MutateFn) (target o1 : Obj) (w2 : World σ) (e0 e : Error),
      (GetInto c (ObjectKeyFromObject target) target w2).1 = some e0 → IsNotFound e0 = true →
      mutateIfSet f (ObjectKeyFromObject target)
        (GetInto c (ObjectKeyFromObject target) target w2).2.1 = (none, o1) →
      (Create c o1 (GetInto c (ObjectKeyFromObject target) target w2).2.2).1 = some e →
      CreateOrPatch c f target w2 =
        (some (e, o1), (Create c o1 (GetInto c (ObjectKeyFromObject target) target w2).2.2).2)) ∧
    (∀ (f : Option MutateFn) (target o1 : Obj) (w2 : World σ) (e : Error),
      (GetInto c (ObjectKeyFromObject target) target w2).1 = none →
      mutateIfSet f (ObjectKeyFromObject target)
        (GetInto c (ObjectKeyFromObject target) target w2).2.1 = (none, o1) →
      (GetInto c (ObjectKeyFromObject target) target w2).2.1.withoutStatus ≠ o1.withoutStatus →
      (Patch c o1 (GetInto c (ObjectKeyFromObject target) target w2).2.1
        (GetInto c (ObjectKeyFromObject target) target w2).2.2).1 = some e →
      CreateOrPatch c f target w2 =
        (some (e, o1),
          (Patch c o1 (GetInto c (ObjectKeyFromObject target) target w2).2.1
            (GetInto c (ObjectKeyFromObject target) target w2).2.2).2)) ∧
    -- the lookups of the build
    (∀ (secretName secretKey : String) (d : Deployment) (w2 : World σ) (e : Error),
      (Get c .secret ⟨config.ns, secretName⟩ w2).1 = .error e →
      addSecretAsEnvToDeployment secretName secretKey config c d w2 =
        (some secretMissingError, d, (Get c .secret ⟨config.ns, secretName⟩ w2).2)) ∧
    -- a pass whose build reaches a lookup that fails
    (∀ (i : SyncOrDestroy) (w0 : World σ) (secret : SecretRef) (e : Error),
      config.spec.ai.backend = AmazonBedrock ∨ config.spec.ai.backend = IBMWatsonxAI →
      config.spec.ai.engine = "" → config.spec.ai.secret = some secret →
      (c.get .secret ⟨config.ns, secret.name⟩ w0.store).1 = .error e →
      (Sync c config i w0).1 = some secretMissingError) := by
  have hS := Sync_at_descriptor c config .SyncOp w w1 sa svc deployment cr crb before after obj
    hsa hsvc hd hcr hcrb hsplit
  have hD := Sync_at_descriptor c config .DestroyOp w w1 sa svc deployment cr crb before after obj
    hsa hsvc hd hcr hcrb hsplit
  refine ⟨?_, ?_, ?_, ?_, ?_, ?_, ?_, ?_, ?_, ?_⟩
  · intro secret e hbeforeSync hs hg
    rw [hS hbeforeSync]
    simp only [syncLoop, checkSecret, hs]
    rcases hgg : Get c .secret ⟨config.ns, secret.name⟩ (syncLoop c config .SyncOp before w1).2
      with ⟨r, w2⟩
    rw [hgg] at hg
    simp only at hg
    subst hg
    rfl
  · intro e hbeforeSync hc hs hae
    rw [hS hbeforeSync]
    simp only [syncLoop]
    rcases hcc : checkSecret c config (syncLoop c config .SyncOp before w1).2 with ⟨r, w2⟩
    rw [hcc] at hc hs
    simp only at hc hs
    subst hc
    simp only
    rcases hdd : doSync c obj w2 with ⟨r2, w3⟩
    rw [hdd] at hs
    simp only at hs
    subst hs
    simp [hae]
  · intro e hbeforeDestroy hdel hnf
    rw [hD hbeforeDestroy]
    simp only [syncLoop]
    rcases hdd : Delete c obj (syncLoop c config .DestroyOp before w1).2 with ⟨r, w2⟩
    rw [hdd] at hdel
    simp only at hdel
    subst hdel
    simp [hnf]
  · intro w2 e hk hg hnf
    rcases hk with hk | hk
    · cases obj <;> simp [Obj.kind] at hk
      rename_i expect
      simp only [Obj.kind] at hg
      simp only [doSync, doSyncTarget, Obj.kind]
      rcases hgg : Get c .deployment (ObjectKeyFromObject (.deployment expect)) w2 with ⟨r, w3⟩
      rw [hgg] at hg
      simp only at hg
      subst hg
      simp [hnf]
    · cases obj <;> simp [Obj.kind] at hk
      rename_i expect
      simp only [Obj.kind] at hg
      simp only [doSync, doSyncTarget, Obj.kind]
      rcases hgg : Get c .service (ObjectKeyFromObject (.service expect)) w2 with ⟨r, w3⟩
      rw [hgg] at hg
      simp only at hg
      subst hg
      simp [hnf]
  · intro fn steps lastErr target o1 w2 w3 e hfn hnc
    exact OnError_first_not_retriable IsConflict fn steps lastErr target o1 w2 w3 e hfn hnc
  · intro f target w2 e hg hnf
    have hobj : (GetInto c (ObjectKeyFromObject target) target w2).2.1 = target := by
      unfold GetInto at hg ⊢
      split at hg
      · rfl
      · simp at hg
    unfold CreateOrPatch
    simp only
    rcases hgg : GetInto c (ObjectKeyFromObject target) target w2 with ⟨r, obj0, w3⟩
    rw [hgg] at hg hobj
    simp only at hg hobj
    subst hg hobj
    simp [hnf]
  · intro f target o1 w2 e0 e hg hnf hm hcr
    unfold CreateOrPatch
    simp only
    rcases hgg : GetInto c (ObjectKeyFromObject target) target w2 with ⟨r, obj0, w3⟩
    rw [hgg] at hg hm hcr
    simp only at hg hm hcr
    subst hg
    simp only [hnf, Bool.not_true, Bool.false_eq_true, if_false, hm]
    rcases hcc : Create c o1 w3 with ⟨r2, w4⟩
    rw [hcc] at hcr
    simp only at hcr
    subst hcr
    rfl
  · intro f target o1 w2 e hg hm hdiff hp
    unfold CreateOrPatch
    simp only
    rcases hgg : GetInto c (ObjectKeyFromObject target) target w2 with ⟨r, obj0, w3⟩
    rw [hgg] at hg hm hdiff hp
    simp only at hg hm hdiff hp
    subst hg
    simp only [hm, ne_eq, hdiff, not_false_eq_true, if_true]
    rcases hpp : Patch c o1 obj0 w3 with ⟨r2, w4⟩
    rw [hpp] at hp
    simp only at hp
    subst hp
    rfl
  · intro secretName secretKey d w2 e hg
    unfold addSecretAsEnvToDeployment
    rcases hgg : Get c .secret ⟨config.ns, secretName⟩ w2 with ⟨r, w3⟩
    rw [hgg] at hg
    simp only at hg
    subst hg
    rfl
  · intro i w0 secret e hb hEngine hs hg
    rw [Sync_build_error c config i w0 secretMissingError
      (GetDeployment_unfetchable_missing config _ c _ w0 secret e hb hEngine hs hg)]
/-- A witness of C18. With `SyncOp`: the sample config over a store that holds
the service account and answers an internal error to the first create (the
service's), against a client whose deletes answer an internal error; `Sync`
returns the create's error in the world the converge of the service left,
although a teardown would fail at the service account. With `DestroyOp`: the sample config with a secret reference, the secret
not being stored, against a client whose deletes answer an internal error;
`Sync` returns the error of the first delete, although a converge pass over the
same store ends at its first secret check. -/
theorem loop_store_errors_are_returned_unmodified_witness :
    (Sync failingDeleteClient sampleConfig .SyncOp
        (memWorld [.serviceAccount sampleServiceAccount] [internalError]) =
      (some internalError,
        (doSync failingDeleteClient (.service sampleService)
          (checkSecret failingDeleteClient sampleConfig
            (syncLoop failingDeleteClient sampleConfig .SyncOp [.serviceAccount sampleServiceAccount]
              (memWorld [.serviceAccount sampleServiceAccount] [internalError])).2).2).2) ∧
      (Sync failingDeleteClient sampleConfig .SyncOp
        (memWorld [.serviceAccount sampleServiceAccount] [internalError])).2.calls =
        [Call.get .serviceAccount ⟨"ns1", "k8sgpt-ns1"⟩,
          Call.get .service ⟨"ns1", "k8sgpt-sample"⟩,
          Call.get .service ⟨"ns1", "k8sgpt-sample"⟩,
          Call.create (.service sampleService)]) ∧
    ((syncLoop failingDeleteClient sampleConfig .DestroyOp [.serviceAccount sampleServiceAccount]
        (memWorld [.serviceAccount sampleServiceAccount] [internalError])).1 =
        some internalError ∧
      (Sync failingDeleteClient sampleWithSecret .SyncOp (memWorld [] [])).1 =
        some notFoundError ∧
      Sync failingDeleteClient sampleWithSecret .DestroyOp (memWorld [] []) =
        (some internalError,
          (Delete failingDeleteClient (.serviceAccount sampleServiceAccount)
            (syncLoop failingDeleteClient sampleWithSecret .DestroyOp []
              (memWorld [] [])).2).2)) :=
  ⟨⟨(loop_store_errors_are_returned_unmodified failingDeleteClient sampleConfig
        (memWorld [.serviceAccount sampleServiceAccount] [internalError])
        (memWorld [.serviceAccount sampleServiceAccount] [internalError]) sampleServiceAccount
        sampleService sampleDeployment sampleClusterRole sampleClusterRoleBinding
        [.serviceAccount sampleServiceAccount] _ (.service sampleService)
        rfl rfl rfl rfl rfl rfl).2.1 internalError (by decide) rfl (by decide) rfl,
      by decide⟩,
    by decide, by decide,
    (loop_store_errors_are_returned_unmodified failingDeleteClient sampleWithSecret
      (memWorld [] []) (memWorld [] []) sampleServiceAccount
      sampleService (builtDeployment sampleWithSecret false "k8sgpt-ns1") sampleClusterRole
      sampleClusterRoleBinding [] _ (.serviceAccount sampleServiceAccount)
      rfl rfl rfl rfl rfl rfl).2.2.1 internalError rfl rfl rfl⟩

/-! ## The Configure step -/

theorem getDeployment_of_fetch {σ : Type} (inst : K8sGPTInstance σ) (pw : PassWorld σ)
    (fetched : Except Error Deployment) (w2 : World σ)
    (hFetch : Get inst.R.client .deployment ⟨inst.K8sgptConfig.ns, inst.K8sgptConfig.name⟩
      pw.world = (fetched, w2))
    (hFound : ∀ e, fetched = .error e → IsNotFound e = true) :
    ConfigureStep.getDeployment inst pw =
      ((deploymentOrEmpty fetched,
        (Sync inst.R.client inst.K8sgptConfig .SyncOp w2).1),
        ⟨(Sync inst.R.client inst.K8sgptConfig .SyncOp w2).2, pw.updates⟩) := by
  unfold ConfigureStep.getDeployment
  rw [hFetch]
  cases fetched with
  | ok d => rfl
  | error e => simp [hFound e rfl, deploymentOrEmpty]

/-- C11: for every instance whose backoff block succeeds, whose fetched
deployment has no available replica or does not exist (the get answers
not-found), and whose `Sync` succeeds: when `LOCAL_MODE` is empty, `execute` ends
the pass through `FinishReconcile` with a nil error, whatever the successor is
(its `execute` is not called), so the pass returns no error when
`FinishReconcile` returns the error it is given; when `LOCAL_MODE` is non-empty,
`execute` returns what the successor's `execute` returns on the same instance and
world. -/
theorem not_ready_stops_unless_local_mode {σ : Type} (step : ConfigureStep σ)
    (getenv : String → String) (inst inst1 : K8sGPTInstance σ) (pw pw1 : PassWorld σ)
    (fetched : Except Error Deployment) (w2 w3 : World σ)
    (hBackoff : ConfigureStep.backoffBlock inst pw = (none, inst1, pw1))
    (hFetch : Get inst1.R.client .deployment ⟨inst1.K8sgptConfig.ns, inst1.K8sgptConfig.name⟩
      pw1.world = (fetched, w2))
    (hAbsent : ∀ e, fetched = .error e → IsNotFound e = true)
    (hZero : ∀ d, fetched = .ok d → d.status.availableReplicas = 0)
    (hSync : Sync inst1.R.client inst1.K8sgptConfig .SyncOp w2 = (none, w3)) :
    (getenv "LOCAL_MODE" = "" →
        ∀ other : ConfigureStep σ,
          other.execute getenv inst pw =
            ConfigureStep.finish
              { inst1 with
                k8sgptDeployment := some (deploymentOrEmpty fetched)
                hasReadyReplicas := false }
              none ⟨w3, pw1.updates⟩) ∧
      (getenv "LOCAL_MODE" = "" →
        (∀ err b name config p, (inst1.R.finishReconcile err b name config p).1.2 = err) →
        (step.execute getenv inst pw).1.2 = none) ∧
      (getenv "LOCAL_MODE" ≠ "" →
        step.execute getenv inst pw =
          step.next
            { inst1 with
              k8sgptDeployment := some (deploymentOrEmpty fetched)
              hasReadyReplicas := false }
            ⟨w3, pw1.updates⟩) := by
  have hget := getDeployment_of_fetch inst1 pw1 fetched w2 hFetch hAbsent
  rw [hSync] at hget
  have hzero : (deploymentOrEmpty fetched).status.availableReplicas = 0 := by
    cases fetched with
    | ok d => exact hZero d rfl
    | error e => rfl
  have hstop : getenv "LOCAL_MODE" = "" →
      ∀ other : ConfigureStep σ,
        other.execute getenv inst pw =
          ConfigureStep.finish
            { inst1 with
              k8sgptDeployment := some (deploymentOrEmpty fetched)
              hasReadyReplicas := false }
            none ⟨w3, pw1.updates⟩ := by
    intro hlocal other
    simp [ConfigureStep.execute, hBackoff, hget, hzero, hlocal]
  refine ⟨hstop, ?_, ?_⟩
  · intro hlocal hfin
    rw [hstop hlocal step]
    exact hfin _ _ _ _ _
  · intro hlocal
    simp [ConfigureStep.execute, hBackoff, hget, hzero, hlocal]

/-- A witness of C11: the sample instance over an empty in-memory store (the
deployment does not exist yet, the pass creates the five objects), with
`LOCAL_MODE` unset. -/
theorem not_ready_stops_unless_local_mode_witness :
    ((fun _ => "") "LOCAL_MODE" = "" →
        ∀ other : ConfigureStep MemStore,
          other.execute (fun _ => "") (sampleInstance (sampleReconciler memClient))
              (memPassWorld [] []) =
            ConfigureStep.finish
              { sampleInstance (sampleReconciler memClient) with
                K8sgptConfig := withDefaultBackOff sampleConfig
                k8sgptDeployment := some emptyDeployment
                hasReadyReplicas := false }
              none
              ⟨(Sync memClient (withDefaultBackOff sampleConfig) .SyncOp
                  ⟨⟨[], []⟩, [Call.get .deployment ⟨"ns1", "k8sgpt-sample"⟩]⟩).2,
                [withDefaultBackOff sampleConfig]⟩) ∧
      ((fun _ => "") "LOCAL_MODE" = "" →
        (∀ err b name config p,
          ((sampleReconciler memClient).finishReconcile err b name config p).1.2 = err) →
        (sampleNext.execute (fun _ => "") (sampleInstance (sampleReconciler memClient))
          (memPassWorld [] [])).1.2 = none) ∧
      ((fun _ => "") "LOCAL_MODE" ≠ "" →
        sampleNext.execute (fun _ => "") (sampleInstance (sampleReconciler memClient))
            (memPassWorld [] []) =
          sampleNext.next
            { sampleInstance (sampleReconciler memClient) with
              K8sgptConfig := withDefaultBackOff sampleConfig
              k8sgptDeployment := some emptyDeployment
              hasReadyReplicas := false }
            ⟨(Sync memClient (withDefaultBackOff sampleConfig) .SyncOp
                ⟨⟨[], []⟩, [Call.get .deployment ⟨"ns1", "k8sgpt-sample"⟩]⟩).2,
              [withDefaultBackOff sampleConfig]⟩) :=
  not_ready_stops_unless_local_mode sampleNext (fun _ => "")
    (sampleInstance (sampleReconciler memClient))
    { sampleInstance (sampleReconciler memClient) with
      K8sgptConfig := withDefaultBackOff sampleConfig }
    (memPassWorld [] [])
    ⟨memWorld [] [], [withDefaultBackOff sampleConfig]⟩
    (.error notFoundError)
    ⟨⟨[], []⟩, [Call.get .deployment ⟨"ns1", "k8sgpt-sample"⟩]⟩
    (Sync memClient (withDefaultBackOff sampleConfig) .SyncOp
      ⟨⟨[], []⟩, [Call.get .deployment ⟨"ns1", "k8sgpt-sample"⟩]⟩).2
    rfl rfl
    (fun e he => by cases he; rfl)
    (fun d hd => by cases hd)
    (Prod.ext (by decide) rfl)
/-- C12: for every instance whose config has no backoff policy, `execute` sets
the policy to `{Enabled: false, MaxRetries: 5}` and writes that config with
`Update` first. If the write fails, the pass ends through `FinishReconcile` with
that error, whatever the successor is, in a world whose call log is unchanged: no
workload get, no `Sync`, no successor. If the write succeeds, the pass is the
pass of the instance holding the config with the default policy, run in the store
state the write left: the workload get and `Sync` come after the write. -/
theorem missing_backoff_is_persisted_first {σ : Type} (step : ConfigureStep σ)
    (getenv : String → String) (inst : K8sGPTInstance σ) (pw : PassWorld σ)
    (hNil : inst.K8sgptConfig.spec.ai.backOff = none) :
    (withDefaultBackOff inst.K8sgptConfig).spec.ai.backOff =
        some { enabled := false, maxRetries := 5 } ∧
      (∀ err, (inst.R.update (withDefaultBackOff inst.K8sgptConfig) pw.world.store).1 = some err →
        ∀ other : ConfigureStep σ,
          other.execute getenv inst pw =
            ConfigureStep.finish { inst with K8sgptConfig := withDefaultBackOff inst.K8sgptConfig }
              (some err)
              ⟨⟨(inst.R.update (withDefaultBackOff inst.K8sgptConfig) pw.world.store).2,
                  pw.world.calls⟩,
                pw.updates ++ [withDefaultBackOff inst.K8sgptConfig]⟩) ∧
      ((inst.R.update (withDefaultBackOff inst.K8sgptConfig) pw.world.store).1 = none →
        step.execute getenv inst pw =
          step.execute getenv { inst with K8sgptConfig := withDefaultBackOff inst.K8sgptConfig }
            ⟨⟨(inst.R.update (withDefaultBackOff inst.K8sgptConfig) pw.world.store).2,
                pw.world.calls⟩,
              pw.updates ++ [withDefaultBackOff inst.K8sgptConfig]⟩) := by
  refine ⟨rfl, ?_, ?_⟩
  · intro err herr other
    simp [ConfigureStep.execute, ConfigureStep.backoffBlock, ConfigureStep.configureBackoff,
      hNil, herr]
  · intro hok
    have h1 : ConfigureStep.backoffBlock inst pw =
        (none, { inst with K8sgptConfig := withDefaultBackOff inst.K8sgptConfig },
          ⟨⟨(inst.R.update (withDefaultBackOff inst.K8sgptConfig) pw.world.store).2,
              pw.world.calls⟩,
            pw.updates ++ [withDefaultBackOff inst.K8sgptConfig]⟩) := by
      simp [ConfigureStep.backoffBlock, ConfigureStep.configureBackoff, hNil, hok]
    have h2 : ConfigureStep.backoffBlock
        { inst with K8sgptConfig := withDefaultBackOff inst.K8sgptConfig }
        ⟨⟨(inst.R.update (withDefaultBackOff inst.K8sgptConfig) pw.world.store).2,
            pw.world.calls⟩,
          pw.updates ++ [withDefaultBackOff inst.K8sgptConfig]⟩ =
        (none, { inst with K8sgptConfig := withDefaultBackOff inst.K8sgptConfig },
          ⟨⟨(inst.R.update (withDefaultBackOff inst.K8sgptConfig) pw.world.store).2,
              pw.world.calls⟩,
            pw.updates ++ [withDefaultBackOff inst.K8sgptConfig]⟩) := by
      simp [ConfigureStep.backoffBlock, withDefaultBackOff]
    simp only [ConfigureStep.execute, h1, h2]

/-- A witness of C12: the sample instance (its config has no backoff policy) with
a reconciler whose updates answer an internal error: the pass ends with that
error and an empty call log. -/
theorem missing_backoff_is_persisted_first_witness :
    (sampleNext.execute (fun _ => "") (sampleInstance failingUpdateReconciler)
        (memPassWorld [] [])).1.2 = some internalError ∧
      (sampleNext.execute (fun _ => "") (sampleInstance failingUpdateReconciler)
        (memPassWorld [] [])).2.2.world.calls = [] ∧
      (sampleNext.execute (fun _ => "") (sampleInstance failingUpdateReconciler)
        (memPassWorld [] [])).2.2.updates = [withDefaultBackOff sampleConfig] :=
  have h := (missing_backoff_is_persisted_first sampleNext (fun _ => "")
    (sampleInstance failingUpdateReconciler) (memPassWorld [] []) rfl).2.1 internalError rfl
    sampleNext
  ⟨by rw [h]; rfl, by rw [h]; rfl, by rw [h]; rfl⟩

/-- C13, counterexample: the sample instance with the default backoff policy
(the backoff block writes nothing) over a store whose gets answer an internal
error. The pass gets past the backoff step, the workload get fails, and the pass
ends with that error having issued this one get: `Sync` is not invoked, whereas a
`Sync` from there would have issued a get of the service account. -/
theorem fetch_error_skips_Sync :
    (ConfigureStep.backoffBlock
        { sampleInstance (sampleReconciler failingGetClient) with
          K8sgptConfig := withDefaultBackOff sampleConfig }
        (memPassWorld [] [])).1 = none ∧
      (sampleNext.execute (fun _ => "")
        { sampleInstance (sampleReconciler failingGetClient) with
          K8sgptConfig := withDefaultBackOff sampleConfig }
        (memPassWorld [] [])).1.2 = some internalError ∧
      (sampleNext.execute (fun _ => "")
        { sampleInstance (sampleReconciler failingGetClient) with
          K8sgptConfig := withDefaultBackOff sampleConfig }
        (memPassWorld [] [])).2.2.world.calls =
          [Call.get .deployment ⟨"ns1", "k8sgpt-sample"⟩] ∧
      (Sync failingGetClient (withDefaultBackOff sampleConfig) .SyncOp
        ⟨⟨[], []⟩, [Call.get .deployment ⟨"ns1", "k8sgpt-sample"⟩]⟩).2.calls =
          [Call.get .deployment ⟨"ns1", "k8sgpt-sample"⟩,
            Call.get .serviceAccount ⟨"ns1", "k8sgpt-ns1"⟩] := by
  decide

/-- C13, amended: for every pass that gets past the backoff block, whatever the
available-replica count. When the workload get answers an error other than
not-found, `execute` ends the pass with that error in the world the get left,
whose log is the log before the get followed by that one get: `Sync` is not
invoked. When the workload get answers a deployment or not-found, `execute` runs
`Sync` with `SyncOp` on the instance's config exactly once, in the world the get
left, and everything that follows (the end of the pass on a `Sync` error, the
readiness decision, `FinishReconcile` or the successor) takes place in the world
that one `Sync` left. -/
theorem Sync_runs_once_before_the_readiness_decision {σ : Type} (step : ConfigureStep σ)
    (getenv : String → String) (inst inst1 : K8sGPTInstance σ) (pw pw1 : PassWorld σ)
    (fetched : Except Error Deployment) (w2 : World σ)
    (hBackoff : ConfigureStep.backoffBlock inst pw = (none, inst1, pw1))
    (hFetch : Get inst1.R.client .deployment ⟨inst1.K8sgptConfig.ns, inst1.K8sgptConfig.name⟩
      pw1.world = (fetched, w2)) :
    (∀ e, fetched = .error e → IsNotFound e = false →
      w2.calls = pw1.world.calls ++
        [Call.get .deployment ⟨inst1.K8sgptConfig.ns, inst1.K8sgptConfig.name⟩] ∧
      step.execute getenv inst pw =
        ConfigureStep.finish { inst1 with k8sgptDeployment := some emptyDeployment } (some e)
          ⟨w2, pw1.updates⟩) ∧
    ((∀ e, fetched = .error e → IsNotFound e = true) →
      step.execute getenv inst pw =
        match (Sync inst1.R.client inst1.K8sgptConfig .SyncOp w2).1 with
        | some err =>
            ConfigureStep.finish
              { inst1 with k8sgptDeployment := some (deploymentOrEmpty fetched) } (some err)
              ⟨(Sync inst1.R.client inst1.K8sgptConfig .SyncOp w2).2, pw1.updates⟩
        | none =>
            if (deploymentOrEmpty fetched).status.availableReplicas = 0 ∧
                getenv "LOCAL_MODE" = "" then
              ConfigureStep.finish
                { inst1 with
                  k8sgptDeployment := some (deploymentOrEmpty fetched)
                  hasReadyReplicas := false }
                none ⟨(Sync inst1.R.client inst1.K8sgptConfig .SyncOp w2).2, pw1.updates⟩
            else
              step.next
                { inst1 with
                  k8sgptDeployment := some (deploymentOrEmpty fetched)
                  hasReadyReplicas :=
                    decide ((deploymentOrEmpty fetched).status.availableReplicas ≠ 0) }
                ⟨(Sync inst1.R.client inst1.K8sgptConfig .SyncOp w2).2, pw1.updates⟩) := by
  constructor
  · intro e he hnf
    subst he
    have hcalls : (Get inst1.R.client .deployment
        ⟨inst1.K8sgptConfig.ns, inst1.K8sgptConfig.name⟩ pw1.world).2.calls =
        pw1.world.calls ++
          [Call.get .deployment ⟨inst1.K8sgptConfig.ns, inst1.K8sgptConfig.name⟩] := rfl
    rw [hFetch] at hcalls
    refine ⟨hcalls, ?_⟩
    simp only [ConfigureStep.execute, hBackoff, ConfigureStep.getDeployment, hFetch, hnf,
      Bool.not_false, if_true]
  · intro hFound
    have hget := getDeployment_of_fetch inst1 pw1 fetched w2 hFetch hFound
    simp only [ConfigureStep.execute, hBackoff, hget]
    cases hs : (Sync inst1.R.client inst1.K8sgptConfig .SyncOp w2).1 with
    | some err => rfl
    | none =>
        simp only
        by_cases hz : (deploymentOrEmpty fetched).status.availableReplicas = 0
        · by_cases hl : getenv "LOCAL_MODE" = ""
          · simp [hz, hl]
          · simp [hz, hl]
        · simp [hz]

/-- A witness of C13 (amended): the sample instance with the default backoff
policy. Over an in-memory store that holds the deployment with one available
replica the pass runs `Sync` once and hands over to the successor; over a store
whose gets answer an internal error the pass ends with that error after the one
get. -/
theorem Sync_runs_once_before_the_readiness_decision_witness :
    sampleNext.execute (fun _ => "")
        { sampleInstance (sampleReconciler memClient) with
          K8sgptConfig := withDefaultBackOff sampleConfig }
        (memPassWorld [.deployment storedDeployment] []) =
      sampleNext.next
        { sampleInstance (sampleReconciler memClient) with
          K8sgptConfig := withDefaultBackOff sampleConfig
          k8sgptDeployment := some storedDeployment
          hasReadyReplicas := true }
        ⟨(Sync memClient (withDefaultBackOff sampleConfig) .SyncOp
          ⟨⟨[.deployment storedDeployment], []⟩,
            [Call.get .deployment ⟨"ns1", "k8sgpt-sample"⟩]⟩).2, []⟩ ∧
    ((⟨⟨[], []⟩, [Call.get .deployment ⟨"ns1", "k8sgpt-sample"⟩]⟩ : World MemStore).calls =
        (memPassWorld [] []).world.calls ++ [Call.get .deployment ⟨"ns1", "k8sgpt-sample"⟩] ∧
      sampleNext.execute (fun _ => "")
          { sampleInstance (sampleReconciler failingGetClient) with
            K8sgptConfig := withDefaultBackOff sampleConfig }
          (memPassWorld [] []) =
        ConfigureStep.finish
          { sampleInstance (sampleReconciler failingGetClient) with
            K8sgptConfig := withDefaultBackOff sampleConfig
            k8sgptDeployment := some emptyDeployment }
          (some internalError)
          ⟨⟨⟨[], []⟩, [Call.get .deployment ⟨"ns1", "k8sgpt-sample"⟩]⟩, []⟩) :=
  ⟨(Sync_runs_once_before_the_readiness_decision sampleNext (fun _ => "")
      { sampleInstance (sampleReconciler memClient) with
        K8sgptConfig := withDefaultBackOff sampleConfig }
      { sampleInstance (sampleReconciler memClient) with
        K8sgptConfig := withDefaultBackOff sampleConfig }
      (memPassWorld [.deployment storedDeployment] [])
      (memPassWorld [.deployment storedDeployment] [])
      (.ok storedDeployment)
      ⟨⟨[.deployment storedDeployment], []⟩, [Call.get .deployment ⟨"ns1", "k8sgpt-sample"⟩]⟩
      rfl rfl).2 (fun e he => by cases he),
    (Sync_runs_once_before_the_readiness_decision sampleNext (fun _ => "")
      { sampleInstance (sampleReconciler failingGetClient) with
        K8sgptConfig := withDefaultBackOff sampleConfig }
      { sampleInstance (sampleReconciler failingGetClient) with
        K8sgptConfig := withDefaultBackOff sampleConfig }
      (memPassWorld [] []) (memPassWorld [] [])
      (.error internalError)
      ⟨⟨[], []⟩, [Call.get .deployment ⟨"ns1", "k8sgpt-sample"⟩]⟩
      rfl rfl).1 internalError rfl rfl⟩

/-! ## The resources override -/

/-- C22: for every config whose `Spec.Resources` is set (to `r`), every client and
world, a deployment that `GetDeployment` returns has exactly one container, whose
resources are `r` itself; so for every resource name, a limit or a request that
`r` does not hold is not held by the container either (it does not take the
default the per-field closures compute). -/
theorem resources_override_replaces_the_whole_structure {σ : Type} (config : K8sGPT)
    (outOfClusterMode : Bool) (c : Client σ) (serviceAccountName : String) (w : World σ)
    (r : ResourceRequirements) (d : Deployment)
    (hr : config.spec.resources = some r)
    (hd : (GetDeployment config outOfClusterMode c serviceAccountName w).1 = .ok d) :
    containerResources d = [r] ∧
      ∀ cont ∈ d.spec.template.spec.containers,
        cont.resources = r ∧
        ∀ name : String,
          (limitFor r name = none → limitFor cont.resources name = none) ∧
          (requestFor r name = none → requestFor cont.resources name = none) := by
  obtain ⟨hd1, _⟩ := GetDeployment_ok_eq config outOfClusterMode c serviceAccountName w d hd
  subst hd1
  have hres : builtResources config = r := by simp [builtResources, hr]
  refine ⟨by simp [containerResources, builtDeployment, deploymentWith, hres], ?_⟩
  intro cont hcont
  have hc : cont.resources = r := by
    simp only [builtDeployment, deploymentWith, List.mem_singleton] at hcont
    rw [hcont]
    exact hres
  refine ⟨hc, fun name => ?_⟩
  rw [hc]
  exact ⟨id, id⟩

theorem resources_override_replaces_the_whole_structure_witness :
    sampleMemoryRequestOnly.spec.resources =
        some { limits := none, requests := some [("memory", MustParse "128Mi")] } ∧
      (GetDeployment sampleMemoryRequestOnly false memClient "k8sgpt-ns1" (memWorld [] [])).1 =
        .ok (builtDeployment sampleMemoryRequestOnly false "k8sgpt-ns1") ∧
      (containerResources (builtDeployment sampleMemoryRequestOnly false "k8sgpt-ns1") =
          [{ limits := none, requests := some [("memory", MustParse "128Mi")] }] ∧
        ∀ cont ∈ (builtDeployment sampleMemoryRequestOnly false
            "k8sgpt-ns1").spec.template.spec.containers,
          cont.resources = { limits := none, requests := some [("memory", MustParse "128Mi")] } ∧
          ∀ name : String,
            (limitFor { limits := none, requests := some [("memory", MustParse "128Mi")] } name =
                none → limitFor cont.resources name = none) ∧
            (requestFor { limits := none, requests := some [("memory", MustParse "128Mi")] } name =
                none → requestFor cont.resources name = none)) :=
  ⟨rfl, rfl,
    resources_override_replaces_the_whole_structure sampleMemoryRequestOnly false memClient
      "k8sgpt-ns1" (memWorld [] [])
      { limits := none, requests := some [("memory", MustParse "128Mi")] }
      (builtDeployment sampleMemoryRequestOnly false "k8sgpt-ns1") rfl rfl⟩

/-! ## Referential integrity of the descriptor set -/

/-- C25: for every config, client and world, when the five builders are called as
`Sync` calls them and the deployment builds: the ClusterRoleBinding's RoleRef is
the ClusterRole's name, which is `k8sgpt-<namespace>-clusterrole`; its one
subject is the ServiceAccount (its name `k8sgpt-<namespace>` and its namespace,
the config's); the Deployment's selector labels are its pod template labels,
which are the Service's selector, `app: <config name>`; the Service has the one
port 8080 and the Deployment's one container has the one container port 8080;
and when the config has no kubeconfig reference (in-cluster mode) the pod's
service account name is the ServiceAccount's name. -/
theorem descriptors_refer_to_each_other {σ : Type} (c : Client σ) (config : K8sGPT)
    (w : World σ) (sa : ServiceAccount) (svc : Service) (d : Deployment) (cr : ClusterRole)
    (crb : ClusterRoleBinding)
    (hsa : GetServiceAccount config ("k8sgpt-" ++ config.ns) = .ok sa)
    (hsvc : GetService config = .ok svc)
    (hd : (GetDeployment config config.spec.kubeconfig.isSome c ("k8sgpt-" ++ config.ns) w).1 =
      .ok d)
    (hcr : GetClusterRole config ("k8sgpt-" ++ config.ns) = .ok cr)
    (hcrb : GetClusterRoleBinding config ("k8sgpt-" ++ config.ns)
      ("k8sgpt-" ++ config.ns ++ "-clusterrole" ++ "-binding")
      ("k8sgpt-" ++ config.ns ++ "-clusterrole") = .ok crb) :
    (crb.roleRef = { kind := "ClusterRole", name := cr.objectMeta.name } ∧
      cr.objectMeta.name = "k8sgpt-" ++ config.ns ++ "-clusterrole") ∧
    (crb.subjects =
        [{ kind := "ServiceAccount", name := sa.objectMeta.name, ns := sa.objectMeta.ns }] ∧
      sa.objectMeta.name = "k8sgpt-" ++ config.ns ∧ sa.objectMeta.ns = config.ns) ∧
    (d.spec.selector = some { matchLabels := d.spec.template.labels } ∧
      d.spec.template.labels = svc.spec.selector ∧
      svc.spec.selector = [("app", config.name)]) ∧
    (svc.spec.ports.map (fun p => p.port) = [8080] ∧
      d.spec.template.spec.containers.map (fun k => k.ports.map (fun p => p.containerPort)) =
        [[8080]]) ∧
    (config.spec.kubeconfig = none →
      d.spec.template.spec.serviceAccountName = sa.objectMeta.name) := by
  obtain ⟨hd1, _⟩ := GetDeployment_ok_eq config config.spec.kubeconfig.isSome c
    ("k8sgpt-" ++ config.ns) w d hd
  subst hd1
  have hsaName : sa.objectMeta.name = "k8sgpt-" ++ config.ns ∧ sa.objectMeta.ns = config.ns := by
    unfold GetServiceAccount at hsa
    simp only [Except.ok.injEq] at hsa
    subst hsa
    cases config.spec.extraOptions with
    | none => exact ⟨rfl, rfl⟩
    | some eo =>
        by_cases h : eo.serviceAccountIRSA = ""
        · simp [h]
        · simp [h]
  simp only [GetService, Except.ok.injEq] at hsvc
  simp only [GetClusterRole, Except.ok.injEq] at hcr
  simp only [GetClusterRoleBinding, Except.ok.injEq] at hcrb
  subst hsvc hcr hcrb
  refine ⟨⟨rfl, rfl⟩, ⟨?_, hsaName⟩, ⟨rfl, rfl, rfl⟩, ⟨rfl, rfl⟩, ?_⟩
  · rw [hsaName.1, hsaName.2]
  · intro hk
    rw [hsaName.1]
    simp [builtDeployment, deploymentWith, hk]

theorem descriptors_refer_to_each_other_witness :
    (GetServiceAccount sampleConfig ("k8sgpt-" ++ sampleConfig.ns) = .ok sampleServiceAccount ∧
      GetService sampleConfig = .ok sampleService ∧
      (GetDeployment sampleConfig sampleConfig.spec.kubeconfig.isSome memClient
        ("k8sgpt-" ++ sampleConfig.ns) (memWorld [] [])).1 = .ok sampleDeployment ∧
      GetClusterRole sampleConfig ("k8sgpt-" ++ sampleConfig.ns) = .ok sampleClusterRole ∧
      GetClusterRoleBinding sampleConfig ("k8sgpt-" ++ sampleConfig.ns)
        ("k8sgpt-" ++ sampleConfig.ns ++ "-clusterrole" ++ "-binding")
        ("k8sgpt-" ++ sampleConfig.ns ++ "-clusterrole") = .ok sampleClusterRoleBinding) ∧
    ((sampleClusterRoleBinding.roleRef =
          { kind := "ClusterRole", name := sampleClusterRole.objectMeta.name } ∧
        sampleClusterRole.objectMeta.name = "k8sgpt-" ++ sampleConfig.ns ++ "-clusterrole") ∧
      (sampleClusterRoleBinding.subjects =
          [{ kind := "ServiceAccount", name := sampleServiceAccount.objectMeta.name
             ns := sampleServiceAccount.objectMeta.ns }] ∧
        sampleServiceAccount.objectMeta.name = "k8sgpt-" ++ sampleConfig.ns ∧
        sampleServiceAccount.objectMeta.ns = sampleConfig.ns) ∧
      (sampleDeployment.spec.selector =
          some { matchLabels := sampleDeployment.spec.template.labels } ∧
        sampleDeployment.spec.template.labels = sampleService.spec.selector ∧
        sampleService.spec.selector = [("app", sampleConfig.name)]) ∧
      (sampleService.spec.ports.map (fun p => p.port) = [8080] ∧
        sampleDeployment.spec.template.spec.containers.map
            (fun k => k.ports.map (fun p => p.containerPort)) = [[8080]]) ∧
      (sampleConfig.spec.kubeconfig = none →
        sampleDeployment.spec.template.spec.serviceAccountName =
          sampleServiceAccount.objectMeta.name)) :=
  ⟨⟨rfl, rfl, rfl, rfl, rfl⟩,
    descriptors_refer_to_each_other memClient sampleConfig (memWorld [] []) sampleServiceAccount
      sampleService sampleDeployment sampleClusterRole sampleClusterRoleBinding rfl rfl rfl rfl
      rfl⟩

/-! ## The descriptor list of `Sync` -/

theorem CreateOrPatch_first_call {σ : Type} (c : Client σ) (f : Option MutateFn) (obj : Obj)
    (w : World σ) :
    ∃ rest, (CreateOrPatch c f obj w).2.calls = w.calls ++ lookupOf obj :: rest := by
  obtain ⟨hgc, _⟩ := GetInto_calls c (ObjectKeyFromObject obj) obj w
  unfold CreateOrPatch
  simp only
  rcases hg : GetInto c (ObjectKeyFromObject obj) obj w with ⟨r, obj0, w1⟩
  rw [hg] at hgc
  simp only at hgc
  rcases hm : mutateIfSet f (ObjectKeyFromObject obj) obj0 with ⟨rm, obj1⟩
  have hcc : (Create c obj1 w1).2.calls = w1.calls ++ [Call.create obj1] := rfl
  have hpc : (Patch c obj1 obj0 w1).2.calls = w1.calls ++ [Call.patch obj1] := rfl
  rcases hcr : Create c obj1 w1 with ⟨rc, w2⟩
  rcases hpr : Patch c obj1 obj0 w1 with ⟨rp, w3⟩
  rw [hcr] at hcc
  rw [hpr] at hpc
  simp only at hcc hpc
  have hstop : ∃ rest, w1.calls = w.calls ++ lookupOf obj :: rest := ⟨[], hgc⟩
  have hcreate : ∃ rest, w2.calls = w.calls ++ lookupOf obj :: rest :=
    ⟨[Call.create obj1], by rw [hcc, hgc, List.append_assoc]; rfl⟩
  have hpatch : ∃ rest, w3.calls = w.calls ++ lookupOf obj :: rest :=
    ⟨[Call.patch obj1], by rw [hpc, hgc, List.append_assoc]; rfl⟩
  cases r with
  | some err =>
      simp only
      by_cases hnf : IsNotFound err = true
      · simp only [hnf, Bool.not_true, Bool.false_eq_true, if_false, hm]
        cases rm with
        | some err1 => exact hstop
        | none =>
            simp only [hcr]
            cases rc <;> exact hcreate
      · simp only [hnf, Bool.not_false, if_true]
        exact hstop
  | none =>
      simp only [hm]
      cases rm with
      | some err1 => exact hstop
      | none =>
          simp only
          by_cases hdiff : obj0.withoutStatus = obj1.withoutStatus
          · simp only [ne_eq, hdiff, not_true_eq_false, if_false]
            exact hstop
          · simp only [ne_eq, hdiff, not_false_eq_true, if_true, hpr]
            cases rp <;> exact hpatch

theorem OnError_extends {σ : Type} (c : Client σ) (f : Option MutateFn) (steps : Nat) :
    ∀ (lastErr : Option Error) (obj : Obj) (w : World σ),
      ∃ extra, (OnError IsConflict (CreateOrPatch c f) steps lastErr obj w).2.calls =
        w.calls ++ extra := by
  induction steps with
  | zero =>
      intro lastErr obj w
      exact ⟨[], by simp [OnError]⟩
  | succ steps ih =>
      intro lastErr obj w
      obtain ⟨rest, hcalls⟩ := CreateOrPatch_first_call c f obj w
      simp only [OnError]
      rcases hcp : CreateOrPatch c f obj w with ⟨r, w1⟩
      rw [hcp] at hcalls
      simp only at hcalls
      cases r with
      | none => exact ⟨_, hcalls⟩
      | some p =>
          obtain ⟨err, obj1⟩ := p
          simp only
          by_cases hc : IsConflict err = true
          · simp only [hc, if_true]
            obtain ⟨extra2, hcalls2⟩ := ih (some err) obj1 w1
            exact ⟨(lookupOf obj :: rest) ++ extra2, by rw [hcalls2, hcalls, List.append_assoc]⟩
          · simp only [hc, if_false]
            exact ⟨_, hcalls⟩

theorem OnError_first_call {σ : Type} (c : Client σ) (f : Option MutateFn) (steps : Nat)
    (lastErr : Option Error) (obj : Obj) (w : World σ) :
    ∃ rest, (OnError IsConflict (CreateOrPatch c f) (steps + 1) lastErr obj w).2.calls =
      w.calls ++ lookupOf obj :: rest := by
  obtain ⟨rest, hcalls⟩ := CreateOrPatch_first_call c f obj w
  simp only [OnError]
  rcases hcp : CreateOrPatch c f obj w with ⟨r, w1⟩
  rw [hcp] at hcalls
  simp only at hcalls
  cases r with
  | none => exact ⟨_, hcalls⟩
  | some p =>
      obtain ⟨err, obj1⟩ := p
      simp only
      by_cases hc : IsConflict err = true
      · simp only [hc, if_true]
        obtain ⟨extra2, hcalls2⟩ := OnError_extends c f steps (some err) obj1 w1
        exact ⟨rest ++ extra2, by rw [hcalls2, hcalls, List.append_assoc]; rfl⟩
      · simp only [hc, if_false]
        exact ⟨_, hcalls⟩

/-- Whatever the store answers, the first call `doSync` issues for a descriptor
is the get of the descriptor's Go type at its key. -/
theorem doSync_first_call {σ : Type} (c : Client σ) (obj : Obj) (w : World σ) :
    ∃ rest, (doSync c obj w).2.calls = w.calls ++ lookupOf obj :: rest := by
  have plain : ∀ f : Option MutateFn,
      ∃ rest, (RetryOnConflict DefaultRetrySteps (CreateOrPatch c f) obj w).2.calls =
        w.calls ++ lookupOf obj :: rest := fun f => OnError_first_call c f 4 none obj w
  have typed : ∀ (k : Kind) (m : Option MutateFn) (wrap : KObj k → Obj), obj.kind = k →
      ∃ rest, (match Get c k (ObjectKeyFromObject obj) w with
          | (.error err, w1) =>
              if !IsNotFound err then (some err, w1)
              else RetryOnConflict DefaultRetrySteps (CreateOrPatch c none) obj w1
          | (.ok exist, w1) =>
              RetryOnConflict DefaultRetrySteps (CreateOrPatch c m) (wrap exist)
                w1).2.calls = w.calls ++ lookupOf obj :: rest := by
    intro k m wrap hk
    have hgc : (Get c k (ObjectKeyFromObject obj) w).2.calls = w.calls ++ [lookupOf obj] := by
      rw [← hk]; rfl
    rcases hg : Get c k (ObjectKeyFromObject obj) w with ⟨r, w1⟩
    rw [hg] at hgc
    simp only at hgc
    have after : ∀ (f : Option MutateFn) (target : Obj),
        ∃ rest, (RetryOnConflict DefaultRetrySteps (CreateOrPatch c f) target w1).2.calls =
          w.calls ++ lookupOf obj :: rest := by
      intro f target
      obtain ⟨extra, hex⟩ := OnError_extends c f DefaultRetrySteps none target w1
      exact ⟨extra, by unfold RetryOnConflict; rw [hex, hgc, List.append_assoc]; rfl⟩
    cases r with
    | error err =>
        simp only
        by_cases hnf : IsNotFound err = true
        · simp only [hnf, Bool.not_true, Bool.false_eq_true, if_false]
          exact after none obj
        · simp only [hnf, Bool.not_false, if_true]
          exact ⟨[], hgc⟩
    | ok exist =>
        simp only
        exact after m (wrap exist)
  cases obj with
  | deployment expect =>
      have h := typed .deployment (some (deploymentMutateFn expect)) Obj.deployment rfl
      simp only [doSync, doSyncTarget]
      rcases hg : Get c .deployment (ObjectKeyFromObject (.deployment expect)) w with ⟨r, w1⟩
      rw [hg] at h
      cases r with
      | error err =>
          simp only at h ⊢
          by_cases hnf : IsNotFound err = true
          · simp only [hnf, Bool.not_true, Bool.false_eq_true, if_false] at h ⊢
            exact h
          · simp only [hnf, Bool.not_false, if_true] at h ⊢
            exact h
      | ok exist => exact h
  | service expect =>
      have h := typed .service (some (serviceMutateFn expect)) Obj.service rfl
      simp only [doSync, doSyncTarget]
      rcases hg : Get c .service (ObjectKeyFromObject (.service expect)) w with ⟨r, w1⟩
      rw [hg] at h
      cases r with
      | error err =>
          simp only at h ⊢
          by_cases hnf : IsNotFound err = true
          · simp only [hnf, Bool.not_true, Bool.false_eq_true, if_false] at h ⊢
            exact h
          · simp only [hnf, Bool.not_false, if_true] at h ⊢
            exact h
      | ok exist => exact h
  | secret s => exact plain none
  | serviceAccount s => exact plain none
  | clusterRole s => exact plain none
  | clusterRoleBinding s => exact plain none

/-- A loop with `SyncOp` that succeeds has looked up every descriptor of its
list, in the order of the list. -/
theorem syncLoop_sync_lookups {σ : Type} (c : Client σ) (config : K8sGPT) (objs : List Obj) :
    ∀ w : World σ, (syncLoop c config .SyncOp objs w).1 = none →
      ∃ extra, (syncLoop c config .SyncOp objs w).2.calls = w.calls ++ extra ∧
        (objs.map lookupOf).Sublist extra := by
  induction objs with
  | nil =>
      intro w _
      exact ⟨[], by simp [syncLoop], by simp⟩
  | cons obj rest ih =>
      intro w
      obtain ⟨e0, hc0, _⟩ := checkSecret_calls c config w
      simp only [syncLoop]
      rcases hcs : checkSecret c config w with ⟨r0, w1⟩
      rw [hcs] at hc0
      simp only at hc0
      cases r0 with
      | some er => intro h; simp at h
      | none =>
          simp only
          obtain ⟨tl, hc1⟩ := doSync_first_call c obj w1
          rcases hds : doSync c obj w1 with ⟨r1, w2⟩
          rw [hds] at hc1
          simp only at hc1
          have continue_ : (syncLoop c config .SyncOp rest w2).1 = none →
              ∃ extra, (syncLoop c config .SyncOp rest w2).2.calls = w.calls ++ extra ∧
                ((obj :: rest).map lookupOf).Sublist extra := by
            intro h
            obtain ⟨e2, hc2, hs2⟩ := ih w2 h
            refine ⟨e0 ++ ((lookupOf obj :: tl) ++ e2), ?_, ?_⟩
            · rw [hc2, hc1, hc0, List.append_assoc, List.append_assoc]
            · refine List.Sublist.trans ?_ (List.sublist_append_right e0 _)
              simp only [List.map_cons, List.cons_append]
              exact List.Sublist.cons₂ _ (List.sublist_append_of_sublist_right hs2)
          cases r1 with
          | none => exact continue_
          | some err =>
              simp only
              by_cases hae : IsAlreadyExists err = true
              · simp only [hae, Bool.not_true, Bool.false_eq_true, if_false]
                exact continue_
              · simp only [hae, Bool.not_false, if_true]
                intro h; simp at h

/-- A loop with `DestroyOp` issues the deletes of a prefix of its list, in the
order of the list, and of the whole list when it succeeds. -/
theorem syncLoop_destroy_prefix {σ : Type} (c : Client σ) (config : K8sGPT) (objs : List Obj) :
    ∀ w : World σ, ∃ n, n ≤ objs.length ∧
      (syncLoop c config .DestroyOp objs w).2.calls =
        w.calls ++ (objs.take n).map Call.delete ∧
      ((syncLoop c config .DestroyOp objs w).1 = none → n = objs.length) := by
  induction objs with
  | nil =>
      intro w
      exact ⟨0, Nat.le_refl _, by simp [syncLoop], fun _ => rfl⟩
  | cons obj rest ih =>
      intro w
      have hdc : (Delete c obj w).2.calls = w.calls ++ [Call.delete obj] := rfl
      simp only [syncLoop]
      rcases hd : Delete c obj w with ⟨r, w1⟩
      rw [hd] at hdc
      simp only at hdc
      have continue_ : ∃ n, n ≤ (obj :: rest).length ∧
          (syncLoop c config .DestroyOp rest w1).2.calls =
            w.calls ++ ((obj :: rest).take n).map Call.delete ∧
          ((syncLoop c config .DestroyOp rest w1).1 = none → n = (obj :: rest).length) := by
        obtain ⟨n, hn, hc, hall⟩ := ih w1
        refine ⟨n + 1, by simp only [List.length_cons]; omega, ?_, ?_⟩
        · rw [hc, hdc, List.append_assoc]
          rfl
        · intro h
          rw [hall h]
          rfl
      cases r with
      | none => exact continue_
      | some err =>
          simp only
          by_cases hnf : IsNotFound err = true
          · simp only [hnf, Bool.not_true, Bool.false_eq_true, if_false]
            exact continue_
          · simp only [hnf, Bool.not_false, if_true]
            exact ⟨1, by simp, by rw [hdc]; rfl, fun h => by simp at h⟩

theorem all_takeWhile_append (p q : Call → Bool) (a b : List Call)
    (ha : ∀ x ∈ a, q x = true) (hb : (b.takeWhile p).all q = true) :
    ((a ++ b).takeWhile p).all q = true := by
  induction a with
  | nil => simpa using hb
  | cons x xs ih =>
      have hx := ha x (List.mem_cons_self _ _)
      have hxs : ∀ y ∈ xs, q y = true := fun y hy => ha y (List.mem_cons_of_mem _ hy)
      have h := ih hxs
      simp only [List.cons_append, List.takeWhile_cons]
      cases hp : p x with
      | true =>
          simp only [if_true, List.all_cons, hx, Bool.true_and]
          exact h
      | false => simp

/-- In a loop with `SyncOp` over descriptors listed in rank order, every call on
an object of a later kind comes after the lookup of each descriptor of an
earlier kind. -/
theorem syncLoop_sync_lookedUp {σ : Type} (c : Client σ) (config : K8sGPT) (objs : List Obj) :
    objs.Pairwise (fun a b => a.kind.rank ≤ b.kind.rank) →
    ∀ w : World σ, ∃ extra, (syncLoop c config .SyncOp objs w).2.calls = w.calls ++ extra ∧
      ∀ o ∈ objs, ∀ late : Kind, late ≠ .secret → o.kind.rank < late.rank →
        lookedUpBefore o late extra = true := by
  induction objs with
  | nil =>
      intro _ w
      exact ⟨[], by simp [syncLoop], by simp⟩
  | cons obj rest ih =>
      intro hsorted w
      obtain ⟨hhead, htail⟩ := List.pairwise_cons.mp hsorted
      obtain ⟨e0, hc0, hk0⟩ := checkSecret_calls c config w
      simp only [syncLoop]
      rcases hcs : checkSecret c config w with ⟨r0, w1⟩
      rw [hcs] at hc0
      simp only at hc0
      have he0 : ∀ late : Kind, late ≠ .secret → ∀ x ∈ e0, decide (x.kind ≠ late) = true := by
        intro late hl x hx
        rw [(hk0 x hx).2]
        exact decide_eq_true (fun h => hl h.symm)
      cases r0 with
      | some er =>
          refine ⟨e0, hc0, ?_⟩
          intro o _ late hl _
          have h := all_takeWhile_append (fun x => decide (x ≠ lookupOf o))
            (fun x => decide (x.kind ≠ late)) e0 [] (he0 late hl) rfl
          simpa [lookedUpBefore] using h
      | none =>
          simp only
          obtain ⟨tl, hc1⟩ := doSync_first_call c obj w1
          obtain ⟨seg, hcseg, hkseg⟩ := doSync_calls c obj w1
          rcases hds : doSync c obj w1 with ⟨r1, w2⟩
          rw [hds] at hc1 hcseg
          simp only at hc1 hcseg
          have hseg : seg = lookupOf obj :: tl := List.append_cancel_left (hcseg.symm.trans hc1)
          have build : ∀ t : List Call,
              (∀ o ∈ rest, ∀ late : Kind, late ≠ .secret → o.kind.rank < late.rank →
                lookedUpBefore o late t = true) →
              ∀ o ∈ obj :: rest, ∀ late : Kind, late ≠ .secret → o.kind.rank < late.rank →
                lookedUpBefore o late (e0 ++ (seg ++ t)) = true := by
            intro t ht o ho late hl hr
            rcases List.mem_cons.mp ho with h | h
            · subst h
              unfold lookedUpBefore
              refine all_takeWhile_append _ _ e0 (seg ++ t) (he0 late hl) ?_
              rw [hseg]
              simp [List.takeWhile_cons]
            · have hne : obj.kind ≠ late := by
                intro heq
                have := hhead o h
                rw [heq] at this
                exact Nat.lt_irrefl _ (Nat.lt_of_lt_of_le hr this)
              unfold lookedUpBefore
              rw [← List.append_assoc]
              refine all_takeWhile_append _ _ (e0 ++ seg) t ?_ (ht o h late hl hr)
              intro x hx
              rcases List.mem_append.mp hx with hx | hx
              · exact he0 late hl x hx
              · rw [(hkseg x hx).2]
                exact decide_eq_true hne
          have continue_ : ∃ extra, (syncLoop c config .SyncOp rest w2).2.calls = w.calls ++ extra ∧
              ∀ o ∈ obj :: rest, ∀ late : Kind, late ≠ .secret → o.kind.rank < late.rank →
                lookedUpBefore o late extra = true := by
            obtain ⟨e2, hc2, h2⟩ := ih htail w2
            exact ⟨e0 ++ (seg ++ e2), by rw [hc2, hcseg, hc0, List.append_assoc, List.append_assoc],
              build e2 h2⟩
          cases r1 with
          | none => exact continue_
          | some err =>
              simp only
              by_cases hae : IsAlreadyExists err = true
              · simp only [hae, Bool.not_true, Bool.false_eq_true, if_false]
                exact continue_
              · simp only [hae, Bool.not_false, if_true]
                exact ⟨e0 ++ (seg ++ []), by rw [List.append_nil, hcseg, hc0, List.append_assoc],
                  build [] (fun _ _ _ _ _ => rfl)⟩

theorem checkSecret_error_origin {σ : Type} (c : Client σ) (config : K8sGPT) (w : World σ)
    (e : Error) (h : (checkSecret c config w).1 = some e) :
    ∃ (sec : SecretRef) (s : σ), config.spec.ai.secret = some sec ∧
      (c.get .secret ⟨config.ns, sec.name⟩ s).1 = .error e := by
  unfold checkSecret at h
  cases hs : config.spec.ai.secret with
  | none => rw [hs] at h; simp at h
  | some sec =>
      rw [hs] at h
      simp only [Get] at h
      refine ⟨sec, w.store, rfl, ?_⟩
      cases hg : (c.get .secret ⟨config.ns, sec.name⟩ w.store).1 with
      | error er =>
          rw [hg] at h
          simp only [Option.some.injEq] at h
          rw [h]
      | ok o => rw [hg] at h; simp at h

/-- How a loop with `SyncOp` ends: it has looked up the first `n` descriptors of
its list, in order; either it succeeds and `n` is the length of the list, or it
returns an error that is the answer of a failed lookup of the credential secret
or the error, other than already-exists, of the converge of the `n`-th
descriptor. -/
theorem syncLoop_sync_progress {σ : Type} (c : Client σ) (config : K8sGPT) (objs : List Obj) :
    ∀ w : World σ, ∃ (n : Nat) (extra : List Call), n ≤ objs.length ∧
      (syncLoop c config .SyncOp objs w).2.calls = w.calls ++ extra ∧
      ((objs.take n).map lookupOf).Sublist extra ∧
      (((syncLoop c config .SyncOp objs w).1 = none ∧ n = objs.length) ∨
        ∃ e, (syncLoop c config .SyncOp objs w).1 = some e ∧
          ((∃ (sec : SecretRef) (s : σ), config.spec.ai.secret = some sec ∧
              (c.get .secret ⟨config.ns, sec.name⟩ s).1 = .error e) ∨
            (∃ (m : Nat) (obj : Obj) (w0 : World σ), n = m + 1 ∧ objs[m]? = some obj ∧
              (doSync c obj w0).1 = some e ∧ IsAlreadyExists e = false))) := by
  induction objs with
  | nil =>
      intro w
      exact ⟨0, [], Nat.le_refl _, by simp [syncLoop], by simp, Or.inl ⟨by simp [syncLoop], rfl⟩⟩
  | cons obj rest ih =>
      intro w
      obtain ⟨e0, hc0, _⟩ := checkSecret_calls c config w
      have horigin := checkSecret_error_origin c config w
      simp only [syncLoop]
      rcases hcs : checkSecret c config w with ⟨r0, w1⟩
      rw [hcs] at hc0 horigin
      simp only at hc0 horigin
      cases r0 with
      | some er =>
          exact ⟨0, e0, Nat.zero_le _, hc0, by simp, Or.inr ⟨er, rfl, Or.inl (horigin er rfl)⟩⟩
      | none =>
          simp only
          obtain ⟨tl, hc1⟩ := doSync_first_call c obj w1
          rcases hds : doSync c obj w1 with ⟨r1, w2⟩
          rw [hds] at hc1
          simp only at hc1
          have continue_ : ∃ (n : Nat) (extra : List Call), n ≤ (obj :: rest).length ∧
              (syncLoop c config .SyncOp rest w2).2.calls = w.calls ++ extra ∧
              (((obj :: rest).take n).map lookupOf).Sublist extra ∧
              (((syncLoop c config .SyncOp rest w2).1 = none ∧ n = (obj :: rest).length) ∨
                ∃ e, (syncLoop c config .SyncOp rest w2).1 = some e ∧
                  ((∃ (sec : SecretRef) (s : σ), config.spec.ai.secret = some sec ∧
                      (c.get .secret ⟨config.ns, sec.name⟩ s).1 = .error e) ∨
                    (∃ (m : Nat) (o : Obj) (w0 : World σ), n = m + 1 ∧
                      (obj :: rest)[m]? = some o ∧
                      (doSync c o w0).1 = some e ∧ IsAlreadyExists e = false))) := by
            obtain ⟨n, e2, hn, hc2, hs2, hend⟩ := ih w2
            refine ⟨n + 1, e0 ++ ((lookupOf obj :: tl) ++ e2), by simp only [List.length_cons]; omega,
              by rw [hc2, hc1, hc0, List.append_assoc, List.append_assoc], ?_, ?_⟩
            · refine List.Sublist.trans ?_ (List.sublist_append_right e0 _)
              simp only [List.take_succ_cons, List.map_cons, List.cons_append]
              exact List.Sublist.cons₂ _ (List.sublist_append_of_sublist_right hs2)
            · rcases hend with ⟨hnone, hlen⟩ | ⟨e, he, horig⟩
              · exact Or.inl ⟨hnone, by rw [hlen]; rfl⟩
              · refine Or.inr ⟨e, he, ?_⟩
                rcases horig with h | ⟨m, o, w0, hm, ho, hdo, hae⟩
                · exact Or.inl h
                · exact Or.inr ⟨m + 1, o, w0, by rw [hm], by simpa using ho, hdo, hae⟩
          cases r1 with
          | none => exact continue_
          | some err =>
              simp only
              by_cases hae : IsAlreadyExists err = true
              · simp only [hae, Bool.not_true, Bool.false_eq_true, if_false]
                exact continue_
              · simp only [hae, Bool.not_false, if_true]
                refine ⟨1, e0 ++ (lookupOf obj :: tl), by simp, by rw [hc1, hc0, List.append_assoc],
                  ?_, Or.inr ⟨err, rfl, Or.inr ⟨0, obj, w1, rfl, by simp, by rw [hds],
                    by simpa using hae⟩⟩⟩
                refine List.Sublist.trans ?_ (List.sublist_append_right e0 _)
                simp

/-- How a loop with `DestroyOp` ends: it has issued the deletes of the first `n`
descriptors of its list, in order, and nothing else; either it succeeds and `n`
is the length of the list, or it returns the error, other than not-found, that
the client answered to the delete of the `n`-th descriptor. -/
theorem syncLoop_destroy_progress {σ : Type} (c : Client σ) (config : K8sGPT)
    (objs : List Obj) :
    ∀ w : World σ, ∃ n, n ≤ objs.length ∧
      (syncLoop c config .DestroyOp objs w).2.calls =
        w.calls ++ (objs.take n).map Call.delete ∧
      (((syncLoop c config .DestroyOp objs w).1 = none ∧ n = objs.length) ∨
        ∃ (e : Error) (m : Nat) (obj : Obj) (s : σ),
          (syncLoop c config .DestroyOp objs w).1 = some e ∧ n = m + 1 ∧
          objs[m]? = some obj ∧ (c.delete obj s).1 = some e ∧ IsNotFound e = false) := by
  induction objs with
  | nil =>
      intro w
      exact ⟨0, Nat.le_refl _, by simp [syncLoop], Or.inl ⟨by simp [syncLoop], rfl⟩⟩
  | cons obj rest ih =>
      intro w
      have hdc : (Delete c obj w).2.calls = w.calls ++ [Call.delete obj] := rfl
      have hdr : (Delete c obj w).1 = (c.delete obj w.store).1 := rfl
      simp only [syncLoop]
      rcases hd : Delete c obj w with ⟨r, w1⟩
      rw [hd] at hdc hdr
      simp only at hdc hdr
      have continue_ : ∃ n, n ≤ (obj :: rest).length ∧
          (syncLoop c config .DestroyOp rest w1).2.calls =
            w.calls ++ ((obj :: rest).take n).map Call.delete ∧
          (((syncLoop c config .DestroyOp rest w1).1 = none ∧ n = (obj :: rest).length) ∨
            ∃ (e : Error) (m : Nat) (o : Obj) (s : σ),
              (syncLoop c config .DestroyOp rest w1).1 = some e ∧ n = m + 1 ∧
              (obj :: rest)[m]? = some o ∧ (c.delete o s).1 = some e ∧
              IsNotFound e = false) := by
        obtain ⟨n, hn, hc, hend⟩ := ih w1
        refine ⟨n + 1, by simp only [List.length_cons]; omega, ?_, ?_⟩
        · rw [hc, hdc, List.append_assoc]
          rfl
        · rcases hend with ⟨hnone, hlen⟩ | ⟨e, m, o, s, he, hm, ho, hdel, hnf⟩
          · exact Or.inl ⟨hnone, by rw [hlen]; rfl⟩
          · exact Or.inr ⟨e, m + 1, o, s, he, by rw [hm], by simpa using ho, hdel, hnf⟩
      cases r with
      | none => exact continue_
      | some err =>
          simp only
          by_cases hnf : IsNotFound err = true
          · simp only [hnf, Bool.not_true, Bool.false_eq_true, if_false]
            exact continue_
          · simp only [hnf, Bool.not_false, if_true]
            exact ⟨1, by simp, by rw [hdc]; rfl,
              Or.inr ⟨err, 0, obj, w.store, rfl, rfl, by simp, hdr.symm, by simpa using hnf⟩⟩

/-- C21: for every client, config and world in which the deployment builds, the
other four builders succeed and `Sync`, with either operation, is the loop over
exactly the five descriptors ServiceAccount, Service, Deployment, ClusterRole,
ClusterRoleBinding, in this order. On the calls issued after the build this
shows as follows. With `DestroyOp` they are exactly the deletes of the first `n`
of the five, in that order; either `Sync` succeeds and `n = 5`, or `Sync`
returns the error, other than not-found, that the client answered to the delete
of the `n`-th. With `SyncOp` they contain the lookups of the first `n` of the
five, in that order, and no call on an earlier kind follows a call on a later
kind; either `Sync` succeeds and `n = 5`, or `Sync` returns an error that is the
answer of a failed lookup of the credential secret or the error, other than
already-exists, of the converge of the `n`-th. -/
theorem Sync_processes_the_five_descriptors_in_order {σ : Type} (c : Client σ)
    (config : K8sGPT) (w w1 : World σ) (deployment : Deployment)
    (hd : GetDeployment config config.spec.kubeconfig.isSome c ("k8sgpt-" ++ config.ns) w =
      (.ok deployment, w1)) :
    ∃ (sa : ServiceAccount) (svc : Service) (cr : ClusterRole) (crb : ClusterRoleBinding),
      (GetServiceAccount config ("k8sgpt-" ++ config.ns) = .ok sa ∧
        GetService config = .ok svc ∧
        GetClusterRole config ("k8sgpt-" ++ config.ns) = .ok cr ∧
        GetClusterRoleBinding config ("k8sgpt-" ++ config.ns)
          ("k8sgpt-" ++ config.ns ++ "-clusterrole" ++ "-binding")
          ("k8sgpt-" ++ config.ns ++ "-clusterrole") = .ok crb) ∧
      (∀ i : SyncOrDestroy, Sync c config i w =
        syncLoop c config i
          [.serviceAccount sa, .service svc, .deployment deployment, .clusterRole cr,
            .clusterRoleBinding crb] w1) ∧
      (∃ n, n ≤ 5 ∧
        (Sync c config .DestroyOp w).2.calls =
          w1.calls ++
            (([.serviceAccount sa, .service svc, .deployment deployment, .clusterRole cr,
              .clusterRoleBinding crb] : List Obj).take n).map Call.delete ∧
        (((Sync c config .DestroyOp w).1 = none ∧ n = 5) ∨
          ∃ (e : Error) (m : Nat) (obj : Obj) (s : σ),
            (Sync c config .DestroyOp w).1 = some e ∧ n = m + 1 ∧
            ([.serviceAccount sa, .service svc, .deployment deployment, .clusterRole cr,
              .clusterRoleBinding crb] : List Obj)[m]? = some obj ∧
            (c.delete obj s).1 = some e ∧ IsNotFound e = false)) ∧
      (∃ (n : Nat) (extra : List Call), n ≤ 5 ∧
        (Sync c config .SyncOp w).2.calls = w1.calls ++ extra ∧
        List.Sublist
          ((([.serviceAccount sa, .service svc, .deployment deployment, .clusterRole cr,
            .clusterRoleBinding crb] : List Obj).take n).map lookupOf) extra ∧
        extra.Pairwise InDescriptorOrder ∧
        (((Sync c config .SyncOp w).1 = none ∧ n = 5) ∨
          ∃ e, (Sync c config .SyncOp w).1 = some e ∧
            ((∃ (sec : SecretRef) (s : σ), config.spec.ai.secret = some sec ∧
                (c.get .secret ⟨config.ns, sec.name⟩ s).1 = .error e) ∨
              (∃ (m : Nat) (obj : Obj) (w0 : World σ), n = m + 1 ∧
                ([.serviceAccount sa, .service svc, .deployment deployment, .clusterRole cr,
                  .clusterRoleBinding crb] : List Obj)[m]? = some obj ∧
                (doSync c obj w0).1 = some e ∧ IsAlreadyExists e = false)))) := by
  obtain ⟨sa, svc, cr, crb, hsa, hsvc, hcr, hcrb⟩ := builders_succeed config
    ("k8sgpt-" ++ config.ns) ("k8sgpt-" ++ config.ns ++ "-clusterrole" ++ "-binding")
    ("k8sgpt-" ++ config.ns ++ "-clusterrole")
  have hloop : ∀ i : SyncOrDestroy, Sync c config i w =
      syncLoop c config i
        [.serviceAccount sa, .service svc, .deployment deployment, .clusterRole cr,
          .clusterRoleBinding crb] w1 :=
    fun i => Sync_build_ok c config i w w1 sa svc deployment cr crb hsa hsvc hd hcr hcrb
  refine ⟨sa, svc, cr, crb, ⟨hsa, hsvc, hcr, hcrb⟩, hloop, ?_, ?_⟩
  · rw [hloop .DestroyOp]
    exact syncLoop_destroy_progress c config
      [.serviceAccount sa, .service svc, .deployment deployment, .clusterRole cr,
        .clusterRoleBinding crb] w1
  · rw [hloop .SyncOp]
    obtain ⟨n, extra, hn, hc, hsub, hend⟩ := syncLoop_sync_progress c config
      [.serviceAccount sa, .service svc, .deployment deployment, .clusterRole cr,
        .clusterRoleBinding crb] w1
    obtain ⟨extra2, hc2, _, hp⟩ := syncLoop_sync_calls c config
      [.serviceAccount sa, .service svc, .deployment deployment, .clusterRole cr,
        .clusterRoleBinding crb] (by simp [Obj.kind, Kind.rank]) w1
    have hsame : extra2 = extra := List.append_cancel_left (hc2.symm.trans hc)
    rw [hsame] at hp
    exact ⟨n, extra, hn, hc, hsub, hp, hend⟩

/-- A witness of C21: the sample config over the in-memory store. Converged over
the empty store, `Sync` succeeds, the store then holds the five descriptors in
the order of the list, and the log shows each being looked up and created in
that order; destroyed over the store holding the five, `Sync` issues their five
deletes in that order and empties the store. -/
theorem Sync_processes_the_five_descriptors_in_order_witness :
    GetDeployment sampleConfig sampleConfig.spec.kubeconfig.isSome memClient
        ("k8sgpt-" ++ sampleConfig.ns) (memWorld [] []) = (.ok sampleDeployment, memWorld [] []) ∧
    (∃ (sa : ServiceAccount) (svc : Service) (cr : ClusterRole) (crb : ClusterRoleBinding),
      (GetServiceAccount sampleConfig ("k8sgpt-" ++ sampleConfig.ns) = .ok sa ∧
        GetService sampleConfig = .ok svc ∧
        GetClusterRole sampleConfig ("k8sgpt-" ++ sampleConfig.ns) = .ok cr ∧
        GetClusterRoleBinding sampleConfig ("k8sgpt-" ++ sampleConfig.ns)
          ("k8sgpt-" ++ sampleConfig.ns ++ "-clusterrole" ++ "-binding")
          ("k8sgpt-" ++ sampleConfig.ns ++ "-clusterrole") = .ok crb) ∧
      (∀ i : SyncOrDestroy, Sync memClient sampleConfig i (memWorld [] []) =
        syncLoop memClient sampleConfig i
          [.serviceAccount sa, .service svc, .deployment sampleDeployment, .clusterRole cr,
            .clusterRoleBinding crb] (memWorld [] [])) ∧
      (∃ n, n ≤ 5 ∧
        (Sync memClient sampleConfig .DestroyOp (memWorld [] [])).2.calls =
          (memWorld [] []).calls ++
            (([.serviceAccount sa, .service svc, .deployment sampleDeployment, .clusterRole cr,
              .clusterRoleBinding crb] : List Obj).take n).map Call.delete ∧
        (((Sync memClient sampleConfig .DestroyOp (memWorld [] [])).1 = none ∧ n = 5) ∨
          ∃ (e : Error) (m : Nat) (obj : Obj) (s : MemStore),
            (Sync memClient sampleConfig .DestroyOp (memWorld [] [])).1 = some e ∧ n = m + 1 ∧
            ([.serviceAccount sa, .service svc, .deployment sampleDeployment, .clusterRole cr,
              .clusterRoleBinding crb] : List Obj)[m]? = some obj ∧
            (memClient.delete obj s).1 = some e ∧ IsNotFound e = false)) ∧
      (∃ (n : Nat) (extra : List Call), n ≤ 5 ∧
        (Sync memClient sampleConfig .SyncOp (memWorld [] [])).2.calls =
          (memWorld [] []).calls ++ extra ∧
        List.Sublist
          ((([.serviceAccount sa, .service svc, .deployment sampleDeployment, .clusterRole cr,
            .clusterRoleBinding crb] : List Obj).take n).map lookupOf) extra ∧
        extra.Pairwise InDescriptorOrder ∧
        (((Sync memClient sampleConfig .SyncOp (memWorld [] [])).1 = none ∧ n = 5) ∨
          ∃ e, (Sync memClient sampleConfig .SyncOp (memWorld [] [])).1 = some e ∧
            ((∃ (sec : SecretRef) (s : MemStore), sampleConfig.spec.ai.secret = some sec ∧
                (memClient.get .secret ⟨sampleConfig.ns, sec.name⟩ s).1 = .error e) ∨
              (∃ (m : Nat) (obj : Obj) (w0 : World MemStore), n = m + 1 ∧
                ([.serviceAccount sa, .service svc, .deployment sampleDeployment, .clusterRole cr,
                  .clusterRoleBinding crb] : List Obj)[m]? = some obj ∧
                (doSync memClient obj w0).1 = some e ∧ IsAlreadyExists e = false))))) ∧
    ((Sync memClient sampleConfig .SyncOp (memWorld [] [])).1 = none ∧
      (Sync memClient sampleConfig .SyncOp (memWorld [] [])).2.store.objs =
        [.serviceAccount sampleServiceAccount, .service sampleService,
          .deployment sampleDeployment, .clusterRole sampleClusterRole,
          .clusterRoleBinding sampleClusterRoleBinding] ∧
      (Sync memClient sampleConfig .SyncOp (memWorld [] [])).2.calls =
        [Call.get .serviceAccount ⟨"ns1", "k8sgpt-ns1"⟩,
          Call.create (.serviceAccount sampleServiceAccount),
          Call.get .service ⟨"ns1", "k8sgpt-sample"⟩,
          Call.get .service ⟨"ns1", "k8sgpt-sample"⟩,
          Call.create (.service sampleService),
          Call.get .deployment ⟨"ns1", "k8sgpt-sample"⟩,
          Call.get .deployment ⟨"ns1", "k8sgpt-sample"⟩,
          Call.create (.deployment sampleDeployment),
          Call.get .clusterRole ⟨"", "k8sgpt-ns1-clusterrole"⟩,
          Call.create (.clusterRole sampleClusterRole),
          Call.get .clusterRoleBinding ⟨"", "k8sgpt-ns1-clusterrole-binding"⟩,
          Call.create (.clusterRoleBinding sampleClusterRoleBinding)]) ∧
    ((Sync memClient sampleConfig .DestroyOp
        (memWorld [.serviceAccount sampleServiceAccount, .service sampleService,
          .deployment sampleDeployment, .clusterRole sampleClusterRole,
          .clusterRoleBinding sampleClusterRoleBinding] [])).1 = none ∧
      (Sync memClient sampleConfig .DestroyOp
        (memWorld [.serviceAccount sampleServiceAccount, .service sampleService,
          .deployment sampleDeployment, .clusterRole sampleClusterRole,
          .clusterRoleBinding sampleClusterRoleBinding] [])).2.store.objs = [] ∧
      (Sync memClient sampleConfig .DestroyOp
        (memWorld [.serviceAccount sampleServiceAccount, .service sampleService,
          .deployment sampleDeployment, .clusterRole sampleClusterRole,
          .clusterRoleBinding sampleClusterRoleBinding] [])).2.calls =
        [Call.delete (.serviceAccount sampleServiceAccount), Call.delete (.service sampleService),
          Call.delete (.deployment sampleDeployment), Call.delete (.clusterRole sampleClusterRole),
          Call.delete (.clusterRoleBinding sampleClusterRoleBinding)]) :=
  ⟨rfl,
    Sync_processes_the_five_descriptors_in_order memClient sampleConfig (memWorld [] [])
      (memWorld [] []) sampleDeployment rfl,
    ⟨by decide, by decide, by decide⟩,
    ⟨by decide, by decide, by decide⟩⟩

/-! ## Objects that are never updated in place -/

theorem CreateOrPatch_none_no_patch {σ : Type} (c : Client σ) (obj : Obj) (w : World σ) :
    ∃ extra, (CreateOrPatch c none obj w).2.calls = w.calls ++ extra ∧
      ∀ x ∈ extra, x.isPatch = false := by
  obtain ⟨hgc, _⟩ := GetInto_calls c (ObjectKeyFromObject obj) obj w
  unfold CreateOrPatch
  simp only [mutateIfSet]
  rcases hg : GetInto c (ObjectKeyFromObject obj) obj w with ⟨r, obj0, w1⟩
  rw [hg] at hgc
  simp only at hgc
  have hget : ∀ x ∈ [Call.get obj.kind (ObjectKeyFromObject obj)], x.isPatch = false := by
    intro x hx
    simp only [List.mem_singleton] at hx
    subst hx
    rfl
  cases r with
  | some err =>
      simp only
      by_cases hnf : IsNotFound err = true
      · simp only [hnf, Bool.not_true, Bool.false_eq_true, if_false]
        have hcc : (Create c obj0 w1).2.calls = w1.calls ++ [Call.create obj0] := rfl
        rcases hcr : Create c obj0 w1 with ⟨rc, w2⟩
        rw [hcr] at hcc
        simp only at hcc
        have hall : ∀ x ∈ [Call.get obj.kind (ObjectKeyFromObject obj), Call.create obj0],
            x.isPatch = false := by
          intro x hx
          simp only [List.mem_cons, List.mem_singleton, List.not_mem_nil, or_false] at hx
          rcases hx with hx | hx <;> subst hx <;> rfl
        cases rc <;> exact ⟨_, by rw [hcc, hgc, List.append_assoc]; rfl, hall⟩
      · simp only [hnf, Bool.not_false, if_true]
        exact ⟨_, hgc, hget⟩
  | none =>
      simp only [ne_eq, not_true_eq_false, if_false]
      exact ⟨_, hgc, hget⟩

theorem OnError_none_no_patch {σ : Type} (c : Client σ) (steps : Nat) :
    ∀ (lastErr : Option Error) (obj : Obj) (w : World σ),
      ∃ extra, (OnError IsConflict (CreateOrPatch c none) steps lastErr obj w).2.calls =
          w.calls ++ extra ∧
        ∀ x ∈ extra, x.isPatch = false := by
  induction steps with
  | zero =>
      intro lastErr obj w
      exact ⟨[], by simp [OnError], by simp⟩
  | succ steps ih =>
      intro lastErr obj w
      obtain ⟨extra, hcalls, hall⟩ := CreateOrPatch_none_no_patch c obj w
      simp only [OnError]
      rcases hcp : CreateOrPatch c none obj w with ⟨r, w1⟩
      rw [hcp] at hcalls
      simp only at hcalls
      cases r with
      | none => exact ⟨extra, hcalls, hall⟩
      | some p =>
          obtain ⟨err, obj1⟩ := p
          simp only
          by_cases hc : IsConflict err = true
          · simp only [hc, if_true]
            obtain ⟨extra2, hcalls2, hall2⟩ := ih (some err) obj1 w1
            refine ⟨extra ++ extra2, by rw [hcalls2, hcalls, List.append_assoc], ?_⟩
            intro x hx
            rcases List.mem_append.mp hx with h | h
            · exact hall x h
            · exact hall2 x h
          · simp only [hc, if_false]
            exact ⟨extra, hcalls, hall⟩

/-- Whatever the store answers, a patch that `doSync` issues concerns a
Deployment or a Service. -/
theorem doSync_patches {σ : Type} (c : Client σ) (obj : Obj) (w : World σ) :
    ∃ extra, (doSync c obj w).2.calls = w.calls ++ extra ∧
      ∀ x ∈ extra, x.isPatch = true → x.kind = .deployment ∨ x.kind = .service := by
  have plain : (doSync c obj w = RetryOnConflict DefaultRetrySteps (CreateOrPatch c none) obj w) →
      ∃ extra, (doSync c obj w).2.calls = w.calls ++ extra ∧
        ∀ x ∈ extra, x.isPatch = true → x.kind = .deployment ∨ x.kind = .service := by
    intro h
    obtain ⟨extra, hc, hall⟩ := OnError_none_no_patch c DefaultRetrySteps none obj w
    refine ⟨extra, by rw [h]; exact hc, ?_⟩
    intro x hx hp
    rw [hall x hx] at hp
    cases hp
  have typed : (obj.kind = .deployment ∨ obj.kind = .service) →
      ∃ extra, (doSync c obj w).2.calls = w.calls ++ extra ∧
        ∀ x ∈ extra, x.isPatch = true → x.kind = .deployment ∨ x.kind = .service := by
    intro hk
    obtain ⟨extra, hc, hall⟩ := doSync_calls c obj w
    refine ⟨extra, hc, ?_⟩
    intro x hx _
    rw [(hall x hx).2]
    exact hk
  cases obj with
  | deployment expect => exact typed (Or.inl rfl)
  | service expect => exact typed (Or.inr rfl)
  | secret s => exact plain rfl
  | serviceAccount s => exact plain rfl
  | clusterRole s => exact plain rfl
  | clusterRoleBinding s => exact plain rfl

/-- C23: for every client and world, and every descriptor that is a
ServiceAccount, a ClusterRole or a ClusterRoleBinding whose lookup answers a
stored object (any stored object, equal to the descriptor or not): the type
switch of `doSync` supplies no mutate function and leaves the descriptor as the
object to converge, and `doSync` succeeds having issued exactly one call, the
lookup, so no create and no patch; the store is in the state the lookup left.
And for a descriptor of any kind, every patch `doSync` issues concerns a
Deployment or a Service. -/
theorem existing_identity_and_access_objects_are_not_updated {σ : Type} (c : Client σ)
    (d : Obj) (w : World σ) (stored : KObj d.kind)
    (hkind : d.kind = .serviceAccount ∨ d.kind = .clusterRole ∨ d.kind = .clusterRoleBinding)
    (hexists : (c.get d.kind (ObjectKeyFromObject d) w.store).1 = .ok stored) :
    doSyncTarget c d w = (.ok (d, none), w) ∧
      doSync c d w =
        (none, ⟨(c.get d.kind (ObjectKeyFromObject d) w.store).2, w.calls ++ [lookupOf d]⟩) ∧
      ∀ (obj : Obj) (w0 : World σ),
        ∃ extra, (doSync c obj w0).2.calls = w0.calls ++ extra ∧
          ∀ x ∈ extra, x.isPatch = true → x.kind = .deployment ∨ x.kind = .service := by
  have hcp : CreateOrPatch c none d w =
      (none, ⟨(c.get d.kind (ObjectKeyFromObject d) w.store).2, w.calls ++ [lookupOf d]⟩) := by
    unfold CreateOrPatch GetInto Get
    simp only [hexists, mutateIfSet, ne_eq, not_true_eq_false, if_false]
    rfl
  have hds : RetryOnConflict DefaultRetrySteps (CreateOrPatch c none) d w =
      (none, ⟨(c.get d.kind (ObjectKeyFromObject d) w.store).2, w.calls ++ [lookupOf d]⟩) := by
    simp only [RetryOnConflict, DefaultRetrySteps, OnError, hcp]
  refine ⟨?_, ?_, fun obj w0 => doSync_patches c obj w0⟩
  · cases d with
    | deployment expect => simp [Obj.kind] at hkind
    | service expect => simp [Obj.kind] at hkind
    | secret s => simp [Obj.kind] at hkind
    | serviceAccount s => rfl
    | clusterRole s => rfl
    | clusterRoleBinding s => rfl
  · cases d with
    | deployment expect => simp [Obj.kind] at hkind
    | service expect => simp [Obj.kind] at hkind
    | secret s => simp [Obj.kind] at hkind
    | serviceAccount s => exact hds
    | clusterRole s => exact hds
    | clusterRoleBinding s => exact hds

theorem existing_identity_and_access_objects_are_not_updated_witness :
    (GetServiceAccount sampleWithIRSA "k8sgpt-ns1" = .ok irsaServiceAccount ∧
      irsaServiceAccount ≠ storedServiceAccount ∧
      (doSync memClient (.serviceAccount irsaServiceAccount)
          (memWorld [.serviceAccount storedServiceAccount] [])).2.store.objs =
        [.serviceAccount storedServiceAccount]) ∧
    ((Obj.serviceAccount irsaServiceAccount).kind = .serviceAccount ∨
      (Obj.serviceAccount irsaServiceAccount).kind = .clusterRole ∨
      (Obj.serviceAccount irsaServiceAccount).kind = .clusterRoleBinding) ∧
    (memClient.get (Obj.serviceAccount irsaServiceAccount).kind
        (ObjectKeyFromObject (.serviceAccount irsaServiceAccount))
        (memWorld [.serviceAccount storedServiceAccount] []).store).1 =
      .ok storedServiceAccount ∧
    (doSyncTarget memClient (.serviceAccount irsaServiceAccount)
          (memWorld [.serviceAccount storedServiceAccount] []) =
        (.ok (.serviceAccount irsaServiceAccount, none),
          memWorld [.serviceAccount storedServiceAccount] []) ∧
      doSync memClient (.serviceAccount irsaServiceAccount)
          (memWorld [.serviceAccount storedServiceAccount] []) =
        (none, ⟨(memClient.get (Obj.serviceAccount irsaServiceAccount).kind
            (ObjectKeyFromObject (.serviceAccount irsaServiceAccount))
            (memWorld [.serviceAccount storedServiceAccount] []).store).2,
          (memWorld [.serviceAccount storedServiceAccount] []).calls ++
            [lookupOf (.serviceAccount irsaServiceAccount)]⟩) ∧
      ∀ (obj : Obj) (w0 : World MemStore),
        ∃ extra, (doSync memClient obj w0).2.calls = w0.calls ++ extra ∧
          ∀ x ∈ extra, x.isPatch = true → x.kind = .deployment ∨ x.kind = .service) :=
  ⟨⟨rfl, by decide, by decide⟩, Or.inl rfl, rfl,
    existing_identity_and_access_objects_are_not_updated memClient
      (.serviceAccount irsaServiceAccount) (memWorld [.serviceAccount storedServiceAccount] [])
      storedServiceAccount (Or.inl rfl) rfl⟩

/-! ## `DestroyOp` builds before it deletes -/

/-- C24: for every client, config and world. (1) When the build of the
deployment fails with an error, `Sync` with `DestroyOp` returns that error in the
world the build left, and every call it issued is a get: no delete at all.
(2) The build fails whenever the engine is set for a backend other than
azureopenai, or the backend is amazonbedrock with an empty region, or the backend
is amazonbedrock or ibmwatsonxai with a credential secret whose lookup fails.
(3) When the build succeeds, the calls `Sync` with `DestroyOp` issues after the
build are deletes only, none of them on a secret: the loop makes no lookup of the
credential secret. -/
theorem destroy_builds_before_it_deletes {σ : Type} (c : Client σ) (config : K8sGPT)
    (w : World σ) :
    (∀ e, (GetDeployment config config.spec.kubeconfig.isSome c ("k8sgpt-" ++ config.ns) w).1 =
        .error e →
      Sync c config .DestroyOp w =
        (some e, (GetDeployment config config.spec.kubeconfig.isSome c
          ("k8sgpt-" ++ config.ns) w).2) ∧
      ∃ extra, (Sync c config .DestroyOp w).2.calls = w.calls ++ extra ∧
        ∀ x ∈ extra, x.isGet = true ∧ x.isDelete = false) ∧
    (((config.spec.ai.engine ≠ "" ∧ config.spec.ai.backend ≠ AzureOpenAI) ∨
        (config.spec.ai.backend = AmazonBedrock ∧ config.spec.ai.region = "") ∨
        ((config.spec.ai.backend = AmazonBedrock ∨ config.spec.ai.backend = IBMWatsonxAI) ∧
          ∃ sec e0, config.spec.ai.secret = some sec ∧
            (c.get .secret ⟨config.ns, sec.name⟩ w.store).1 = .error e0)) →
      ∃ e, (GetDeployment config config.spec.kubeconfig.isSome c
        ("k8sgpt-" ++ config.ns) w).1 = .error e) ∧
    (∀ d w1, GetDeployment config config.spec.kubeconfig.isSome c ("k8sgpt-" ++ config.ns) w =
        (.ok d, w1) →
      ∃ extra, (Sync c config .DestroyOp w).2.calls = w1.calls ++ extra ∧
        ∀ x ∈ extra, x.isDelete = true ∧ x.isGet = false ∧ x.kind ≠ .secret) := by
  refine ⟨?_, ?_, ?_⟩
  · intro e he
    have hs := Sync_build_error c config .DestroyOp w e he
    refine ⟨hs, ?_⟩
    rw [hs]
    obtain ⟨extra, hc, hall⟩ := GetDeployment_onlyGets config config.spec.kubeconfig.isSome c
      ("k8sgpt-" ++ config.ns) w
    exact ⟨extra, hc, fun x hx => ⟨hall x hx, (isGet_not_delete x (hall x hx)).1⟩⟩
  · rintro (⟨he, hb⟩ | ⟨hb, hr⟩ | ⟨hb, sec, e0, hs, hget⟩)
    · exact ⟨_, by rw [GetDeployment_engine_error config _ c _ w he hb]⟩
    · exact GetDeployment_no_region config _ c _ w hb hr
    · exact GetDeployment_unfetchable config _ c _ w sec e0 hb hs hget
  · intro d w1 hd
    obtain ⟨sa, svc, cr, crb, hsa, hsvc, hcr, hcrb⟩ := builders_succeed config
      ("k8sgpt-" ++ config.ns) ("k8sgpt-" ++ config.ns ++ "-clusterrole" ++ "-binding")
      ("k8sgpt-" ++ config.ns ++ "-clusterrole")
    rw [Sync_build_ok c config .DestroyOp w w1 sa svc d cr crb hsa hsvc hd hcr hcrb]
    obtain ⟨n, _, hc, _⟩ := syncLoop_destroy_prefix c config
      [.serviceAccount sa, .service svc, .deployment d, .clusterRole cr,
        .clusterRoleBinding crb] w1
    refine ⟨_, hc, ?_⟩
    intro x hx
    obtain ⟨o, ho, rfl⟩ := List.mem_map.mp hx
    have ho5 := List.mem_of_mem_take ho
    simp only [List.mem_cons, List.mem_singleton, List.not_mem_nil, or_false] at ho5
    refine ⟨rfl, rfl, ?_⟩
    rcases ho5 with h | h | h | h | h <;> subst h <;> simp [Call.kind, Obj.kind]
theorem destroy_builds_before_it_deletes_witness :
    (((sampleWatsonx.spec.ai.backend = AmazonBedrock ∨
          sampleWatsonx.spec.ai.backend = IBMWatsonxAI) ∧
        ∃ sec e0, sampleWatsonx.spec.ai.secret = some sec ∧
          (memClient.get .secret ⟨sampleWatsonx.ns, sec.name⟩
            (memWorld [.serviceAccount sampleServiceAccount] []).store).1 = .error e0) ∧
      (∃ e, (GetDeployment sampleWatsonx sampleWatsonx.spec.kubeconfig.isSome memClient
        ("k8sgpt-" ++ sampleWatsonx.ns) (memWorld [.serviceAccount sampleServiceAccount] [])).1 =
          .error e)) ∧
    ((GetDeployment sampleWatsonx sampleWatsonx.spec.kubeconfig.isSome memClient
          ("k8sgpt-" ++ sampleWatsonx.ns) (memWorld [.serviceAccount sampleServiceAccount] [])).1 =
        .error secretMissingError ∧
      Sync memClient sampleWatsonx .DestroyOp (memWorld [.serviceAccount sampleServiceAccount] []) =
        (some secretMissingError,
          (GetDeployment sampleWatsonx sampleWatsonx.spec.kubeconfig.isSome memClient
            ("k8sgpt-" ++ sampleWatsonx.ns)
            (memWorld [.serviceAccount sampleServiceAccount] [])).2) ∧
      ∃ extra,
        (Sync memClient sampleWatsonx .DestroyOp
          (memWorld [.serviceAccount sampleServiceAccount] [])).2.calls =
          (memWorld [.serviceAccount sampleServiceAccount] []).calls ++ extra ∧
        ∀ x ∈ extra, x.isGet = true ∧ x.isDelete = false) ∧
    ((Sync memClient sampleWatsonx .DestroyOp
          (memWorld [.serviceAccount sampleServiceAccount] [])).2.store.objs =
        [.serviceAccount sampleServiceAccount] ∧
      (Sync memClient sampleWatsonx .DestroyOp
          (memWorld [.serviceAccount sampleServiceAccount] [])).2.calls =
        [Call.get .secret ⟨"ns1", "ai-secret"⟩]) ∧
    (GetDeployment sampleWithSecret sampleWithSecret.spec.kubeconfig.isSome memClient
        ("k8sgpt-" ++ sampleWithSecret.ns) (memWorld [.serviceAccount sampleServiceAccount] []) =
      (.ok (builtDeployment sampleWithSecret false "k8sgpt-ns1"),
        memWorld [.serviceAccount sampleServiceAccount] []) ∧
      ∃ extra,
        (Sync memClient sampleWithSecret .DestroyOp
          (memWorld [.serviceAccount sampleServiceAccount] [])).2.calls =
          (memWorld [.serviceAccount sampleServiceAccount] []).calls ++ extra ∧
        ∀ x ∈ extra, x.isDelete = true ∧ x.isGet = false ∧ x.kind ≠ .secret) ∧
    ((Sync memClient sampleWithSecret .DestroyOp
          (memWorld [.serviceAccount sampleServiceAccount] [])).1 = none ∧
      (Sync memClient sampleWithSecret .DestroyOp
          (memWorld [.serviceAccount sampleServiceAccount] [])).2.store.objs = [] ∧
      (Sync memClient sampleWithSecret .DestroyOp
          (memWorld [.serviceAccount sampleServiceAccount] [])).2.calls.length = 5 ∧
      (Sync memClient sampleWithSecret .SyncOp
          (memWorld [.serviceAccount sampleServiceAccount] [])).1 = some notFoundError) :=
  ⟨⟨⟨Or.inr rfl, _, _, rfl, rfl⟩,
      (destroy_builds_before_it_deletes memClient sampleWatsonx
        (memWorld [.serviceAccount sampleServiceAccount] [])).2.1
        (Or.inr (Or.inr ⟨Or.inr rfl, _, _, rfl, rfl⟩))⟩,
    ⟨rfl,
      (destroy_builds_before_it_deletes memClient sampleWatsonx
        (memWorld [.serviceAccount sampleServiceAccount] [])).1 secretMissingError rfl⟩,
    ⟨by decide, by decide⟩,
    ⟨rfl,
      (destroy_builds_before_it_deletes memClient sampleWithSecret
        (memWorld [.serviceAccount sampleServiceAccount] [])).2.2 _ _ rfl⟩,
    ⟨by decide, by decide, by decide, by decide⟩⟩

/-! ## The order of a converge pass -/

/-- C16, amended: for every client, config and world. When the deployment fails
to build, `Sync` with `SyncOp` returns the build error having issued gets only:
no descriptor is converged. When it builds, among the calls issued after the
build: no call on the ServiceAccount follows a call on the Deployment, and no
call on the Deployment follows a call on the ClusterRole or on the
ClusterRoleBinding; every call on the Deployment comes after the lookup of the
ServiceAccount, and every call on the ClusterRole or on the ClusterRoleBinding
comes after the lookup of the Deployment; the lookups of the first `n` of the
five descriptors ServiceAccount, Service, Deployment, ClusterRole,
ClusterRoleBinding occur in that order; and either `Sync` succeeds and `n = 5`,
or `Sync` returns an error that is the answer of a failed lookup of the
credential secret or the error, other than already-exists, of the converge of
the `n`-th descriptor. -/
theorem identity_before_workload_before_access_control {σ : Type} (c : Client σ)
    (config : K8sGPT) (w : World σ) :
    (∀ e, (GetDeployment config config.spec.kubeconfig.isSome c ("k8sgpt-" ++ config.ns) w).1 =
        .error e →
      Sync c config .SyncOp w =
        (some e, (GetDeployment config config.spec.kubeconfig.isSome c
          ("k8sgpt-" ++ config.ns) w).2) ∧
      IssuedOnlyGets w (Sync c config .SyncOp w).2) ∧
    (∀ (d : Deployment) (w1 : World σ),
      GetDeployment config config.spec.kubeconfig.isSome c ("k8sgpt-" ++ config.ns) w =
        (.ok d, w1) →
      ∃ (sa : ServiceAccount) (svc : Service) (cr : ClusterRole) (crb : ClusterRoleBinding)
        (n : Nat) (loopCalls : List Call),
        (GetServiceAccount config ("k8sgpt-" ++ config.ns) = .ok sa ∧
          GetService config = .ok svc ∧
          GetClusterRole config ("k8sgpt-" ++ config.ns) = .ok cr ∧
          GetClusterRoleBinding config ("k8sgpt-" ++ config.ns)
            ("k8sgpt-" ++ config.ns ++ "-clusterrole" ++ "-binding")
            ("k8sgpt-" ++ config.ns ++ "-clusterrole") = .ok crb) ∧
        (Sync c config .SyncOp w).2.calls = w1.calls ++ loopCalls ∧
        (convergedBefore .serviceAccount .deployment loopCalls = true ∧
          convergedBefore .deployment .clusterRole loopCalls = true ∧
          convergedBefore .deployment .clusterRoleBinding loopCalls = true) ∧
        (lookedUpBefore (.serviceAccount sa) .deployment loopCalls = true ∧
          lookedUpBefore (.deployment d) .clusterRole loopCalls = true ∧
          lookedUpBefore (.deployment d) .clusterRoleBinding loopCalls = true) ∧
        n ≤ 5 ∧
        List.Sublist
          ((([.serviceAccount sa, .service svc, .deployment d, .clusterRole cr,
            .clusterRoleBinding crb] : List Obj).take n).map lookupOf) loopCalls ∧
        (((Sync c config .SyncOp w).1 = none ∧ n = 5) ∨
          ∃ e, (Sync c config .SyncOp w).1 = some e ∧
            ((∃ (sec : SecretRef) (s : σ), config.spec.ai.secret = some sec ∧
                (c.get .secret ⟨config.ns, sec.name⟩ s).1 = .error e) ∨
              (∃ (m : Nat) (obj : Obj) (w0 : World σ), n = m + 1 ∧
                ([.serviceAccount sa, .service svc, .deployment d, .clusterRole cr,
                  .clusterRoleBinding crb] : List Obj)[m]? = some obj ∧
                (doSync c obj w0).1 = some e ∧ IsAlreadyExists e = false)))) := by
  constructor
  · intro e he
    have hs := Sync_build_error c config .SyncOp w e he
    refine ⟨hs, ?_⟩
    rw [hs]
    exact GetDeployment_onlyGets config _ c _ w
  · intro d w1 hd
    obtain ⟨sa, svc, cr, crb, hsa, hsvc, hcr, hcrb⟩ := builders_succeed config
      ("k8sgpt-" ++ config.ns) ("k8sgpt-" ++ config.ns ++ "-clusterrole" ++ "-binding")
      ("k8sgpt-" ++ config.ns ++ "-clusterrole")
    have hsorted : ([.serviceAccount sa, .service svc, .deployment d, .clusterRole cr,
        .clusterRoleBinding crb] : List Obj).Pairwise
        (fun a b => a.kind.rank ≤ b.kind.rank) := by simp [Obj.kind, Kind.rank]
    rw [Sync_build_ok c config .SyncOp w w1 sa svc d cr crb hsa hsvc hd hcr hcrb]
    obtain ⟨n, extra, hn, hc, hsub, hend⟩ := syncLoop_sync_progress c config
      [.serviceAccount sa, .service svc, .deployment d, .clusterRole cr,
        .clusterRoleBinding crb] w1
    obtain ⟨extra2, hc2, _, hp⟩ := syncLoop_sync_calls c config
      [.serviceAccount sa, .service svc, .deployment d, .clusterRole cr,
        .clusterRoleBinding crb] hsorted w1
    obtain ⟨extra3, hc3, hlook⟩ := syncLoop_sync_lookedUp c config
      [.serviceAccount sa, .service svc, .deployment d, .clusterRole cr,
        .clusterRoleBinding crb] hsorted w1
    have h2 : extra2 = extra := List.append_cancel_left (hc2.symm.trans hc)
    have h3 : extra3 = extra := List.append_cancel_left (hc3.symm.trans hc)
    rw [h2] at hp
    rw [h3] at hlook
    refine ⟨sa, svc, cr, crb, n, extra, ⟨hsa, hsvc, hcr, hcrb⟩, hc, ⟨?_, ?_, ?_⟩, ⟨?_, ?_, ?_⟩,
      hn, hsub, hend⟩
    · exact convergedBefore_of_pairwise _ _ extra (by decide) (by decide) (by decide) hp
    · exact convergedBefore_of_pairwise _ _ extra (by decide) (by decide) (by decide) hp
    · exact convergedBefore_of_pairwise _ _ extra (by decide) (by decide) (by decide) hp
    · exact hlook (.serviceAccount sa) (by simp) .deployment (by decide)
        (by simp [Obj.kind, Kind.rank])
    · exact hlook (.deployment d) (by simp) .clusterRole (by decide)
        (by simp [Obj.kind, Kind.rank])
    · exact hlook (.deployment d) (by simp) .clusterRoleBinding (by decide)
        (by simp [Obj.kind, Kind.rank])

/-- A witness of C16 (amended): the sample config converged over the empty
in-memory store. The deployment builds, `Sync` succeeds, and its log shows the
five descriptors looked up and created in the order ServiceAccount, Service,
Deployment, ClusterRole, ClusterRoleBinding. -/
theorem identity_before_workload_before_access_control_witness :
    (GetDeployment sampleConfig sampleConfig.spec.kubeconfig.isSome memClient
        ("k8sgpt-" ++ sampleConfig.ns) (memWorld [] []) = (.ok sampleDeployment, memWorld [] []) ∧
      (Sync memClient sampleConfig .SyncOp (memWorld [] [])).1 = none ∧
      (Sync memClient sampleConfig .SyncOp (memWorld [] [])).2.calls =
        [Call.get .serviceAccount ⟨"ns1", "k8sgpt-ns1"⟩,
          Call.create (.serviceAccount sampleServiceAccount),
          Call.get .service ⟨"ns1", "k8sgpt-sample"⟩,
          Call.get .service ⟨"ns1", "k8sgpt-sample"⟩,
          Call.create (.service sampleService),
          Call.get .deployment ⟨"ns1", "k8sgpt-sample"⟩,
          Call.get .deployment ⟨"ns1", "k8sgpt-sample"⟩,
          Call.create (.deployment sampleDeployment),
          Call.get .clusterRole ⟨"", "k8sgpt-ns1-clusterrole"⟩,
          Call.create (.clusterRole sampleClusterRole),
          Call.get .clusterRoleBinding ⟨"", "k8sgpt-ns1-clusterrole-binding"⟩,
          Call.create (.clusterRoleBinding sampleClusterRoleBinding)]) ∧
    ∃ (sa : ServiceAccount) (svc : Service) (cr : ClusterRole) (crb : ClusterRoleBinding)
      (n : Nat) (loopCalls : List Call),
      (GetServiceAccount sampleConfig ("k8sgpt-" ++ sampleConfig.ns) = .ok sa ∧
        GetService sampleConfig = .ok svc ∧
        GetClusterRole sampleConfig ("k8sgpt-" ++ sampleConfig.ns) = .ok cr ∧
        GetClusterRoleBinding sampleConfig ("k8sgpt-" ++ sampleConfig.ns)
          ("k8sgpt-" ++ sampleConfig.ns ++ "-clusterrole" ++ "-binding")
          ("k8sgpt-" ++ sampleConfig.ns ++ "-clusterrole") = .ok crb) ∧
      (Sync memClient sampleConfig .SyncOp (memWorld [] [])).2.calls =
        (memWorld [] []).calls ++ loopCalls ∧
      (convergedBefore .serviceAccount .deployment loopCalls = true ∧
        convergedBefore .deployment .clusterRole loopCalls = true ∧
        convergedBefore .deployment .clusterRoleBinding loopCalls = true) ∧
      (lookedUpBefore (.serviceAccount sa) .deployment loopCalls = true ∧
        lookedUpBefore (.deployment sampleDeployment) .clusterRole loopCalls = true ∧
        lookedUpBefore (.deployment sampleDeployment) .clusterRoleBinding loopCalls = true) ∧
      n ≤ 5 ∧
      List.Sublist
        ((([.serviceAccount sa, .service svc, .deployment sampleDeployment, .clusterRole cr,
          .clusterRoleBinding crb] : List Obj).take n).map lookupOf) loopCalls ∧
      (((Sync memClient sampleConfig .SyncOp (memWorld [] [])).1 = none ∧ n = 5) ∨
        ∃ e, (Sync memClient sampleConfig .SyncOp (memWorld [] [])).1 = some e ∧
          ((∃ (sec : SecretRef) (s : MemStore), sampleConfig.spec.ai.secret = some sec ∧
              (memClient.get .secret ⟨sampleConfig.ns, sec.name⟩ s).1 = .error e) ∨
            (∃ (m : Nat) (obj : Obj) (w0 : World MemStore), n = m + 1 ∧
              ([.serviceAccount sa, .service svc, .deployment sampleDeployment, .clusterRole cr,
                .clusterRoleBinding crb] : List Obj)[m]? = some obj ∧
              (doSync memClient obj w0).1 = some e ∧ IsAlreadyExists e = false))) :=
  ⟨⟨rfl, by decide, by decide⟩,
    (identity_before_workload_before_access_control memClient sampleConfig
      (memWorld [] [])).2 sampleDeployment (memWorld [] []) rfl⟩

end K8sgpt
